import Mathlib

/-!
# STM32 USART serial driver: receive ring and transmit queue

A shallow embedding of `linux/drivers/tty/serial/stm32-usart.c`.

* Machine words are natural numbers; where the C code can wrap (the `__u32`
  event counters, `~bits` on a 32-bit register value, the unsigned
  subtraction of the DMA residue) the wrap is written out with `% 2 ^ 32`.
* The peripheral is an input: the values the status and data registers
  present to successive reads are a list of `(SR, DR)` pairs.
* Calls into the tty layer are recorded, in order, in `tty_log`; writes to
  the data register are recorded in `dr_writes`.
* Loops whose termination depends on the state carry a fuel argument and
  return `none` when it runs out.
-/

namespace Stm32Usart

/-! ## Constants of the driver -/

/-- BIT(n) of the kernel: the word with only bit n set. -/
def BIT (n : Nat) : Nat := 1 <<< n

/-- Truncation of a value to an unsigned 32-bit machine word. -/
def u32 (x : Nat) : Nat := x % 2 ^ 32

/-- Bitwise complement of a 32-bit word, the C expression `~bits` on a u32. -/
def not32 (bits : Nat) : Nat := (2 ^ 32 - 1) ^^^ u32 bits

/-- The value of a C `int` that holds the 32-bit pattern `x` (two's
complement). -/
def s32 (x : Nat) : Int :=
  if u32 x < 2 ^ 31 then (u32 x : Int) else (u32 x : Int) - 2 ^ 32

/- Register offsets -/
def USART_SR : Nat := 0x00
def USART_DR : Nat := 0x04
def USART_BRR : Nat := 0x08
def USART_CR1 : Nat := 0x0c
def USART_CR2 : Nat := 0x10
def USART_CR3 : Nat := 0x14
def USART_GTPR : Nat := 0x18

/- USART_SR -/
def USART_SR_PE : Nat := BIT 0
def USART_SR_FE : Nat := BIT 1
def USART_SR_NF : Nat := BIT 2
def USART_SR_ORE : Nat := BIT 3
def USART_SR_IDLE : Nat := BIT 4
def USART_SR_RXNE : Nat := BIT 5
def USART_SR_TC : Nat := BIT 6
def USART_SR_TXE : Nat := BIT 7
def USART_SR_LBD : Nat := BIT 8
def USART_SR_CTS : Nat := BIT 9
def USART_SR_ERR_MASK : Nat :=
  USART_SR_LBD ||| USART_SR_ORE ||| USART_SR_FE ||| USART_SR_PE
/-- Dummy bit: set in every status word handed to the tty layer. -/
def USART_SR_DUMMY_RX : Nat := BIT 16

/- USART_BRR -/
def USART_BRR_DIV_M_SHIFT : Nat := 4

/- USART_CR1 -/
def USART_CR1_SBK : Nat := BIT 0
def USART_CR1_RWU : Nat := BIT 1
def USART_CR1_RE : Nat := BIT 2
def USART_CR1_TE : Nat := BIT 3
def USART_CR1_IDLEIE : Nat := BIT 4
def USART_CR1_RXNEIE : Nat := BIT 5
def USART_CR1_TCIE : Nat := BIT 6
def USART_CR1_TXEIE : Nat := BIT 7
def USART_CR1_PEIE : Nat := BIT 8
def USART_CR1_PS : Nat := BIT 9
def USART_CR1_PCE : Nat := BIT 10
def USART_CR1_WAKE : Nat := BIT 11
def USART_CR1_M : Nat := BIT 12
def USART_CR1_UE : Nat := BIT 13
def USART_CR1_OVER8 : Nat := BIT 15

/- USART_CR2 -/
def USART_CR2_STOP_2B : Nat := BIT 13

/- USART_CR3 -/
def USART_CR3_DMAR : Nat := BIT 6
def USART_CR3_DMAT : Nat := BIT 7
def USART_CR3_RTSE : Nat := BIT 8
def USART_CR3_CTSE : Nat := BIT 9

def STM32_MAX_PORTS : Nat := 8
def STM32_SERIAL_RINGSIZE : Nat := 1024

/-! ## Kernel constants and macros the driver uses

These come from kernel headers that are not among the source files of the
driver; each is written down with the value or text of its header. -/

/-- Modelled from the spec: `UART_XMIT_SIZE` of linux/serial_core.h, the size
of the transmit circular buffer; the driver's comment says the buffer "is one
page", which is 4096 bytes on this platform. -/
def UART_XMIT_SIZE : Nat := 4096

/-- Modelled from the spec: `WAKEUP_CHARS` of linux/serial_core.h, the
low-water mark of the transmit queue below which writers are woken. -/
def WAKEUP_CHARS : Nat := 256

/-- Modelled from the spec: `CIRC_CNT(head,tail,size)` of linux/circ_buf.h,
`((head) - (tail)) & ((size)-1)` on C ints. For a power-of-two size the
two's-complement mask is the non-negative remainder of the difference. -/
def CIRC_CNT (head tail size : Nat) : Nat :=
  (((head : Int) - (tail : Int)) % (size : Int)).toNat

/-- Modelled from the spec: `CIRC_SPACE(head,tail,size)` of linux/circ_buf.h,
`CIRC_CNT((tail),((head)+1),(size))`: the free space, between 0 and size-1
(one slot always stays free, since a ring with head == tail is empty). -/
def CIRC_SPACE (head tail size : Nat) : Nat :=
  CIRC_CNT tail (head + 1) size

/-- Modelled from the spec: `CIRC_CNT_TO_END(head,tail,size)` of
linux/circ_buf.h: `({int end = (size) - (tail); int n = ((head) + end) &
((size)-1); n < end ? n : end;})`. -/
def CIRC_CNT_TO_END (head tail size : Nat) : Nat :=
  let e : Int := (size : Int) - (tail : Int)
  let n : Int := ((head : Int) + e) % (size : Int)
  (if n < e then n else e).toNat

/- Flags of a character handed to the tty layer (linux/tty.h). -/
/-- Modelled from the spec: `TTY_NORMAL` of linux/tty.h. -/
def TTY_NORMAL : Nat := 0
/-- Modelled from the spec: `TTY_BREAK` of linux/tty.h. -/
def TTY_BREAK : Nat := 1
/-- Modelled from the spec: `TTY_FRAME` of linux/tty.h. -/
def TTY_FRAME : Nat := 2
/-- Modelled from the spec: `TTY_PARITY` of linux/tty.h. -/
def TTY_PARITY : Nat := 3
/-- Modelled from the spec: `TTY_OVERRUN` of linux/tty.h. -/
def TTY_OVERRUN : Nat := 4

/- Input and control mode flags of a termios (asm-generic/termbits.h). -/
/-- Modelled from the spec: `IGNBRK`, ignore break, of asm-generic/termbits.h. -/
def IGNBRK : Nat := 0o1
/-- Modelled from the spec: `BRKINT` of asm-generic/termbits.h. -/
def BRKINT : Nat := 0o2
/-- Modelled from the spec: `IGNPAR`, ignore parity, of asm-generic/termbits.h. -/
def IGNPAR : Nat := 0o4
/-- Modelled from the spec: `PARMRK` of asm-generic/termbits.h. -/
def PARMRK : Nat := 0o10
/-- Modelled from the spec: `INPCK` of asm-generic/termbits.h. -/
def INPCK : Nat := 0o20
/-- Modelled from the spec: `CSIZE` of asm-generic/termbits.h. -/
def CSIZE : Nat := 0o60
/-- Modelled from the spec: `CS8` of asm-generic/termbits.h. -/
def CS8 : Nat := 0o60
/-- Modelled from the spec: `CSTOPB` of asm-generic/termbits.h. -/
def CSTOPB : Nat := 0o100
/-- Modelled from the spec: `CREAD` of asm-generic/termbits.h. -/
def CREAD : Nat := 0o200
/-- Modelled from the spec: `PARENB` of asm-generic/termbits.h. -/
def PARENB : Nat := 0o400
/-- Modelled from the spec: `PARODD` of asm-generic/termbits.h. -/
def PARODD : Nat := 0o1000
/-- Modelled from the spec: `CRTSCTS` of asm-generic/termbits.h. -/
def CRTSCTS : Nat := 0o20000000000
/-- Modelled from the spec: `UPSTAT_AUTORTS` of linux/serial_core.h. -/
def UPSTAT_AUTORTS : Nat := BIT 2
/-- Modelled from the spec: `UPSTAT_AUTOCTS` of linux/serial_core.h. -/
def UPSTAT_AUTOCTS : Nat := BIT 3

/-- Modelled from the spec: `DIV_ROUND_CLOSEST(x, divisor)` of linux/kernel.h
for unsigned operands, `((x) + ((divisor) / 2)) / (divisor)` in 32-bit
arithmetic. -/
def DIV_ROUND_CLOSEST (x divisor : Nat) : Nat :=
  u32 (x + divisor / 2) / divisor

/-! ## Data model -/

/-- One slot of the receive ring: `struct stm32_uart_char`. -/
structure stm32_uart_char where
  sr : Nat := 0
  ch : Nat := 0
deriving DecidableEq, Repr

/-- Circular buffer `struct circ_buf`: backing store and the two indices. -/
structure circ_buf (α : Type) where
  buf : Nat → α
  head : Nat := 0
  tail : Nat := 0

/-- Event counters `struct uart_icount`; every field is a `__u32`. -/
structure uart_icount where
  rx : Nat := 0
  tx : Nat := 0
  frame : Nat := 0
  overrun : Nat := 0
  parity : Nat := 0
  brk : Nat := 0
  buf_overrun : Nat := 0
deriving DecidableEq, Repr

/-- The fields of `struct scatterlist` the driver reads and writes. -/
structure scatterlist where
  offset : Nat := 0
  dma_address : Nat := 0
  dma_length : Nat := 0
deriving DecidableEq, Repr

/-- Per-direction DMA bookkeeping `struct stm32_dma_data`; a pointer is
`none` when NULL and otherwise carries an opaque handle. -/
structure stm32_dma_data where
  dsc : Option Nat := none
  chan : Option Nat := none
  cookie : Int := 0
  sg : scatterlist := {}
  use : Bool := false
deriving DecidableEq, Repr

/-- A call the driver makes into the tty layer, with its arguments. -/
inductive tty_event where
  /-- Call `uart_insert_char(port, status, overrun, ch, flag)`. -/
  | uart_insert_char (status overrun ch flag : Nat)
  /-- Call `tty_insert_flip_string(tport, chars, count)`, with the bytes read from `chars`. -/
  | tty_insert_flip_string (chars : List Nat)
  /-- Call `tty_flip_buffer_push(tport)`. -/
  | tty_flip_buffer_push
deriving DecidableEq, Repr

/-- Modelled from the spec: `enum dma_data_direction` of
linux/dma-direction.h, as far as the driver uses it. -/
inductive dma_data_direction where
  | DMA_TO_DEVICE
  | DMA_FROM_DEVICE
deriving DecidableEq, Repr

/-- A call the driver makes into the DMA engine or the DMA mapping layer, with
the arguments that matter and, where the driver looks at it, the result. -/
inductive dma_event where
  /-- Call `dma_request_slave_channel(port->dev, name)`, with the channel returned. -/
  | dma_request_slave_channel (dir : dma_data_direction) (chan : Option Nat)
  /-- Call `dma_map_sg(port->dev, &dma->sg, 1, dir)`, with the count returned. -/
  | dma_map_sg (dir : dma_data_direction) (nent : Nat)
  /-- Call `dmaengine_slave_config(chan, &config)`, with the code returned. -/
  | dmaengine_slave_config (chan : Option Nat) (ret : Int)
  /-- Call `dmaengine_prep_dma_cyclic(chan, addr, len, period, ...)`, with the descriptor returned. -/
  | dmaengine_prep_dma_cyclic (chan : Option Nat) (addr len period : Nat) (dsc : Option Nat)
  /-- Call `dmaengine_prep_slave_sg(chan, sg, 1, ...)`, with the fields of `sg` and the descriptor returned. -/
  | dmaengine_prep_slave_sg (chan : Option Nat) (offset addr len : Nat) (dsc : Option Nat)
  /-- Call `dmaengine_submit(dsc)`. -/
  | dmaengine_submit (dsc : Nat)
  /-- Call `dmaengine_terminate_all(chan)`. -/
  | dmaengine_terminate_all (chan : Nat)
  /-- Call `dma_release_channel(chan)`. -/
  | dma_release_channel (chan : Nat)
  /-- Call `dma_unmap_sg(port->dev, &dma->sg, 1, dir)`. -/
  | dma_unmap_sg (dir : dma_data_direction)
deriving DecidableEq, Repr

/-- The functions the driver installs in the six function pointers of
`struct stm32_port`; a pointer is `none` when NULL. -/
inductive stm32_fn where
  | stm32_prepare_rx_dma
  | stm32_rx_from_dma
  | stm32_release_rx_dma
  | stm32_rx_from_ring
  | stm32_prepare_tx_dma
  | stm32_tx_with_dma
  | stm32_release_tx_dma
  | stm32_transmit_chars
deriving DecidableEq, Repr

/-- State of one port: `struct stm32_port` with the embedded
`struct uart_port`, the parts of `port->state` the driver touches, and the
control registers behind `port->membase`. -/
structure stm32_port where
  /- peripheral registers -/
  brr : Nat := 0
  cr1 : Nat := 0
  cr2 : Nat := 0
  cr3 : Nat := 0
  /-- Values written to the data register, oldest first. -/
  dr_writes : List Nat := []
  /- struct uart_port -/
  icount : uart_icount := {}
  read_status_mask : Nat := 0
  ignore_status_mask : Nat := 0
  x_char : Nat := 0
  status : Nat := 0
  uartclk : Nat := 0
  irq_wake : Bool := false
  /-- Whether `port->lock` is held. -/
  lock_held : Bool := false
  /-- Number of `spin_unlock(&port->lock)` calls so far. -/
  lock_releases : Nat := 0
  /- port->state -/
  xmit : circ_buf Nat := { buf := fun _ => 0 }
  /-- The value `uart_tx_stopped(port)` returns. -/
  tx_stopped : Bool := false
  /-- Calls into the tty layer, oldest first. -/
  tty_log : List tty_event := []
  /-- Number of `uart_write_wakeup(port)` calls so far. -/
  write_wakeups : Nat := 0
  /-- Number of `pm_wakeup_event` calls so far. -/
  pm_wakeups : Nat := 0
  /-- Number of received entries the drain skipped because `uart_handle_break`
  or `uart_handle_sysrq_char` returned nonzero (the `continue` statements). -/
  rx_skipped : Nat := 0
  /- struct stm32_port -/
  hw_flow_control : Bool := false
  rx_ring : circ_buf stm32_uart_char := { buf := fun _ => {} }
  /-- Whether `tasklet_schedule(&stm32_port->tasklet)` has been requested. -/
  tasklet_scheduled : Bool := false
  dma_rx : stm32_dma_data := {}
  dma_tx : stm32_dma_data := {}
  prepare_rx : Option stm32_fn := none
  schedule_rx : Option stm32_fn := none
  release_rx : Option stm32_fn := none
  prepare_tx : Option stm32_fn := none
  schedule_tx : Option stm32_fn := none
  release_tx : Option stm32_fn := none
  /-- Calls into the DMA engine and the DMA mapping layer, oldest first. -/
  dma_log : List dma_event := []
  /-- Whether `request_irq` has installed `stm32_interrupt` for the port. -/
  irq_requested : Bool := false
  /-- Disable depth of the tasklet: `tasklet_disable` adds one, `tasklet_enable`
  takes one away; the tasklet runs only at depth 0. -/
  tasklet_disable_depth : Int := 0

/-- The break and sysrq hooks of serial core, `uart_handle_break` and
`uart_handle_sysrq_char` of linux/serial_core.h, taken as parameters. They
read and update state of their own (the sysrq deadline, the console), kept
in `σ`; each returns whether the caller must skip the character. -/
structure serial_core (σ : Type) where
  uart_handle_break : σ → Bool × σ
  uart_handle_sysrq_char : σ → Nat → Bool × σ

/-! ## Register access -/

/-- Read of a control register, `readl_relaxed(port->membase + reg)`. The
status and data registers are driven by the peripheral and are read through
the input list of `stm32_receive_chars` instead. -/
def readl_relaxed (p : stm32_port) (reg : Nat) : Nat :=
  if reg = USART_BRR then p.brr
  else if reg = USART_CR1 then p.cr1
  else if reg = USART_CR2 then p.cr2
  else if reg = USART_CR3 then p.cr3
  else 0

/-- Write of a register, `writel_relaxed(val, port->membase + reg)`. -/
def writel_relaxed (val : Nat) (reg : Nat) (p : stm32_port) : stm32_port :=
  if reg = USART_DR then { p with dr_writes := p.dr_writes ++ [val] }
  else if reg = USART_BRR then { p with brr := val }
  else if reg = USART_CR1 then { p with cr1 := val }
  else if reg = USART_CR2 then { p with cr2 := val }
  else if reg = USART_CR3 then { p with cr3 := val }
  else p

def stm32_set_bits (p : stm32_port) (reg bits : Nat) : stm32_port :=
  let val := readl_relaxed p reg
  let val := val ||| bits
  writel_relaxed val reg p

def stm32_clr_bits (p : stm32_port) (reg bits : Nat) : stm32_port :=
  let val := readl_relaxed p reg
  let val := val &&& not32 bits
  writel_relaxed val reg p

def stm32_use_dma_rx (p : stm32_port) : Bool := p.dma_rx.use

def stm32_use_dma_tx (p : stm32_port) : Bool := p.dma_tx.use

/-- Request to run the tasklet, `tasklet_schedule(&stm32_port->tasklet)`. -/
def tasklet_schedule (p : stm32_port) : stm32_port :=
  { p with tasklet_scheduled := true }

def spin_lock (p : stm32_port) : stm32_port :=
  { p with lock_held := true }

def spin_unlock (p : stm32_port) : stm32_port :=
  { p with lock_held := false, lock_releases := p.lock_releases + 1 }

/-- Record of a call into the tty layer. -/
def tty_call (e : tty_event) (p : stm32_port) : stm32_port :=
  { p with tty_log := p.tty_log ++ [e] }

/-! ## Byte-mode receive -/

/-- The `while` loop of `stm32_receive_chars`. The argument list holds what
the peripheral presents: each element is the value of a status-register read
and of the data-register read that follows it. The loop ends at the first
status word without RXNE, or when the peripheral has nothing more (the list
is exhausted); the elements not read are returned with the port. -/
def stm32_receive_chars_loop :
    List (Nat × Nat) → stm32_port → List (Nat × Nat) × stm32_port
  | [], p => ([], p)
  | (sr, ch) :: rest, p =>
    if sr &&& USART_SR_RXNE ≠ 0 then
      if CIRC_SPACE p.rx_ring.head p.rx_ring.tail STM32_SERIAL_RINGSIZE = 0 then
        /- Buffer overflow, ignore char -/
        stm32_receive_chars_loop rest p
      else
        let c : stm32_uart_char := { sr := sr, ch := ch }
        let ring := p.rx_ring
        stm32_receive_chars_loop rest
          { p with rx_ring :=
              { ring with
                buf := Function.update ring.buf ring.head c
                head := (ring.head + 1) &&& (STM32_SERIAL_RINGSIZE - 1) } }
    else ((sr, ch) :: rest, p)

def stm32_receive_chars (reads : List (Nat × Nat)) (p : stm32_port) :
    List (Nat × Nat) × stm32_port :=
  let r := stm32_receive_chars_loop reads p
  (r.1, tasklet_schedule r.2)

/-- Record that a received entry was skipped on request of a serial-core
hook (a `continue` of the drain loop). -/
def rx_skip (p : stm32_port) : stm32_port :=
  { p with rx_skipped := p.rx_skipped + 1 }

/-- Lines 248-258 of `stm32_rx_from_ring`: the chain that counts the error
of an entry whose status `sr` has an error bit. The Boolean is true when
`uart_handle_break` asked to skip the entry (the `continue`). -/
def rx_ring_count_error {σ : Type} (k : serial_core σ) (sr : Nat) (s : σ)
    (p : stm32_port) : Bool × σ × stm32_port :=
  if sr &&& USART_SR_LBD ≠ 0 then
    let p := { p with icount := { p.icount with brk := u32 (p.icount.brk + 1) } }
    let r := k.uart_handle_break s
    (r.1, r.2, p)
  else if sr &&& USART_SR_ORE ≠ 0 then
    (false, s, { p with icount := { p.icount with overrun := u32 (p.icount.overrun + 1) } })
  else if sr &&& USART_SR_PE ≠ 0 then
    (false, s, { p with icount := { p.icount with parity := u32 (p.icount.parity + 1) } })
  else if sr &&& USART_SR_FE ≠ 0 then
    (false, s, { p with icount := { p.icount with frame := u32 (p.icount.frame + 1) } })
  else (false, s, p)

/-- Lines 262-267 of `stm32_rx_from_ring`: the flag of an entry with an
error bit, from its status after masking with `read_status_mask`. -/
def rx_ring_error_flag (sr : Nat) : Nat :=
  if sr &&& USART_SR_LBD ≠ 0 then TTY_BREAK
  else if sr &&& USART_SR_PE ≠ 0 then TTY_PARITY
  else if sr &&& USART_SR_FE ≠ 0 then TTY_FRAME
  else TTY_NORMAL

/-- Lines 270-272 of `stm32_rx_from_ring`: the sysrq check and the hand-over
to `uart_insert_char`. -/
def rx_ring_insert {σ : Type} (k : serial_core σ) (sr ch flag : Nat) (s : σ)
    (p : stm32_port) : σ × stm32_port :=
  let r := k.uart_handle_sysrq_char s ch
  if r.1 then (r.2, rx_skip p)
  else (r.2, tty_call (.uart_insert_char sr USART_SR_ORE ch flag) p)

/-- Lines 243-272 of `stm32_rx_from_ring`: what one iteration of the loop
does with the entry `c` it has loaded from the ring. -/
def stm32_rx_from_ring_entry {σ : Type} (k : serial_core σ) (c : stm32_uart_char)
    (s : σ) (p : stm32_port) : σ × stm32_port :=
  let p := { p with icount := { p.icount with rx := u32 (p.icount.rx + 1) } }
  let sr := c.sr ||| USART_SR_DUMMY_RX
  if sr &&& USART_SR_ERR_MASK ≠ 0 then
    let r := rx_ring_count_error k sr s p
    if r.1 then (r.2.1, rx_skip r.2.2)
    else
      let sr := sr &&& r.2.2.read_status_mask
      rx_ring_insert k sr c.ch (rx_ring_error_flag sr) r.2.1 r.2.2
  else rx_ring_insert k sr c.ch TTY_NORMAL s p

/-- One iteration of the `while` loop of `stm32_rx_from_ring`: load the entry
at `tail`, advance `tail`, process the entry. -/
def stm32_rx_from_ring_body {σ : Type} (k : serial_core σ) (s : σ)
    (p : stm32_port) : σ × stm32_port :=
  let c := p.rx_ring.buf p.rx_ring.tail
  let p := { p with rx_ring :=
    { p.rx_ring with tail := (p.rx_ring.tail + 1) &&& (STM32_SERIAL_RINGSIZE - 1) } }
  stm32_rx_from_ring_entry k c s p

/-- The `while (ring->head != ring->tail)` loop of `stm32_rx_from_ring`;
`none` when the fuel runs out before the ring is empty. -/
def stm32_rx_from_ring_loop {σ : Type} (k : serial_core σ) :
    Nat → σ → stm32_port → Option (σ × stm32_port)
  | 0, s, p => if p.rx_ring.head ≠ p.rx_ring.tail then none else some (s, p)
  | fuel + 1, s, p =>
    if p.rx_ring.head ≠ p.rx_ring.tail then
      let r := stm32_rx_from_ring_body k s p
      stm32_rx_from_ring_loop k fuel r.1 r.2
    else some (s, p)

def stm32_rx_from_ring {σ : Type} (k : serial_core σ) (fuel : Nat) (s : σ)
    (p : stm32_port) : Option (σ × stm32_port) :=
  let p := if p.irq_wake then { p with pm_wakeups := p.pm_wakeups + 1 } else p
  match stm32_rx_from_ring_loop k fuel s p with
  | none => none
  | some (s, p) =>
    let p := spin_unlock p
    let p := tty_call .tty_flip_buffer_push p
    let p := spin_lock p
    some (s, p)

/-! ## Byte-mode transmit -/

/-- Modelled from the spec: `uart_circ_empty(circ)` of linux/serial_core.h,
`((circ)->head == (circ)->tail)`. -/
def uart_circ_empty (xmit : circ_buf Nat) : Bool :=
  xmit.head = xmit.tail

/-- Modelled from the spec: `uart_circ_chars_pending(circ)` of
linux/serial_core.h, `CIRC_CNT((circ)->head, (circ)->tail, UART_XMIT_SIZE)`. -/
def uart_circ_chars_pending (xmit : circ_buf Nat) : Nat :=
  CIRC_CNT xmit.head xmit.tail UART_XMIT_SIZE

/-- Call of `uart_write_wakeup(port)`, which wakes the writers. -/
def uart_write_wakeup (p : stm32_port) : stm32_port :=
  { p with write_wakeups := p.write_wakeups + 1 }

/-- Transmit stop -/
def stm32_stop_tx (p : stm32_port) : stm32_port :=
  stm32_clr_bits p USART_CR1 USART_CR1_TXEIE

def stm32_transmit_chars (p : stm32_port) : stm32_port :=
  if p.x_char ≠ 0 then
    let p := writel_relaxed p.x_char USART_DR p
    let p := { p with x_char := 0 }
    { p with icount := { p.icount with tx := u32 (p.icount.tx + 1) } }
  else if uart_circ_empty p.xmit || p.tx_stopped then
    stm32_stop_tx p
  else
    let p := writel_relaxed (p.xmit.buf p.xmit.tail) USART_DR p
    let p := stm32_set_bits p USART_CR1 USART_CR1_TXEIE
    let p := { p with xmit :=
      { p.xmit with tail := (p.xmit.tail + 1) &&& (UART_XMIT_SIZE - 1) } }
    let p := { p with icount := { p.icount with tx := u32 (p.icount.tx + 1) } }
    let p := if uart_circ_chars_pending p.xmit < WAKEUP_CHARS then
      uart_write_wakeup p else p
    if uart_circ_empty p.xmit then stm32_stop_tx p else p

/-- There are probably characters waiting to be transmitted. -/
def stm32_start_tx (p : stm32_port) : stm32_port :=
  if uart_circ_empty p.xmit then p
  else stm32_set_bits p USART_CR1 USART_CR1_TXEIE

/-! ## DMA receive -/

/-- Modelled from the spec: `enum dma_status` of linux/dmaengine.h, the
result of a status query on a DMA transfer. -/
inductive dma_status where
  | DMA_COMPLETE
  | DMA_IN_PROGRESS
  | DMA_PAUSED
  | DMA_ERROR
deriving DecidableEq, Repr

/-- Byte at offset `off` of the receive ring's memory, which the DMA path
addresses as `ring->buf + off` with `char *buf`: slot `off / 8` holds the two
little-endian 32-bit words `sr` (bytes 0-3) and `ch` (bytes 4-7). -/
def ring_byte (buf : Nat → stm32_uart_char) (off : Nat) : Nat :=
  let c := buf (off / 8)
  let w := if off % 8 < 4 then c.sr else c.ch
  (w >>> (8 * (off % 4))) &&& 0xff

/-- The `count` bytes at `ring->buf + start`. -/
def ring_bytes (buf : Nat → stm32_uart_char) (start count : Nat) : List Nat :=
  (List.range count).map (fun i => ring_byte buf (start + i))

/-- DMA completion callback of the cyclic receive transfer. -/
def stm32_complete_rx_dma (p : stm32_port) : stm32_port :=
  tasklet_schedule p

/-- Receive step of the tasklet in DMA mode. `dmastat` and `residue` are
what `dmaengine_tx_status` returns and stores in `state.residue`; the result
is `none` when `BUG_ON` fires. `ring->head` and `ring->tail` are C ints: they
hold 32-bit patterns, the two tests of one against the other compare them as
signed values, and the tests against `sg_dma_len` (an unsigned int) compare
the patterns. The subtractions wrap at 32 bits. -/
def stm32_rx_from_dma (dmastat : dma_status) (residue : Nat) (p : stm32_port) :
    Option stm32_port :=
  /- Restart a new tasklet if DMA status is error -/
  if dmastat = .DMA_ERROR then some (tasklet_schedule p)
  else
    let len := p.dma_rx.sg.dma_length
    let p := { p with rx_ring := { p.rx_ring with head := u32 (len + 2 ^ 32 - u32 residue) } }
    if p.rx_ring.head > len then none
    else
      let p :=
        if s32 p.rx_ring.head < s32 p.rx_ring.tail then
          let count := u32 (len + 2 ^ 32 - u32 p.rx_ring.tail)
          let p := tty_call
            (.tty_insert_flip_string (ring_bytes p.rx_ring.buf p.rx_ring.tail count)) p
          let p := { p with rx_ring := { p.rx_ring with tail := 0 } }
          { p with icount := { p.icount with rx := u32 (p.icount.rx + count) } }
        else p
      /- Finally we read data from tail to head -/
      let p :=
        if s32 p.rx_ring.tail < s32 p.rx_ring.head then
          let count := u32 (u32 p.rx_ring.head + 2 ^ 32 - u32 p.rx_ring.tail)
          let p := tty_call
            (.tty_insert_flip_string (ring_bytes p.rx_ring.buf p.rx_ring.tail count)) p
          /- Wrap ring->head if needed -/
          let p := if p.rx_ring.head ≥ len then
            { p with rx_ring := { p.rx_ring with head := 0 } } else p
          let p := { p with rx_ring := { p.rx_ring with tail := p.rx_ring.head } }
          { p with icount := { p.icount with rx := u32 (p.icount.rx + count) } }
        else p
      let p := spin_unlock p
      let p := tty_call .tty_flip_buffer_push p
      let p := spin_lock p
      some p

/-! ## Line configuration -/

/-- Reconfiguration entry point. `c_cflag` and `c_iflag` are the fields of the
termios and `baud` is what `uart_get_baud_rate` returned. The dividing
`DIV_ROUND_CLOSEST` is undefined in C for `baud = 0`. `uart_update_timeout`
only sets the port's timeout, which nothing else in the driver reads. The
registers are read and written under the port lock
(`spin_lock_irqsave` ... `spin_unlock_irqrestore`). -/
def stm32_set_termios (c_cflag c_iflag baud : Nat) (p : stm32_port) : stm32_port :=
  let cflag := c_cflag
  let cflag := if ¬ p.hw_flow_control then cflag &&& not32 CRTSCTS else cflag
  let p := spin_lock p
  let cr1 := readl_relaxed p USART_CR1
  let cr2 := readl_relaxed p USART_CR2
  let cr3 := readl_relaxed p USART_CR3
  let cr2 := if cflag &&& CSTOPB ≠ 0 then cr2 ||| USART_CR2_STOP_2B else cr2
  let cr1 :=
    if cflag &&& PARENB ≠ 0 then
      let cr1 := cr1 ||| USART_CR1_PCE
      if cflag &&& CSIZE = CS8 then cr1 ||| USART_CR1_M else cr1
    else cr1
  let cr1 := if cflag &&& PARODD ≠ 0 then cr1 ||| USART_CR1_PS else cr1
  let p := { p with status := p.status &&& not32 (UPSTAT_AUTOCTS ||| UPSTAT_AUTORTS) }
  let p := if cflag &&& CRTSCTS ≠ 0 then
    { p with status := p.status ||| (UPSTAT_AUTOCTS ||| UPSTAT_AUTORTS) } else p
  let cr3 := if cflag &&& CRTSCTS ≠ 0 then cr3 ||| USART_CR3_CTSE else cr3
  let usartdiv := DIV_ROUND_CLOSEST p.uartclk baud
  let oversampling := if usartdiv < 16 then 8 else 16
  let p := if usartdiv < 16 then stm32_set_bits p USART_CR1 USART_CR1_OVER8
    else stm32_clr_bits p USART_CR1 USART_CR1_OVER8
  let mantissa := u32 ((usartdiv / oversampling) <<< USART_BRR_DIV_M_SHIFT)
  let fraction := usartdiv % oversampling
  let p := writel_relaxed (mantissa ||| fraction) USART_BRR p
  let p := { p with read_status_mask := USART_SR_ORE }
  let p := if c_iflag &&& INPCK ≠ 0 then
    { p with read_status_mask := p.read_status_mask ||| (USART_SR_PE ||| USART_SR_FE) } else p
  let p := if c_iflag &&& (IGNBRK ||| BRKINT ||| PARMRK) ≠ 0 then
    { p with read_status_mask := p.read_status_mask ||| USART_SR_LBD } else p
  /- Characters to ignore -/
  let p := { p with ignore_status_mask := 0 }
  let p := if c_iflag &&& IGNPAR ≠ 0 then
    { p with ignore_status_mask := USART_SR_PE ||| USART_SR_FE } else p
  let p :=
    if c_iflag &&& IGNBRK ≠ 0 then
      let p := { p with ignore_status_mask := p.ignore_status_mask ||| USART_SR_LBD }
      /- If we are ignoring parity and break indicators, ignore overruns too
         (for real raw support). -/
      if c_iflag &&& IGNPAR ≠ 0 then
        { p with ignore_status_mask := p.ignore_status_mask ||| USART_SR_ORE }
      else p
    else p
  /- Ignore all characters if CREAD is not set -/
  let p := if c_cflag &&& CREAD = 0 then
    { p with ignore_status_mask := p.ignore_status_mask ||| USART_SR_DUMMY_RX } else p
  let p := writel_relaxed cr1 USART_CR1 p
  let p := writel_relaxed cr2 USART_CR2 p
  let p := writel_relaxed cr3 USART_CR3 p
  spin_unlock p

/-! ## DMA transmit -/

/-- Modelled from the spec: `EINVAL` of asm-generic/errno-base.h. -/
def EINVAL : Int := 22

/-- Record of a call into the DMA engine or the DMA mapping layer. -/
def dma_call (e : dma_event) (p : stm32_port) : stm32_port :=
  { p with dma_log := p.dma_log ++ [e] }

/-- DMA completion callback of a one-shot transmit transfer. It takes the port
lock itself. `async_tx_ack(dma->dsc)` writes through the descriptor pointer,
so the result is `none` when there is no descriptor. The length added to
`tail` is an unsigned 32-bit sum. -/
def stm32_complete_tx_dma (p : stm32_port) : Option stm32_port :=
  let p := spin_lock p
  let p := match p.dma_tx.chan with
    | some chan => dma_call (.dmaengine_terminate_all chan) p
    | none => p
  let p := { p with xmit := { p.xmit with tail := u32 (p.xmit.tail + p.dma_tx.sg.dma_length) } }
  let p := { p with xmit := { p.xmit with tail := p.xmit.tail &&& (UART_XMIT_SIZE - 1) } }
  let p := { p with icount :=
    { p.icount with tx := u32 (p.icount.tx + p.dma_tx.sg.dma_length) } }
  match p.dma_tx.dsc with
  | none => none
  | some _ =>
    let p := { p with dma_tx := { p.dma_tx with cookie := -EINVAL } }
    let p := { p with dma_tx := { p.dma_tx with dsc := none } }
    let p := if uart_circ_chars_pending p.xmit < WAKEUP_CHARS then uart_write_wakeup p else p
    /- xmit is a circular buffer so, if we have just send data from xmit->tail
       to the end of xmit->buf, now we have to transmit the remaining data from
       the beginning of xmit->buf to xmit->head. -/
    let p := if ¬ uart_circ_empty p.xmit then tasklet_schedule p else p
    some (spin_unlock p)

/-- Transmit step of the tasklet in DMA mode. `prep` is what
`dmaengine_prep_slave_sg` returns. The cookie of `dmaengine_submit` is stored
in the descriptor, not in the port. The result is `none` when `BUG_ON`
fires. -/
def stm32_tx_with_dma (prep : Option Nat) (p : stm32_port) : Option stm32_port :=
  /- Make sure we have an idle channel -/
  if p.dma_tx.dsc ≠ none then some p
  else if ¬ uart_circ_empty p.xmit ∧ ¬ p.tx_stopped then
    let sg := p.dma_tx.sg
    let sg := { sg with offset := p.xmit.tail &&& (UART_XMIT_SIZE - 1) }
    let sg := { sg with
      dma_address := u32 ((sg.dma_address &&& not32 (UART_XMIT_SIZE - 1)) + sg.offset) }
    let sg := { sg with
      dma_length := CIRC_CNT_TO_END p.xmit.head p.xmit.tail UART_XMIT_SIZE }
    let p := { p with dma_tx := { p.dma_tx with sg := sg } }
    if sg.dma_length = 0 then none
    else
      let p := dma_call
        (.dmaengine_prep_slave_sg p.dma_tx.chan sg.offset sg.dma_address sg.dma_length prep) p
      match prep with
      | none => some p
      | some dsc =>
        let p := { p with dma_tx := { p.dma_tx with dsc := some dsc } }
        let p := dma_call (.dmaengine_submit dsc) p
        some (if uart_circ_chars_pending p.xmit < WAKEUP_CHARS then uart_write_wakeup p else p)
  else some (if uart_circ_chars_pending p.xmit < WAKEUP_CHARS then uart_write_wakeup p else p)

/-! ## DMA set-up and release -/

def stm32_release_rx_dma (p : stm32_port) : stm32_port :=
  let p := match p.dma_rx.chan with
    | some chan =>
      let p := dma_call (.dmaengine_terminate_all chan) p
      let p := dma_call (.dma_release_channel chan) p
      dma_call (.dma_unmap_sg .DMA_FROM_DEVICE) p
    | none => p
  let p := { p with dma_rx := { p.dma_rx with dsc := none } }
  let p := { p with dma_rx := { p.dma_rx with chan := none } }
  { p with dma_rx := { p.dma_rx with cookie := -EINVAL } }

def stm32_release_tx_dma (p : stm32_port) : stm32_port :=
  let p := match p.dma_tx.chan with
    | some chan =>
      let p := dma_call (.dmaengine_terminate_all chan) p
      let p := dma_call (.dma_release_channel chan) p
      dma_call (.dma_unmap_sg .DMA_TO_DEVICE) p
    | none => p
  let p := { p with dma_tx := { p.dma_tx with dsc := none } }
  let p := { p with dma_tx := { p.dma_tx with chan := none } }
  { p with dma_tx := { p.dma_tx with cookie := -EINVAL } }

/-- What the DMA engine and the mapping layer answer during the set-up of one
direction. -/
structure dma_setup where
  /-- Result of `dma_request_slave_channel`; `none` is NULL. -/
  chan : Option Nat := none
  /-- Whether the buffer passes `PAGE_ALIGNED`. -/
  buf_page_aligned : Bool := true
  /-- Result of `dma_map_sg`: the number of entries mapped. -/
  nent : Nat := 0
  /-- Bus address `dma_map_sg` stores in the scatterlist. -/
  mapped_address : Nat := 0
  /-- Result of `dmaengine_slave_config`. -/
  config_ret : Int := 0
  /-- Result of `dmaengine_prep_dma_cyclic` (receive only); `none` is NULL. -/
  dsc : Option Nat := none
  /-- Result of `dmaengine_submit` (receive only). -/
  cookie : Int := 0
deriving DecidableEq, Repr

/-- The `chan_err` exit of `stm32_prepare_rx_dma`. -/
def stm32_prepare_rx_dma_chan_err (p : stm32_port) : Int × stm32_port :=
  let p := { p with dma_rx := { p.dma_rx with use := false } }
  let p := if p.dma_rx.chan ≠ none then stm32_release_rx_dma p else p
  (-EINVAL, p)

/-- Set-up of the cyclic receive transfer. The result is `none` when `BUG_ON`
fires or when `dmaengine_prep_dma_cyclic` returns NULL, which the function
dereferences. `sg_dma_len` is the length `sg_set_page` stores: the 1024 slots
of `sizeof(struct stm32_uart_char)` = 8 bytes. -/
def stm32_prepare_rx_dma (e : dma_setup) (p : stm32_port) : Option (Int × stm32_port) :=
  let p := { p with dma_rx := { p.dma_rx with chan := e.chan } }
  let p := dma_call (.dma_request_slave_channel .DMA_FROM_DEVICE e.chan) p
  if p.dma_rx.chan = none then some (stm32_prepare_rx_dma_chan_err p)
  else if ¬ e.buf_page_aligned then none
  else
    let p := { p with dma_rx := { p.dma_rx with
      sg := { offset := 0, dma_address := 0, dma_length := 8 * STM32_SERIAL_RINGSIZE } } }
    let p := dma_call (.dma_map_sg .DMA_FROM_DEVICE e.nent) p
    if e.nent = 0 then some (stm32_prepare_rx_dma_chan_err p)
    else
      let p := { p with dma_rx := { p.dma_rx with
        sg := { p.dma_rx.sg with dma_address := e.mapped_address } } }
      /- Configure the slave DMA -/
      let p := dma_call (.dmaengine_slave_config p.dma_rx.chan e.config_ret) p
      if e.config_ret ≠ 0 then some (stm32_prepare_rx_dma_chan_err p)
      else
        /- Prepare a cyclic dma transfer with half ring buffer size period -/
        let p := dma_call (.dmaengine_prep_dma_cyclic p.dma_rx.chan p.dma_rx.sg.dma_address
          p.dma_rx.sg.dma_length (p.dma_rx.sg.dma_length / 2) e.dsc) p
        match e.dsc with
        | none => none
        | some dsc =>
          let p := { p with dma_rx := { p.dma_rx with dsc := some dsc } }
          let p := dma_call (.dmaengine_submit dsc) p
          let p := { p with dma_rx := { p.dma_rx with cookie := e.cookie } }
          some (0, p)

/-- The `chan_err` exit of `stm32_prepare_tx_dma`. -/
def stm32_prepare_tx_dma_chan_err (p : stm32_port) : Int × stm32_port :=
  let p := { p with dma_tx := { p.dma_tx with use := false } }
  let p := if p.dma_tx.chan ≠ none then stm32_release_tx_dma p else p
  (-EINVAL, p)

/-- Set-up of the transmit channel. The result is `none` when `BUG_ON`
fires. -/
def stm32_prepare_tx_dma (e : dma_setup) (p : stm32_port) : Option (Int × stm32_port) :=
  let p := { p with dma_tx := { p.dma_tx with chan := e.chan } }
  let p := dma_call (.dma_request_slave_channel .DMA_TO_DEVICE e.chan) p
  if p.dma_tx.chan = none then some (stm32_prepare_tx_dma_chan_err p)
  else if ¬ e.buf_page_aligned then none
  else
    /- UART circular tx buffer is an aligned page. -/
    let p := { p with dma_tx := { p.dma_tx with
      sg := { offset := 0, dma_address := 0, dma_length := UART_XMIT_SIZE } } }
    let p := dma_call (.dma_map_sg .DMA_TO_DEVICE e.nent) p
    if e.nent = 0 then some (stm32_prepare_tx_dma_chan_err p)
    else
      let p := { p with dma_tx := { p.dma_tx with
        sg := { p.dma_tx.sg with dma_address := e.mapped_address } } }
      /- Configure the slave DMA -/
      let p := dma_call (.dmaengine_slave_config p.dma_tx.chan e.config_ret) p
      if e.config_ret ≠ 0 then some (stm32_prepare_tx_dma_chan_err p)
      else some (0, p)

/-! ## Mode selection and start-up -/

def stm32_set_ops (p : stm32_port) : stm32_port :=
  let p :=
    if stm32_use_dma_rx p then
      { p with
        prepare_rx := some .stm32_prepare_rx_dma
        schedule_rx := some .stm32_rx_from_dma
        release_rx := some .stm32_release_rx_dma }
    else
      { p with
        prepare_rx := none
        schedule_rx := some .stm32_rx_from_ring
        release_rx := none }
  if stm32_use_dma_tx p then
    { p with
      prepare_tx := some .stm32_prepare_tx_dma
      schedule_tx := some .stm32_tx_with_dma
      release_tx := some .stm32_release_tx_dma }
  else
    { p with
      prepare_tx := none
      schedule_tx := some .stm32_transmit_chars
      release_tx := none }

/-- The properties `stm32_init_property` looks up in the device-tree node of
the port: whether each is present. -/
structure device_node where
  st_use_dma_rx : Bool := false
  st_use_dma_tx : Bool := false
  dmas : Bool := false
deriving DecidableEq, Repr

/-- Reads the DMA flags of the port from its device-tree node `np`, which is
`none` when the device has no node. -/
def stm32_init_property (np : Option device_node) (p : stm32_port) : stm32_port :=
  /- Don't use DMA by default -/
  let p := { p with dma_rx := { p.dma_rx with use := false } }
  let p := { p with dma_tx := { p.dma_tx with use := false } }
  match np with
  | none => p
  | some np =>
    let p := if np.st_use_dma_rx ∧ np.dmas then
      { p with dma_rx := { p.dma_rx with use := true } } else p
    if np.st_use_dma_tx ∧ np.dmas then
      { p with dma_tx := { p.dma_tx with use := true } } else p

/-- Call through one of the `prepare` function pointers. Only the two
`prepare` functions are ever installed there; a call through any other value
has no meaning and gives `none`. -/
def call_prepare (f : stm32_fn) (erx etx : dma_setup) (p : stm32_port) :
    Option (Int × stm32_port) :=
  match f with
  | .stm32_prepare_rx_dma => stm32_prepare_rx_dma erx p
  | .stm32_prepare_tx_dma => stm32_prepare_tx_dma etx p
  | _ => none

def tasklet_enable (p : stm32_port) : stm32_port :=
  { p with tasklet_disable_depth := p.tasklet_disable_depth - 1 }

/-- Start-up of the port. `irq_ret` is what `request_irq` returns, `np` the
device-tree node of the port, `erx` and `etx` the answers of the DMA layer
during set-up. The result is the return value with the port, or `none` when a
`prepare` function does not return. -/
def stm32_startup (irq_ret : Int) (np : Option device_node) (erx etx : dma_setup)
    (p : stm32_port) : Option (Int × stm32_port) :=
  if irq_ret ≠ 0 then some (irq_ret, p)
  else
    let p := { p with irq_requested := true }
    let p := tasklet_enable p
    /- Initialize DMA (if necessary) -/
    let p := stm32_init_property np p
    let p := stm32_set_ops p
    let r1 : Option stm32_port :=
      match p.prepare_rx with
      | some f =>
        match call_prepare f erx etx p with
        | none => none
        | some (ret, p) => some (if ret < 0 then stm32_set_ops p else p)
      | none => some p
    match r1 with
    | none => none
    | some p =>
      let r2 : Option stm32_port :=
        match p.prepare_tx with
        | some f =>
          match call_prepare f erx etx p with
          | none => none
          | some (ret, p) => some (if ret < 0 then stm32_set_ops p else p)
        | none => some p
      match r2 with
      | none => none
      | some p =>
        /- Init UART -/
        let cr1 := USART_CR1_UE ||| USART_CR1_TE ||| USART_CR1_RE
        let cr1 := if stm32_use_dma_rx p then cr1 ||| USART_CR1_IDLEIE
          else cr1 ||| USART_CR1_RXNEIE
        let cr3 := 0
        let cr3 := if p.dma_rx.use then cr3 ||| USART_CR3_DMAR else cr3
        let cr3 := if p.dma_tx.use then cr3 ||| USART_CR3_DMAT else cr3
        let p := stm32_set_bits p USART_CR1 cr1
        let p := stm32_set_bits p USART_CR3 cr3
        some (0, p)

/-! ## Shut-down -/

/-- Modelled from the spec: `tasklet_disable` of linux/interrupt.h, which
adds one to the disable depth of the tasklet. -/
def tasklet_disable (p : stm32_port) : stm32_port :=
  { p with tasklet_disable_depth := p.tasklet_disable_depth + 1 }

/-- Modelled from the spec: `tasklet_kill` of linux/interrupt.h; when it
returns the tasklet is not scheduled. -/
def tasklet_kill (p : stm32_port) : stm32_port :=
  { p with tasklet_scheduled := false }

def free_irq (p : stm32_port) : stm32_port :=
  { p with irq_requested := false }

/-- Call through one of the `release` function pointers. Only the two
`release` functions are ever installed there; a call through any other value
has no meaning and gives `none`. -/
def call_release (f : stm32_fn) (p : stm32_port) : Option stm32_port :=
  match f with
  | .stm32_release_rx_dma => some (stm32_release_rx_dma p)
  | .stm32_release_tx_dma => some (stm32_release_tx_dma p)
  | _ => none

/-- Shut-down of the port. The result is `none` when a `release` pointer
holds something that is not a release function. -/
def stm32_shutdown (p : stm32_port) : Option stm32_port :=
  /- Clear out any scheduled tasklets before we destroy the buffers -/
  let p := tasklet_disable p
  let p := tasklet_kill p
  /- Shut-down serial -/
  let p := writel_relaxed 0 USART_CR1 p
  /- Shut-down the DMA -/
  let r : Option stm32_port :=
    match p.release_rx with
    | some f => call_release f p
    | none => some p
  match r with
  | none => none
  | some p =>
    let r : Option stm32_port :=
      match p.release_tx with
      | some f => call_release f p
      | none => some p
    match r with
    | none => none
    | some p =>
      let p := { p with rx_ring := { p.rx_ring with head := 0 } }
      let p := { p with rx_ring := { p.rx_ring with tail := 0 } }
      some (free_irq p)

/-! ## Interrupt handler and deferred worker -/

/-- Modelled from the spec: `IRQ_HANDLED` of linux/irqreturn.h, `(1 << 0)`. -/
def IRQ_HANDLED : Nat := 1

/-- The interrupt handler. `sr` is the value the status register presents to
the read at entry; `reads` is what the peripheral presents to the reads of
`stm32_receive_chars`, and the elements not read are returned with the return
value and the port. The data-register read that clears IDLE returns a value
the handler drops. -/
def stm32_interrupt (sr : Nat) (reads : List (Nat × Nat)) (p : stm32_port) :
    Nat × List (Nat × Nat) × stm32_port :=
  let p := spin_lock p
  let p :=
    if stm32_use_dma_rx p then
      if sr &&& USART_SR_IDLE ≠ 0 then
        /- Read DR to clear IDLE interrupt -/
        tasklet_schedule p
      else p
    else p
  let r := if sr &&& USART_SR_RXNE ≠ 0 then stm32_receive_chars reads p else (reads, p)
  let p := r.2
  let p :=
    if sr &&& USART_SR_TXE ≠ 0 then
      let p := stm32_clr_bits p USART_CR1 USART_CR1_TXEIE
      tasklet_schedule p
    else p
  let p := spin_unlock p
  (IRQ_HANDLED, r.1, p)

/-- What the environment presents to one run of the tasklet: the hooks of
serial core with the bound on the iterations of the byte-mode drain, the
answer of `dmaengine_tx_status` to the DMA receive step, and the descriptor
`dmaengine_prep_slave_sg` returns to the DMA transmit step. -/
structure tasklet_env (σ : Type) where
  k : serial_core σ
  fuel : Nat
  dmastat : dma_status
  residue : Nat
  prep : Option Nat

/-- Call through one of the `schedule` function pointers. Only the four step
functions are ever installed there; a call through any other value has no
meaning and gives `none`, as does a step that does not return. -/
def call_schedule {σ : Type} (f : stm32_fn) (env : tasklet_env σ) (s : σ) (p : stm32_port) :
    Option (σ × stm32_port) :=
  match f with
  | .stm32_transmit_chars => some (s, stm32_transmit_chars p)
  | .stm32_tx_with_dma =>
    match stm32_tx_with_dma env.prep p with
    | none => none
    | some p => some (s, p)
  | .stm32_rx_from_ring => stm32_rx_from_ring env.k env.fuel s p
  | .stm32_rx_from_dma =>
    match stm32_rx_from_dma env.dmastat env.residue p with
    | none => none
    | some p => some (s, p)
  | _ => none

/-- Tasklet handling tty stuff outside the interrupt handler. The result is
`none` when a `schedule` pointer is NULL or a step does not return. -/
def stm32_tasklet_func {σ : Type} (env : tasklet_env σ) (s : σ) (p : stm32_port) :
    Option (σ × stm32_port) :=
  /- The interrupt handler does not take the lock -/
  let p := spin_lock p
  match p.schedule_tx with
  | none => none
  | some f =>
    match call_schedule f env s p with
    | none => none
    | some (s, p) =>
      match p.schedule_rx with
      | none => none
      | some f =>
        match call_schedule f env s p with
        | none => none
        | some (s, p) => some (s, spin_unlock p)

/-! ## Views used to state the properties -/

/-- The `n` slots of a ring store starting at index `tail`, in ring order
(indices wrap at `STM32_SERIAL_RINGSIZE`). -/
def ring_slots (buf : Nat → stm32_uart_char) : Nat → Nat → List stm32_uart_char
  | _, 0 => []
  | tail, n + 1 => buf tail :: ring_slots buf ((tail + 1) % STM32_SERIAL_RINGSIZE) n

/-- The entries the receive ring holds: the slots from `tail` up to `head`. -/
def ring_entries (ring : circ_buf stm32_uart_char) : List stm32_uart_char :=
  ring_slots ring.buf ring.tail (CIRC_CNT ring.head ring.tail STM32_SERIAL_RINGSIZE)

/-- The slot `stm32_receive_chars` stores for a status and data read. -/
def rx_slot (r : Nat × Nat) : stm32_uart_char := { sr := r.1, ch := r.2 }

/-- What `stm32_rx_from_ring` hands to `uart_insert_char` for an entry that
is not skipped: the entry's own character, with the status argument and the
flag computed from the entry's own captured status word. -/
def rx_insert_event (read_status_mask : Nat) (c : stm32_uart_char) : tty_event :=
  let sr := c.sr ||| USART_SR_DUMMY_RX
  if sr &&& USART_SR_ERR_MASK ≠ 0 then
    .uart_insert_char (sr &&& read_status_mask) USART_SR_ORE c.ch
      (rx_ring_error_flag (sr &&& read_status_mask))
  else .uart_insert_char sr USART_SR_ORE c.ch TTY_NORMAL

/-- The counters after the drain has processed entry `c`: `rx` and, for an
entry with an error bit, the one counter the chain of lines 248-258 picks. -/
def rx_counted (c : stm32_uart_char) (ic : uart_icount) : uart_icount :=
  let sr := c.sr ||| USART_SR_DUMMY_RX
  let ic := { ic with rx := u32 (ic.rx + 1) }
  if sr &&& USART_SR_ERR_MASK ≠ 0 then
    if sr &&& USART_SR_LBD ≠ 0 then { ic with brk := u32 (ic.brk + 1) }
    else if sr &&& USART_SR_ORE ≠ 0 then { ic with overrun := u32 (ic.overrun + 1) }
    else if sr &&& USART_SR_PE ≠ 0 then { ic with parity := u32 (ic.parity + 1) }
    else if sr &&& USART_SR_FE ≠ 0 then { ic with frame := u32 (ic.frame + 1) }
    else ic
  else ic

/-- The drain loop run over a given list of entries: for each, advance
`tail` and process the entry. -/
def rx_drain_entries {σ : Type} (k : serial_core σ) :
    List stm32_uart_char → σ → stm32_port → σ × stm32_port
  | [], s, p => (s, p)
  | c :: cs, s, p =>
    let r := stm32_rx_from_ring_entry k c s
      { p with rx_ring :=
        { p.rx_ring with tail := (p.rx_ring.tail + 1) &&& (STM32_SERIAL_RINGSIZE - 1) } }
    rx_drain_entries k cs r.1 r.2

/-- Every status word of the list has the receive-not-empty bit, so the loop
of `stm32_receive_chars` reads the whole list. -/
def all_rxne (reads : List (Nat × Nat)) : Prop :=
  ∀ r ∈ reads, r.1 &&& USART_SR_RXNE ≠ 0

instance (reads : List (Nat × Nat)) : Decidable (all_rxne reads) :=
  inferInstanceAs (Decidable (∀ r ∈ reads, r.1 &&& USART_SR_RXNE ≠ 0))

/-- Successive calls of `stm32_receive_chars`, one per element of `calls` (the
reads the peripheral presents during that call), with no drain in between. -/
def receive_calls : List (List (Nat × Nat)) → stm32_port → stm32_port
  | [], p => p
  | reads :: rest, p => receive_calls rest (stm32_receive_chars reads p).2

/-- Serial core built without sysrq support: `uart_handle_break` and
`uart_handle_sysrq_char` have no state and always return 0. -/
def serial_core_plain : serial_core Unit where
  uart_handle_break := fun s => (false, s)
  uart_handle_sysrq_char := fun s _ => (false, s)

/-- A port in DMA receive mode whose mapped receive buffer has 8192 bytes
(the 1024 slots of 8 bytes), with `head` and `tail` at offset 100. -/
def dma_rx_port_example : stm32_port :=
  { dma_rx := { sg := { dma_length := 8192 }, use := true, chan := some 1, dsc := some 1 }
    rx_ring := { buf := fun _ => {}, head := 100, tail := 100 } }

/-- Successive calls of `stm32_transmit_chars`, `n` of them, with nothing
else touching the port in between. -/
def transmit_calls : Nat → stm32_port → stm32_port
  | 0, p => p
  | n + 1, p => transmit_calls n (stm32_transmit_chars p)

/-- The `n` bytes of a transmit buffer starting at index `tail`, in queue
order (indices wrap at `UART_XMIT_SIZE`). -/
def xmit_slots (buf : Nat → Nat) : Nat → Nat → List Nat
  | _, 0 => []
  | tail, n + 1 => buf tail :: xmit_slots buf ((tail + 1) % UART_XMIT_SIZE) n

/-- A port whose transmit queue holds 5 bytes that wrap around the end of
the buffer (tail 4094, head 3); the byte at index i is i mod 256. -/
def tx_port_example : stm32_port :=
  { xmit := { buf := fun i => i % 256, head := 3, tail := 4094 } }

/-- A port whose transmit queue holds 257 bytes, one more than
`WAKEUP_CHARS`. -/
def tx_port_257 : stm32_port :=
  { xmit := { buf := fun i => i % 256, head := 257, tail := 0 } }

/-- The flag of a received character as the specification words it: normal
when the captured status `sr` has none of the break, overrun, framing and
parity bits; otherwise, with `m = sr & read_status_mask`, break if `m` has the
break bit, else parity if `m` has the parity bit, else framing if `m` has the
framing bit, else normal. -/
def status_flag_spec (read_status_mask sr : Nat) : Nat :=
  if sr &&& USART_SR_LBD = 0 ∧ sr &&& USART_SR_ORE = 0 ∧ sr &&& USART_SR_FE = 0
      ∧ sr &&& USART_SR_PE = 0 then TTY_NORMAL
  else
    let m := sr &&& read_status_mask
    if m &&& USART_SR_LBD ≠ 0 then TTY_BREAK
    else if m &&& USART_SR_PE ≠ 0 then TTY_PARITY
    else if m &&& USART_SR_FE ≠ 0 then TTY_FRAME
    else TTY_NORMAL

/-- The counters after one drained entry, worded on the captured status of
the entry: `rx` advances; of the four error counters only the one of the
first condition present, in the order break, overrun, parity, framing,
advances. All counters are 32-bit. -/
def rx_counted_by_priority (c : stm32_uart_char) (ic : uart_icount) : uart_icount :=
  { ic with
    rx := u32 (ic.rx + 1)
    brk := if c.sr &&& USART_SR_LBD ≠ 0 then u32 (ic.brk + 1) else ic.brk
    overrun :=
      if c.sr &&& USART_SR_LBD = 0 ∧ c.sr &&& USART_SR_ORE ≠ 0
      then u32 (ic.overrun + 1) else ic.overrun
    parity :=
      if c.sr &&& USART_SR_LBD = 0 ∧ c.sr &&& USART_SR_ORE = 0 ∧ c.sr &&& USART_SR_PE ≠ 0
      then u32 (ic.parity + 1) else ic.parity
    frame :=
      if c.sr &&& USART_SR_LBD = 0 ∧ c.sr &&& USART_SR_ORE = 0 ∧ c.sr &&& USART_SR_PE = 0
        ∧ c.sr &&& USART_SR_FE ≠ 0
      then u32 (ic.frame + 1) else ic.frame }

/-- A port whose receive ring holds one entry, a byte received with both an
overrun and a parity error (status RXNE | ORE | PE). -/
def rx_port_overrun_parity : stm32_port :=
  (stm32_receive_chars [(0x29, 0x41)] {}).2

/-- A 16 MHz port whose receive ring holds one entry, a byte received with an
overrun (status RXNE | ORE). -/
def rx_port_overrun : stm32_port :=
  (stm32_receive_chars [(0x28, 0x41)] { uartclk := 16000000 }).2

/-- The port `rx_port_overrun` after `stm32_set_termios` has configured both
IGNPAR and IGNBRK, at 115200 baud. -/
def rx_port_overrun_raw : stm32_port :=
  stm32_set_termios (CS8 ||| CREAD) (IGNPAR ||| IGNBRK) 115200 rx_port_overrun

/-- The ignore mask `stm32_set_termios` computes, written out. -/
def termios_ignore_mask (c_cflag c_iflag : Nat) : Nat :=
  ((if c_iflag &&& IGNPAR ≠ 0 then USART_SR_PE ||| USART_SR_FE else 0)
    ||| (if c_iflag &&& IGNBRK ≠ 0 then
          USART_SR_LBD ||| (if c_iflag &&& IGNPAR ≠ 0 then USART_SR_ORE else 0)
        else 0))
    ||| (if c_cflag &&& CREAD = 0 then USART_SR_DUMMY_RX else 0)

/-- Modelled from the spec: the rule of `uart_insert_char(port, status,
overrun, ch, flag)` of serial core (drivers/tty/serial/serial_core.c, not
among the sources of the driver) for the character itself: it is inserted into
the consumer buffer iff `(status & port->ignore_status_mask & ~overrun) == 0`. -/
def uart_insert_char_inserts (ignore_status_mask status overrun : Nat) : Bool :=
  (status &&& ignore_status_mask) &&& not32 overrun = 0

/-- The `uart_insert_char` calls of a log that insert their character under
the port's ignore mask: the characters that reach the consumer buffer. -/
def inserted_chars (ignore_status_mask : Nat) : List tty_event → List Nat
  | [] => []
  | .uart_insert_char status overrun ch _ :: rest =>
    if uart_insert_char_inserts ignore_status_mask status overrun
    then ch :: inserted_chars ignore_status_mask rest
    else inserted_chars ignore_status_mask rest
  | _ :: rest => inserted_chars ignore_status_mask rest

/-- A 16 MHz port whose receive ring holds two entries, the byte 0x41 received
clean (status RXNE) and the byte 0x42 received with a parity error (status
RXNE | PE), after `stm32_set_termios` with CREAD clear and no input flag. -/
def rx_port_cread_clear : stm32_port :=
  stm32_set_termios CS8 0 115200
    (stm32_receive_chars [(0x20, 0x41), (0x21, 0x42)] { uartclk := 16000000 }).2

/-- The number of bytes of each `tty_insert_flip_string` call of a log, in
order. -/
def flip_string_lengths : List tty_event → List Nat
  | [] => []
  | .tty_insert_flip_string chars :: rest => chars.length :: flip_string_lengths rest
  | _ :: rest => flip_string_lengths rest

/-- The line discipline queues `a` more bytes for transmission: `head` of the
transmit buffer advances by `a`, modulo `UART_XMIT_SIZE`. -/
def xmit_produce (a : Nat) (p : stm32_port) : stm32_port :=
  { p with xmit := { p.xmit with head := (p.xmit.head + a) % UART_XMIT_SIZE } }

/-- A port in DMA transmit mode with an idle channel whose transmit queue
holds 5 bytes that wrap around the end of the buffer (tail 4094, head 3). -/
def tx_dma_port_example : stm32_port :=
  { xmit := { buf := fun i => i % 256, head := 3, tail := 4094 }
    dma_tx :=
      { use := true
        chan := some 2
        sg := { offset := 0, dma_address := 0x20001000, dma_length := 4096 } } }

/-- The port `tx_dma_port_example` with a transmit descriptor pending. -/
def tx_dma_port_busy : stm32_port :=
  { tx_dma_port_example with dma_tx := { tx_dma_port_example.dma_tx with dsc := some 7 } }

/-- Whether the device-tree node asks for DMA in the receive direction: the
flag `stm32_init_property` stores in `dma_rx.use`. -/
def dma_rx_requested (np : Option device_node) : Bool :=
  (stm32_init_property np {}).dma_rx.use

/-- Whether the device-tree node asks for DMA in the transmit direction: the
flag `stm32_init_property` stores in `dma_tx.use`. -/
def dma_tx_requested (np : Option device_node) : Bool :=
  (stm32_init_property np {}).dma_tx.use

/-- The set-up of a direction fails at one of the sites the driver handles
with `goto chan_err`: the channel request returns NULL, or (past the alignment
check) the mapping gives no entry or the slave configuration returns an
error. -/
def dma_setup_fails (e : dma_setup) : Prop :=
  e.chan = none ∨ (e.buf_page_aligned = true ∧ (e.nent = 0 ∨ e.config_ret ≠ 0))

instance (e : dma_setup) : Decidable (dma_setup_fails e) :=
  inferInstanceAs
    (Decidable (e.chan = none ∨ (e.buf_page_aligned = true ∧ (e.nent = 0 ∨ e.config_ret ≠ 0))))

/-- Every step of the receive set-up succeeds. -/
def dma_setup_ok_rx (e : dma_setup) : Prop :=
  e.chan ≠ none ∧ e.buf_page_aligned = true ∧ e.nent ≠ 0 ∧ e.config_ret = 0 ∧ e.dsc ≠ none

instance (e : dma_setup) : Decidable (dma_setup_ok_rx e) :=
  inferInstanceAs
    (Decidable (e.chan ≠ none ∧ e.buf_page_aligned = true ∧ e.nent ≠ 0 ∧ e.config_ret = 0
      ∧ e.dsc ≠ none))

/-- Every step of the transmit set-up succeeds. -/
def dma_setup_ok_tx (e : dma_setup) : Prop :=
  e.chan ≠ none ∧ e.buf_page_aligned = true ∧ e.nent ≠ 0 ∧ e.config_ret = 0

instance (e : dma_setup) : Decidable (dma_setup_ok_tx e) :=
  inferInstanceAs
    (Decidable (e.chan ≠ none ∧ e.buf_page_aligned = true ∧ e.nent ≠ 0 ∧ e.config_ret = 0))

/-- One of the two blocks `if (prepare) { ret = prepare(port); if (ret < 0)
stm32_set_ops(port); }` of `stm32_startup`, for the pointer `f`. -/
def startup_prepare (f : Option stm32_fn) (erx etx : dma_setup) (p : stm32_port) :
    Option stm32_port :=
  match f with
  | some f =>
    match call_prepare f erx etx p with
    | none => none
    | some (ret, p) => some (if ret < 0 then stm32_set_ops p else p)
  | none => some p

/-- The control bits `stm32_startup` asks for in CR1, for a port in the mode
`p` is in. -/
def startup_cr1 (p : stm32_port) : Nat :=
  let cr1 := USART_CR1_UE ||| USART_CR1_TE ||| USART_CR1_RE
  if stm32_use_dma_rx p then cr1 ||| USART_CR1_IDLEIE else cr1 ||| USART_CR1_RXNEIE

/-- The control bits `stm32_startup` asks for in CR3, for a port in the mode
`p` is in. -/
def startup_cr3 (p : stm32_port) : Nat :=
  let cr3 := 0
  let cr3 := if p.dma_rx.use then cr3 ||| USART_CR3_DMAR else cr3
  if p.dma_tx.use then cr3 ||| USART_CR3_DMAT else cr3

/-- A device-tree node that asks for DMA in both directions. -/
def node_dma_both : device_node :=
  { st_use_dma_rx := true
    st_use_dma_tx := true
    dmas := true }

/-- A set-up in which the channel is granted and the mapping of the buffer
gives no entry. -/
def setup_map_fails : dma_setup :=
  { chan := some 1
    nent := 0 }

/-- A set-up in which every step succeeds. -/
def setup_succeeds : dma_setup :=
  { chan := some 2
    nent := 1
    mapped_address := 0x20001000
    dsc := some 5
    cookie := 1 }

/-- What the environment presents to a tasklet run on a port in DMA mode: the
transfer in progress with a residue of 8000 bytes, a descriptor for the
transmit step. -/
def tasklet_env_example : tasklet_env Unit :=
  { k := serial_core_plain
    fuel := 1024
    dmastat := .DMA_IN_PROGRESS
    residue := 8000
    prep := some 7 }

/-- A port with a 16 MHz clock and hardware flow control, its control
registers all zero. -/
def termios_port_example : stm32_port :=
  { uartclk := 16000000
    hw_flow_control := true }

/-- The port `termios_port_example` after a first `stm32_set_termios` that
asks for two stop bits, odd parity and CTS flow control at 115200 baud. -/
def termios_port_configured : stm32_port :=
  stm32_set_termios (CS8 ||| CREAD ||| PARENB ||| PARODD ||| CSTOPB ||| CRTSCTS) 0 115200
    termios_port_example

/-- One round of the DMA transmit path with nothing else touching the port in
between: `stm32_tx_with_dma` arms the descriptor `dsc`, then the completion
callback `stm32_complete_tx_dma` runs. -/
def tx_dma_round (dsc : Nat) (p : stm32_port) : Option stm32_port :=
  match stm32_tx_with_dma (some dsc) p with
  | none => none
  | some p => stm32_complete_tx_dma p

/-- The runs handed to the DMA engine for transmission, oldest first: offset
into the transmit buffer and length of each `dmaengine_prep_slave_sg` call of
a log. -/
def tx_dma_runs (log : List dma_event) : List (Nat × Nat) :=
  log.filterMap fun e =>
    match e with
    | .dmaengine_prep_slave_sg _ offset _ len _ => some (offset, len)
    | _ => none

/-- The `len` bytes of a transmit buffer from offset `off` on, as the DMA
engine reads them. -/
def xmit_run (buf : Nat → Nat) (off len : Nat) : List Nat :=
  (List.range len).map fun i => buf (off + i)

/-- A device-tree node that asks for DMA in the receive direction only. -/
def node_dma_rx : device_node :=
  { st_use_dma_rx := true
    dmas := true }

/-- What the environment presents to a tasklet run while the cyclic receive
transfer is half way through its 8192-byte buffer (residue 4096). -/
def tasklet_env_half : tasklet_env Unit :=
  { k := serial_core_plain
    fuel := 1024
    dmastat := .DMA_IN_PROGRESS
    residue := 4096
    prep := none }

/-- The port after `stm32_startup` on a zeroed port with DMA asked for in the
receive direction and its set-up succeeding, followed by one run of the
tasklet with the transfer half way through the buffer. -/
def dma_rx_port_after_pass : Option stm32_port :=
  match stm32_startup 0 (some node_dma_rx) setup_succeeds setup_succeeds {} with
  | none => none
  | some (_, p) =>
    match stm32_tasklet_func tasklet_env_half () p with
    | none => none
    | some (_, p) => some p

/-- Whether the hooks of serial core ask the drain to skip the entry `c`:
`uart_handle_break`, which the drain calls for an entry whose captured status
has the break bit, or `uart_handle_sysrq_char`, called next, returns
nonzero. -/
def rx_entry_skipped {σ : Type} (k : serial_core σ) (c : stm32_uart_char) (s : σ) : Bool :=
  if c.sr &&& USART_SR_LBD ≠ 0 then
    (k.uart_handle_break s).1
      || (k.uart_handle_sysrq_char (k.uart_handle_break s).2 c.ch).1
  else (k.uart_handle_sysrq_char s c.ch).1

/-- A 16 MHz port configured without INPCK (so that the report mask holds the
overrun bit only) whose receive ring holds one entry, the byte 0x42 received
with a parity error (status RXNE | PE). -/
def rx_port_parity_unreported : stm32_port :=
  stm32_set_termios (CS8 ||| CREAD) 0 115200
    (stm32_receive_chars [(0x21, 0x42)] { uartclk := 16000000 }).2

/-- The port `dma_rx_port_after_pass` after an interrupt that reads a status
with RXNE and TXE set, the receive loop reading one character. -/
def dma_rx_port_after_irq : Option stm32_port :=
  match dma_rx_port_after_pass with
  | none => none
  | some p =>
    some (stm32_interrupt (USART_SR_RXNE ||| USART_SR_TXE) [(USART_SR_RXNE, 0x41)] p).2.2

/-! ## Arithmetic of the ring indices -/

/-- A 32-bit pattern below 2^31 is the value of the int that holds it. -/
theorem s32_of_lt (x : Nat) (h : x < 2 ^ 31) : s32 x = (x : Int) := by
  unfold s32 u32
  have h1 : x % 2 ^ 32 = x := Nat.mod_eq_of_lt (by omega)
  rw [h1, if_pos h]

/-- Below 2^31 the signed comparison of two ints is the comparison of their
patterns. -/
theorem s32_lt_iff (a b : Nat) (ha : a < 2 ^ 31) (hb : b < 2 ^ 31) :
    s32 a < s32 b ↔ a < b := by
  rw [s32_of_lt a ha, s32_of_lt b hb]
  exact Int.ofNat_lt

theorem ringsize_mask (x : Nat) :
    x &&& (STM32_SERIAL_RINGSIZE - 1) = x % 1024 :=
  Nat.and_pow_two_sub_one_eq_mod x 10

theorem xmit_mask (x : Nat) :
    x &&& (UART_XMIT_SIZE - 1) = x % 4096 :=
  Nat.and_pow_two_sub_one_eq_mod x 12

theorem circ_cnt_ring (head tail : Nat) (hh : head < 1024) (ht : tail < 1024) :
    CIRC_CNT head tail STM32_SERIAL_RINGSIZE = (head + 1024 - tail) % 1024 := by
  unfold CIRC_CNT STM32_SERIAL_RINGSIZE
  omega

theorem circ_space_ring (head tail : Nat) :
    CIRC_SPACE head tail STM32_SERIAL_RINGSIZE
      = 1023 - CIRC_CNT head tail STM32_SERIAL_RINGSIZE := by
  unfold CIRC_SPACE CIRC_CNT STM32_SERIAL_RINGSIZE
  omega

theorem circ_cnt_xmit (head tail : Nat) (hh : head < 4096) (ht : tail < 4096) :
    CIRC_CNT head tail UART_XMIT_SIZE = (head + 4096 - tail) % 4096 := by
  unfold CIRC_CNT UART_XMIT_SIZE
  omega

/-! ## The slots of the ring -/

theorem ring_slots_length (buf : Nat → stm32_uart_char) (n tail : Nat) :
    (ring_slots buf tail n).length = n := by
  induction n generalizing tail with
  | zero => rfl
  | succ n ih => simp [ring_slots, ih]

/-- Storing at the slot just past the `n` slots that start at `tail` appends
the stored entry to them. -/
theorem ring_slots_push (buf : Nat → stm32_uart_char) (c : stm32_uart_char)
    (n tail : Nat) (ht : tail < 1024) (hn : n ≤ 1023) :
    ring_slots (Function.update buf ((tail + n) % 1024) c) tail (n + 1)
      = ring_slots buf tail n ++ [c] := by
  induction n generalizing tail with
  | zero =>
    have h : (tail + 0) % 1024 = tail := by omega
    rw [h]
    simp [ring_slots]
  | succ n ih =>
    have hne : tail ≠ (tail + (n + 1)) % 1024 := by omega
    have hidx : (tail + (n + 1)) % 1024 = ((tail + 1) % 1024 + n) % 1024 := by omega
    have ih2 := ih ((tail + 1) % 1024) (by omega) (by omega)
    rw [ring_slots, Function.update_noteq hne, hidx]
    unfold STM32_SERIAL_RINGSIZE
    rw [ih2]
    simp [ring_slots, STM32_SERIAL_RINGSIZE]

/-! ## The producer loop -/

theorem receive_loop_append (xs ys : List (Nat × Nat)) (p : stm32_port)
    (hx : all_rxne xs) :
    stm32_receive_chars_loop (xs ++ ys) p
      = stm32_receive_chars_loop ys (stm32_receive_chars_loop xs p).2 := by
  induction xs generalizing p with
  | nil => simp [stm32_receive_chars_loop]
  | cons r rest ih =>
    obtain ⟨sr, ch⟩ := r
    have hsr : sr &&& USART_SR_RXNE ≠ 0 := hx (sr, ch) (by simp)
    have hrest : all_rxne rest := fun r hr => hx r (by simp [hr])
    simp only [List.cons_append, stm32_receive_chars_loop, hsr, ne_eq, not_false_eq_true,
      if_true]
    split
    · exact ih p hrest
    · exact ih _ hrest

/-- With no free space the loop reads and drops everything: the port is
unchanged. -/
theorem receive_loop_full (reads : List (Nat × Nat)) (p : stm32_port)
    (hx : all_rxne reads)
    (hfull : CIRC_SPACE p.rx_ring.head p.rx_ring.tail STM32_SERIAL_RINGSIZE = 0) :
    stm32_receive_chars_loop reads p = ([], p) := by
  induction reads with
  | nil => rfl
  | cons r rest ih =>
    obtain ⟨sr, ch⟩ := r
    have hsr : sr &&& USART_SR_RXNE ≠ 0 := hx (sr, ch) (by simp)
    have hrest : all_rxne rest := fun r hr => hx r (by simp [hr])
    simp only [stm32_receive_chars_loop, hsr, ne_eq, not_false_eq_true, if_true, hfull]
    exact ih hrest

/-- While the reads fit in the free space, the loop stores each of them at
the head of the ring, in order, and touches nothing but the ring's store and
head. -/
theorem receive_loop_store (reads : List (Nat × Nat)) (p : stm32_port)
    (hx : all_rxne reads)
    (hh : p.rx_ring.head < 1024) (ht : p.rx_ring.tail < 1024)
    (hfit : reads.length ≤ CIRC_SPACE p.rx_ring.head p.rx_ring.tail STM32_SERIAL_RINGSIZE) :
    (stm32_receive_chars_loop reads p).1 = []
    ∧ (stm32_receive_chars_loop reads p).2.rx_ring.tail = p.rx_ring.tail
    ∧ (stm32_receive_chars_loop reads p).2.rx_ring.head
        = (p.rx_ring.head + reads.length) % 1024
    ∧ ring_entries (stm32_receive_chars_loop reads p).2.rx_ring
        = ring_entries p.rx_ring ++ reads.map rx_slot
    ∧ (stm32_receive_chars_loop reads p).2
        = { p with rx_ring := (stm32_receive_chars_loop reads p).2.rx_ring }
    ∧ (∀ i, (∀ j, j < reads.length → i ≠ (p.rx_ring.head + j) % 1024) →
        (stm32_receive_chars_loop reads p).2.rx_ring.buf i = p.rx_ring.buf i) := by
  induction reads generalizing p with
  | nil =>
    refine ⟨rfl, rfl, ?_, ?_, rfl, fun _ _ => rfl⟩
    · simp [stm32_receive_chars_loop]; omega
    · simp [stm32_receive_chars_loop]
  | cons r rest ih =>
    obtain ⟨sr, ch⟩ := r
    have hsr : sr &&& USART_SR_RXNE ≠ 0 := hx (sr, ch) (by simp)
    have hrest : all_rxne rest := fun r hr => hx r (by simp [hr])
    rw [circ_space_ring] at hfit
    have hcnt := circ_cnt_ring p.rx_ring.head p.rx_ring.tail hh ht
    have hlen : (((sr, ch) :: rest) : List (Nat × Nat)).length = rest.length + 1 := rfl
    rw [hlen] at hfit
    have hspace : CIRC_SPACE p.rx_ring.head p.rx_ring.tail STM32_SERIAL_RINGSIZE ≠ 0 := by
      rw [circ_space_ring]; omega
    simp only [stm32_receive_chars_loop, hsr, ne_eq, not_false_eq_true, if_true, hspace,
      if_false, ringsize_mask]
    have hhead : p.rx_ring.head
        = (p.rx_ring.tail + CIRC_CNT p.rx_ring.head p.rx_ring.tail STM32_SERIAL_RINGSIZE)
            % 1024 := by
      rw [hcnt]; omega
    obtain ⟨h1, h2, h3, h4, h5, h6⟩ := ih
      { p with rx_ring :=
          { p.rx_ring with
            buf := Function.update p.rx_ring.buf p.rx_ring.head { sr := sr, ch := ch }
            head := (p.rx_ring.head + 1) % 1024 } }
      hrest (Nat.mod_lt _ (by decide)) ht
      (by
        rw [circ_space_ring, circ_cnt_ring _ _ (Nat.mod_lt _ (by decide)) ht]
        show rest.length ≤ 1023 - ((p.rx_ring.head + 1) % 1024 + 1024 - p.rx_ring.tail) % 1024
        omega)
    refine ⟨h1, h2, ?_, ?_, ?_, ?_⟩
    · rw [h3, hlen]
      show ((p.rx_ring.head + 1) % 1024 + rest.length) % 1024 = _
      omega
    · rw [h4]
      have hc1 : CIRC_CNT ((p.rx_ring.head + 1) % 1024) p.rx_ring.tail STM32_SERIAL_RINGSIZE
          = CIRC_CNT p.rx_ring.head p.rx_ring.tail STM32_SERIAL_RINGSIZE + 1 := by
        rw [circ_cnt_ring _ _ (Nat.mod_lt _ (by decide)) ht, hcnt]; omega
      have hpush := ring_slots_push p.rx_ring.buf { sr := sr, ch := ch }
        (CIRC_CNT p.rx_ring.head p.rx_ring.tail STM32_SERIAL_RINGSIZE) p.rx_ring.tail ht
        (by rw [hcnt]; omega)
      rw [← hhead] at hpush
      simp only [ring_entries, hc1, hpush, List.map_cons, List.append_assoc,
        List.singleton_append, rx_slot]
    · rw [h5]
    · intro i hi
      rw [h6 i (fun j hj => by
        have := hi (j + 1) (by rw [hlen]; omega)
        show i ≠ ((p.rx_ring.head + 1) % 1024 + j) % 1024
        omega)]
      have := hi 0 (by rw [hlen]; omega)
      exact Function.update_noteq (by omega) _ _

/-! ## The drain loop -/

/-- What processing one entry does to the port: the counters move as
`rx_counted` says, and the entry is either skipped or handed to
`uart_insert_char`; nothing else changes. -/
theorem rx_entry_cases {σ : Type} (k : serial_core σ) (c : stm32_uart_char) (s : σ)
    (p : stm32_port) :
    (stm32_rx_from_ring_entry k c s p).2
        = rx_skip { p with icount := rx_counted c p.icount }
    ∨ (stm32_rx_from_ring_entry k c s p).2
        = tty_call (rx_insert_event p.read_status_mask c)
            { p with icount := rx_counted c p.icount } := by
  unfold stm32_rx_from_ring_entry rx_counted rx_insert_event rx_ring_insert
    rx_ring_count_error
  by_cases herr : (c.sr ||| USART_SR_DUMMY_RX) &&& USART_SR_ERR_MASK ≠ 0
  · simp only [herr, ne_eq, not_false_eq_true, if_true]
    by_cases hl : (c.sr ||| USART_SR_DUMMY_RX) &&& USART_SR_LBD ≠ 0
    · simp only [hl, ne_eq, not_false_eq_true, if_true]
      cases hb : (k.uart_handle_break s).1 <;>
        cases hq : (k.uart_handle_sysrq_char (k.uart_handle_break s).2 c.ch).1 <;>
        simp [hb, hq]
    · simp only [hl, if_false]
      by_cases ho : (c.sr ||| USART_SR_DUMMY_RX) &&& USART_SR_ORE ≠ 0
      · cases hq : (k.uart_handle_sysrq_char s c.ch).1 <;> simp [ho, hq]
      · by_cases hp : (c.sr ||| USART_SR_DUMMY_RX) &&& USART_SR_PE ≠ 0
        · cases hq : (k.uart_handle_sysrq_char s c.ch).1 <;> simp [ho, hp, hq]
        · by_cases hf : (c.sr ||| USART_SR_DUMMY_RX) &&& USART_SR_FE ≠ 0
          · cases hq : (k.uart_handle_sysrq_char s c.ch).1 <;> simp [ho, hp, hf, hq]
          · cases hq : (k.uart_handle_sysrq_char s c.ch).1 <;> simp [ho, hp, hf, hq]
  · simp only [herr, if_false]
    cases hq : (k.uart_handle_sysrq_char s c.ch).1 <;> simp [hq]

theorem rx_entry_ring {σ : Type} (k : serial_core σ) (c : stm32_uart_char) (s : σ)
    (p : stm32_port) :
    (stm32_rx_from_ring_entry k c s p).2.rx_ring = p.rx_ring := by
  rcases rx_entry_cases k c s p with h | h <;> rw [h] <;> rfl

theorem rx_entry_mask {σ : Type} (k : serial_core σ) (c : stm32_uart_char) (s : σ)
    (p : stm32_port) :
    (stm32_rx_from_ring_entry k c s p).2.read_status_mask = p.read_status_mask := by
  rcases rx_entry_cases k c s p with h | h <;> rw [h] <;> rfl

theorem rx_entry_icount {σ : Type} (k : serial_core σ) (c : stm32_uart_char) (s : σ)
    (p : stm32_port) :
    (stm32_rx_from_ring_entry k c s p).2.icount = rx_counted c p.icount := by
  rcases rx_entry_cases k c s p with h | h <;> rw [h] <;> rfl

/-- With the ring indices in range and fuel for every entry, the drain loop
terminates, having processed the entries of the ring in order. -/
theorem rx_loop_eq_drain {σ : Type} (k : serial_core σ) (n fuel : Nat) (s : σ)
    (p : stm32_port) (hh : p.rx_ring.head < 1024) (ht : p.rx_ring.tail < 1024)
    (hn : CIRC_CNT p.rx_ring.head p.rx_ring.tail STM32_SERIAL_RINGSIZE = n)
    (hfuel : n ≤ fuel) :
    stm32_rx_from_ring_loop k fuel s p
      = some (rx_drain_entries k (ring_entries p.rx_ring) s p) := by
  induction n generalizing fuel s p with
  | zero =>
    have hcnt := circ_cnt_ring _ _ hh ht
    have heq : p.rx_ring.head = p.rx_ring.tail := by omega
    unfold ring_entries
    rw [hn]
    cases fuel <;> simp [stm32_rx_from_ring_loop, heq, ring_slots, rx_drain_entries]
  | succ n ih =>
    have hcnt := circ_cnt_ring _ _ hh ht
    have hne : p.rx_ring.head ≠ p.rx_ring.tail := by omega
    obtain ⟨fuel, rfl⟩ : ∃ f, fuel = f + 1 := ⟨fuel - 1, by omega⟩
    unfold ring_entries
    rw [hn]
    simp only [stm32_rx_from_ring_loop, hne, ne_eq, not_false_eq_true, if_true, ring_slots,
      rx_drain_entries, stm32_rx_from_ring_body]
    have hring := rx_entry_ring k (p.rx_ring.buf p.rx_ring.tail) s
      { p with rx_ring :=
        { p.rx_ring with tail := (p.rx_ring.tail + 1) &&& (STM32_SERIAL_RINGSIZE - 1) } }
    have hmask := ringsize_mask (p.rx_ring.tail + 1)
    rw [ih fuel _ _ (by rw [hring]; exact hh)
      (by rw [hring]; show (p.rx_ring.tail + 1) &&& (STM32_SERIAL_RINGSIZE - 1) < 1024
          rw [hmask]; omega)
      (by rw [hring]
          show CIRC_CNT p.rx_ring.head ((p.rx_ring.tail + 1) &&& (STM32_SERIAL_RINGSIZE - 1))
            STM32_SERIAL_RINGSIZE = n
          rw [hmask, circ_cnt_ring _ _ hh (Nat.mod_lt _ (by decide))]; omega)
      (by omega)]
    have hent : ring_entries (stm32_rx_from_ring_entry k (p.rx_ring.buf p.rx_ring.tail) s
        { p with rx_ring :=
          { p.rx_ring with tail := (p.rx_ring.tail + 1) &&& (STM32_SERIAL_RINGSIZE - 1) } }).2.rx_ring
        = ring_slots p.rx_ring.buf ((p.rx_ring.tail + 1) % STM32_SERIAL_RINGSIZE) n := by
      rw [hring]
      unfold ring_entries
      show ring_slots p.rx_ring.buf ((p.rx_ring.tail + 1) &&& (STM32_SERIAL_RINGSIZE - 1))
        (CIRC_CNT p.rx_ring.head ((p.rx_ring.tail + 1) &&& (STM32_SERIAL_RINGSIZE - 1))
          STM32_SERIAL_RINGSIZE) = _
      rw [hmask, circ_cnt_ring _ _ hh (Nat.mod_lt _ (by decide))]
      have : (p.rx_ring.head + 1024 - (p.rx_ring.tail + 1) % 1024) % 1024 = n := by omega
      rw [this]
      rfl
    rw [hent]

/-- After the entries of the ring have been drained, `tail` has reached
`head` and the head and the store are as before. -/
theorem rx_drain_ring {σ : Type} (k : serial_core σ) (cs : List stm32_uart_char) (s : σ)
    (p : stm32_port) (ht : p.rx_ring.tail < 1024) :
    (rx_drain_entries k cs s p).2.rx_ring
      = { p.rx_ring with tail := (p.rx_ring.tail + cs.length) % 1024 } := by
  induction cs generalizing s p with
  | nil =>
    simp only [rx_drain_entries, List.length_nil, Nat.add_zero, Nat.mod_eq_of_lt ht]
  | cons c cs ih =>
    simp only [rx_drain_entries, List.length_cons]
    rw [ih _ _ (by rw [rx_entry_ring]; show (p.rx_ring.tail + 1) &&& _ < 1024
                   rw [ringsize_mask]; omega), rx_entry_ring]
    have e : (((p.rx_ring.tail + 1) &&& (STM32_SERIAL_RINGSIZE - 1)) + cs.length) % 1024
        = (p.rx_ring.tail + (cs.length + 1)) % 1024 := by
      rw [ringsize_mask]; omega
    dsimp only
    rw [e]

theorem rx_drain_mask {σ : Type} (k : serial_core σ) (cs : List stm32_uart_char) (s : σ)
    (p : stm32_port) :
    (rx_drain_entries k cs s p).2.read_status_mask = p.read_status_mask := by
  induction cs generalizing s p with
  | nil => rfl
  | cons c cs ih =>
    simp only [rx_drain_entries]
    rw [ih, rx_entry_mask]

/-- The counters after a drain are those of `rx_counted` folded over the
drained entries. -/
theorem rx_drain_icount {σ : Type} (k : serial_core σ) (cs : List stm32_uart_char) (s : σ)
    (p : stm32_port) :
    (rx_drain_entries k cs s p).2.icount
      = cs.foldl (fun ic c => rx_counted c ic) p.icount := by
  induction cs generalizing s p with
  | nil => rfl
  | cons c cs ih =>
    simp only [rx_drain_entries, List.foldl_cons]
    rw [ih, rx_entry_icount]

theorem rx_drain_skipped_ge {σ : Type} (k : serial_core σ) (cs : List stm32_uart_char)
    (s : σ) (p : stm32_port) :
    p.rx_skipped ≤ (rx_drain_entries k cs s p).2.rx_skipped := by
  induction cs generalizing s p with
  | nil => exact Nat.le_refl _
  | cons c cs ih =>
    simp only [rx_drain_entries]
    refine Nat.le_trans ?_ (ih _ _)
    rcases rx_entry_cases k c s
      { p with rx_ring :=
        { p.rx_ring with tail := (p.rx_ring.tail + 1) &&& (STM32_SERIAL_RINGSIZE - 1) } }
      with h | h <;> rw [h] <;> simp [rx_skip, tty_call]

/-- A drain that skips no entry hands every entry to `uart_insert_char`, in
ring order. -/
theorem rx_drain_log {σ : Type} (k : serial_core σ) (cs : List stm32_uart_char) (s : σ)
    (p : stm32_port)
    (hskip : (rx_drain_entries k cs s p).2.rx_skipped = p.rx_skipped) :
    (rx_drain_entries k cs s p).2.tty_log
      = p.tty_log ++ cs.map (rx_insert_event p.read_status_mask) := by
  induction cs generalizing s p with
  | nil => simp [rx_drain_entries]
  | cons c cs ih =>
    simp only [rx_drain_entries] at hskip ⊢
    have hge := rx_drain_skipped_ge k cs
      (stm32_rx_from_ring_entry k c s
        { p with rx_ring :=
          { p.rx_ring with tail := (p.rx_ring.tail + 1) &&& (STM32_SERIAL_RINGSIZE - 1) } }).1
      (stm32_rx_from_ring_entry k c s
        { p with rx_ring :=
          { p.rx_ring with tail := (p.rx_ring.tail + 1) &&& (STM32_SERIAL_RINGSIZE - 1) } }).2
    rcases rx_entry_cases k c s
      { p with rx_ring :=
        { p.rx_ring with tail := (p.rx_ring.tail + 1) &&& (STM32_SERIAL_RINGSIZE - 1) } }
      with h | h
    · rw [h] at hge hskip
      simp only [rx_skip] at hge hskip
      omega
    · have hs : (stm32_rx_from_ring_entry k c s
          { p with rx_ring :=
            { p.rx_ring with tail := (p.rx_ring.tail + 1) &&& (STM32_SERIAL_RINGSIZE - 1) } }).2.rx_skipped
          = p.rx_skipped := by rw [h]; rfl
      rw [ih _ _ (by rw [hskip, hs]), h]
      simp [tty_call]

/-! ## Producer calls in sequence -/

theorem receive_loop_tasklet (reads : List (Nat × Nat)) (p : stm32_port) :
    stm32_receive_chars_loop reads (tasklet_schedule p)
      = ((stm32_receive_chars_loop reads p).1,
          tasklet_schedule (stm32_receive_chars_loop reads p).2) := by
  induction reads generalizing p with
  | nil => rfl
  | cons r rest ih =>
    obtain ⟨sr, ch⟩ := r
    simp only [stm32_receive_chars_loop]
    by_cases hsr : sr &&& USART_SR_RXNE ≠ 0
    · simp only [hsr, ne_eq, not_false_eq_true, if_true]
      by_cases hfull :
          CIRC_SPACE p.rx_ring.head p.rx_ring.tail STM32_SERIAL_RINGSIZE = 0
      · have hfull2 : CIRC_SPACE (tasklet_schedule p).rx_ring.head
            (tasklet_schedule p).rx_ring.tail STM32_SERIAL_RINGSIZE = 0 := hfull
        simp only [hfull, hfull2, if_true]
        exact ih p
      · have hfull2 : ¬ CIRC_SPACE (tasklet_schedule p).rx_ring.head
            (tasklet_schedule p).rx_ring.tail STM32_SERIAL_RINGSIZE = 0 := hfull
        simp only [hfull, hfull2, if_false]
        exact ih { p with rx_ring :=
          { p.rx_ring with
            buf := Function.update p.rx_ring.buf p.rx_ring.head { sr := sr, ch := ch }
            head := (p.rx_ring.head + 1) &&& (STM32_SERIAL_RINGSIZE - 1) } }
    · simp only [hsr, if_false]

/-- Calls of the producer in sequence store what one run of its loop over all
the reads stores. -/
theorem receive_calls_eq_loop (calls : List (List (Nat × Nat))) (p : stm32_port)
    (hread : ∀ reads ∈ calls, all_rxne reads) :
    receive_calls calls p
      = { (stm32_receive_chars_loop calls.flatten p).2 with
          tasklet_scheduled := p.tasklet_scheduled || !calls.isEmpty } := by
  induction calls generalizing p with
  | nil => simp [receive_calls, stm32_receive_chars_loop]
  | cons reads rest ih =>
    have h1 : all_rxne reads := hread reads (by simp)
    have h2 : ∀ r ∈ rest, all_rxne r := fun r hr => hread r (by simp [hr])
    simp only [receive_calls, List.flatten_cons, stm32_receive_chars]
    rw [ih _ h2, receive_loop_tasklet, receive_loop_append _ _ _ h1]
    simp [tasklet_schedule]

theorem all_rxne_flatten (calls : List (List (Nat × Nat)))
    (hread : ∀ reads ∈ calls, all_rxne reads) : all_rxne calls.flatten := by
  intro r hr
  obtain ⟨l, hl, hrl⟩ := List.mem_flatten.mp hr
  exact hread l hl r hrl

/-- Reads beyond the free space of the ring are dropped: the loop stores the
first `CIRC_SPACE` reads and nothing else. -/
theorem receive_loop_take (reads : List (Nat × Nat)) (p : stm32_port)
    (hx : all_rxne reads)
    (hh : p.rx_ring.head < 1024) (ht : p.rx_ring.tail < 1024) :
    stm32_receive_chars_loop reads p
      = ([], (stm32_receive_chars_loop
          (reads.take (CIRC_SPACE p.rx_ring.head p.rx_ring.tail STM32_SERIAL_RINGSIZE)) p).2) := by
  have htake : all_rxne
      (reads.take (CIRC_SPACE p.rx_ring.head p.rx_ring.tail STM32_SERIAL_RINGSIZE)) :=
    fun r hr => hx r (List.mem_of_mem_take hr)
  have hdrop : all_rxne
      (reads.drop (CIRC_SPACE p.rx_ring.head p.rx_ring.tail STM32_SERIAL_RINGSIZE)) :=
    fun r hr => hx r (List.mem_of_mem_drop hr)
  obtain ⟨h1, h2, h3, -, -, -⟩ := receive_loop_store _ p htake hh ht
    (by rw [List.length_take]; exact Nat.min_le_left _ _)
  conv_lhs =>
    rw [← List.take_append_drop
      (CIRC_SPACE p.rx_ring.head p.rx_ring.tail STM32_SERIAL_RINGSIZE) reads]
  rw [receive_loop_append _ _ _ htake]
  by_cases hlen :
      reads.length ≤ CIRC_SPACE p.rx_ring.head p.rx_ring.tail STM32_SERIAL_RINGSIZE
  · rw [List.drop_of_length_le hlen]
    rfl
  · apply receive_loop_full _ _ hdrop
    rw [h2, h3, List.length_take, circ_space_ring,
      circ_cnt_ring _ _ (Nat.mod_lt _ (by decide)) ht]
    rw [circ_space_ring, circ_cnt_ring _ _ hh ht] at hlen ⊢
    omega

/-- What a run of producer calls leaves behind: the first `CIRC_SPACE` reads
are appended to the entries of the ring, `tail` stays, and outside the ring
only the tasklet request changes. -/
theorem receive_calls_ring (calls : List (List (Nat × Nat))) (p : stm32_port)
    (hread : ∀ reads ∈ calls, all_rxne reads)
    (hh : p.rx_ring.head < 1024) (ht : p.rx_ring.tail < 1024) :
    (receive_calls calls p).rx_ring.tail = p.rx_ring.tail
    ∧ (receive_calls calls p).rx_ring.head
        = (p.rx_ring.head + min (CIRC_SPACE p.rx_ring.head p.rx_ring.tail
            STM32_SERIAL_RINGSIZE) calls.flatten.length) % 1024
    ∧ ring_entries (receive_calls calls p).rx_ring
        = ring_entries p.rx_ring ++ (calls.flatten.take (CIRC_SPACE p.rx_ring.head
            p.rx_ring.tail STM32_SERIAL_RINGSIZE)).map rx_slot
    ∧ receive_calls calls p
        = { p with rx_ring := (receive_calls calls p).rx_ring
                   tasklet_scheduled := (receive_calls calls p).tasklet_scheduled } := by
  have hx := all_rxne_flatten calls hread
  have htake : all_rxne (calls.flatten.take
      (CIRC_SPACE p.rx_ring.head p.rx_ring.tail STM32_SERIAL_RINGSIZE)) :=
    fun r hr => hx r (List.mem_of_mem_take hr)
  obtain ⟨-, h2, h3, h4, h5, -⟩ := receive_loop_store _ p htake hh ht
    (by rw [List.length_take]; exact Nat.min_le_left _ _)
  rw [receive_calls_eq_loop calls p hread, receive_loop_take _ p hx hh ht]
  refine ⟨h2, ?_, h4, ?_⟩
  · rw [List.length_take] at h3
    exact h3
  · conv_lhs => rw [h5]

theorem rx_counted_rx (c : stm32_uart_char) (ic : uart_icount) :
    (rx_counted c ic).rx = u32 (ic.rx + 1) := by
  unfold rx_counted
  dsimp only
  split_ifs <;> rfl

theorem rx_counted_foldl_rx (cs : List stm32_uart_char) (ic : uart_icount)
    (hrx : ic.rx < 2 ^ 32) :
    (cs.foldl (fun ic c => rx_counted c ic) ic).rx = u32 (ic.rx + cs.length) := by
  induction cs generalizing ic with
  | nil =>
    simp only [List.foldl_nil, List.length_nil, u32]
    omega
  | cons c cs ih =>
    have h1 := rx_counted_rx c ic
    rw [List.foldl_cons, ih _ (by rw [h1]; exact Nat.mod_lt _ (by decide)), h1]
    simp only [u32, List.length_cons]
    omega

/-- With the ring indices in range and fuel for every entry, the byte-mode
receive step returns: it has drained the entries of the ring in order, then
dropped the lock around the push to the tty layer. -/
theorem rx_from_ring_eq {σ : Type} (k : serial_core σ) (fuel : Nat) (s : σ)
    (q : stm32_port) (hh : q.rx_ring.head < 1024) (ht : q.rx_ring.tail < 1024)
    (hfuel : CIRC_CNT q.rx_ring.head q.rx_ring.tail STM32_SERIAL_RINGSIZE ≤ fuel) :
    stm32_rx_from_ring k fuel s q
      = some ((rx_drain_entries k (ring_entries q.rx_ring) s
                (if q.irq_wake then { q with pm_wakeups := q.pm_wakeups + 1 } else q)).1,
              spin_lock (tty_call .tty_flip_buffer_push (spin_unlock
                (rx_drain_entries k (ring_entries q.rx_ring) s
                  (if q.irq_wake then { q with pm_wakeups := q.pm_wakeups + 1 } else q)).2))) := by
  simp only [stm32_rx_from_ring]
  have hr : (if q.irq_wake then { q with pm_wakeups := q.pm_wakeups + 1 } else q).rx_ring
      = q.rx_ring := by split <;> rfl
  rw [rx_loop_eq_drain k _ fuel s _ (by rw [hr]; exact hh) (by rw [hr]; exact ht) rfl
    (by rw [hr]; exact hfuel), hr]

/-- Summary of a byte-mode receive step on a ring with indices in range: it
returns, the ring is drained up to `head` with head and store untouched, the
counters are those of `rx_counted` over the entries, and when no entry was
skipped every entry went to `uart_insert_char` in ring order, followed by one
push. -/
theorem rx_from_ring_summary {σ : Type} (k : serial_core σ) (fuel : Nat) (s : σ)
    (q : stm32_port) (hh : q.rx_ring.head < 1024) (ht : q.rx_ring.tail < 1024)
    (hfuel : CIRC_CNT q.rx_ring.head q.rx_ring.tail STM32_SERIAL_RINGSIZE ≤ fuel) :
    ∃ s1 p1, stm32_rx_from_ring k fuel s q = some (s1, p1)
      ∧ p1.rx_ring = { q.rx_ring with tail := q.rx_ring.head }
      ∧ p1.icount = (ring_entries q.rx_ring).foldl (fun ic c => rx_counted c ic) q.icount
      ∧ p1.read_status_mask = q.read_status_mask
      ∧ q.rx_skipped ≤ p1.rx_skipped
      ∧ (p1.rx_skipped = q.rx_skipped →
          p1.tty_log = q.tty_log
            ++ (ring_entries q.rx_ring).map (rx_insert_event q.read_status_mask)
            ++ [tty_event.tty_flip_buffer_push]) := by
  have hq1 : (if q.irq_wake then { q with pm_wakeups := q.pm_wakeups + 1 } else q)
      = { q with pm_wakeups := if q.irq_wake then q.pm_wakeups + 1 else q.pm_wakeups } := by
    by_cases h : q.irq_wake = true
    · rw [if_pos h, if_pos h]
    · rw [if_neg h, if_neg h]
  have hrun := rx_from_ring_eq k fuel s q hh ht hfuel
  rw [hq1] at hrun
  have r1 := rx_drain_ring k (ring_entries q.rx_ring) s
    { q with pm_wakeups := if q.irq_wake then q.pm_wakeups + 1 else q.pm_wakeups } ht
  have r2 := rx_drain_icount k (ring_entries q.rx_ring) s
    { q with pm_wakeups := if q.irq_wake then q.pm_wakeups + 1 else q.pm_wakeups }
  have r3 := rx_drain_mask k (ring_entries q.rx_ring) s
    { q with pm_wakeups := if q.irq_wake then q.pm_wakeups + 1 else q.pm_wakeups }
  have r4 := rx_drain_skipped_ge k (ring_entries q.rx_ring) s
    { q with pm_wakeups := if q.irq_wake then q.pm_wakeups + 1 else q.pm_wakeups }
  have r5 := rx_drain_log k (ring_entries q.rx_ring) s
    { q with pm_wakeups := if q.irq_wake then q.pm_wakeups + 1 else q.pm_wakeups }
  generalize rx_drain_entries k (ring_entries q.rx_ring) s
    { q with pm_wakeups := if q.irq_wake then q.pm_wakeups + 1 else q.pm_wakeups } = D
    at hrun r1 r2 r3 r4 r5
  have hlen : (ring_entries q.rx_ring).length
      = CIRC_CNT q.rx_ring.head q.rx_ring.tail STM32_SERIAL_RINGSIZE :=
    ring_slots_length _ _ _
  have hcnt := circ_cnt_ring _ _ hh ht
  have e : (q.rx_ring.tail + (ring_entries q.rx_ring).length) % 1024 = q.rx_ring.head := by
    omega
  refine ⟨D.1, spin_lock (tty_call .tty_flip_buffer_push (spin_unlock D.2)), hrun,
    ?_, r2, r3, r4, ?_⟩
  · show D.2.rx_ring = _
    rw [r1]
    dsimp only
    rw [e]
  · intro hskip
    show D.2.tty_log ++ [tty_event.tty_flip_buffer_push] = _
    rw [r5 hskip]

/-- C1: byte-mode receive is FIFO and lossless below capacity. From an empty
ring (head == tail, index in range), let successive calls of
stm32_receive_chars read N < 1024 (status, byte) pairs in all, with no drain
in between. Then one pass of stm32_rx_from_ring (with fuel for N iterations)
returns and, none of the entries being skipped for a break or sysrq, hands
exactly those N bytes to uart_insert_char in the order they were read, each
with the status argument and flag computed from the status word captured with
it, followed by one push; the rx counter (a u32) has advanced by N and the
ring is empty again. -/
theorem C1_rx_byte_mode_fifo_lossless {σ : Type} (k : serial_core σ) (s : σ)
    (p : stm32_port) (calls : List (List (Nat × Nat))) (fuel : Nat)
    (hempty : p.rx_ring.head = p.rx_ring.tail)
    (hidx : p.rx_ring.head < STM32_SERIAL_RINGSIZE)
    (hrx : p.icount.rx < 2 ^ 32)
    (hread : ∀ reads ∈ calls, all_rxne reads)
    (hN : calls.flatten.length < 1024)
    (hfuel : calls.flatten.length ≤ fuel)
    (hskip : ∀ r, stm32_rx_from_ring k fuel s (receive_calls calls p) = some r →
      r.2.rx_skipped = p.rx_skipped) :
    ∃ s1 p1, stm32_rx_from_ring k fuel s (receive_calls calls p) = some (s1, p1)
      ∧ p1.tty_log = p.tty_log
          ++ calls.flatten.map (fun r => rx_insert_event p.read_status_mask (rx_slot r))
          ++ [tty_event.tty_flip_buffer_push]
      ∧ p1.icount.rx = u32 (p.icount.rx + calls.flatten.length)
      ∧ p1.rx_ring.head = p1.rx_ring.tail := by
  have hh : p.rx_ring.head < 1024 := hidx
  have ht : p.rx_ring.tail < 1024 := hempty ▸ hidx
  obtain ⟨qt, qh, qent, qeq⟩ := receive_calls_ring calls p hread hh ht
  have hcnt := circ_cnt_ring _ _ hh ht
  have hspace : CIRC_SPACE p.rx_ring.head p.rx_ring.tail STM32_SERIAL_RINGSIZE = 1023 := by
    rw [circ_space_ring, hcnt]; omega
  have hent0 : ring_entries p.rx_ring = [] := by
    unfold ring_entries
    have : CIRC_CNT p.rx_ring.head p.rx_ring.tail STM32_SERIAL_RINGSIZE = 0 := by
      rw [hcnt]; omega
    rw [this]; rfl
  rw [hspace, List.take_of_length_le (by omega)] at qent
  rw [hent0, List.nil_append] at qent
  rw [hspace, Nat.min_eq_right (by omega)] at qh
  have qh1 : (receive_calls calls p).rx_ring.head < 1024 := by rw [qh]; omega
  have qt1 : (receive_calls calls p).rx_ring.tail < 1024 := by rw [qt]; exact ht
  have qlog : (receive_calls calls p).tty_log = p.tty_log := by
    have h := congrArg stm32_port.tty_log qeq
    exact h
  have qic : (receive_calls calls p).icount = p.icount := by
    have h := congrArg stm32_port.icount qeq
    exact h
  have qsk : (receive_calls calls p).rx_skipped = p.rx_skipped := by
    have h := congrArg stm32_port.rx_skipped qeq
    exact h
  have qmask : (receive_calls calls p).read_status_mask = p.read_status_mask := by
    have h := congrArg stm32_port.read_status_mask qeq
    exact h
  obtain ⟨s1, p1, hrun, hring, hic, -, -, hlog⟩ :=
    rx_from_ring_summary k fuel s (receive_calls calls p) qh1 qt1
      (by rw [circ_cnt_ring _ _ qh1 qt1, qh, qt]; omega)
  refine ⟨s1, p1, hrun, ?_, ?_, ?_⟩
  · rw [hlog (by rw [qsk]; exact hskip _ hrun), qlog, qent, qmask, List.map_map]
    rfl
  · rw [hic, qent, rx_counted_foldl_rx _ _ (by rw [qic]; exact hrx), qic, List.length_map]
  · rw [hring]

/-- Witness for C1: two producer calls read three bytes (one clean, one with a
framing error, one break) into an empty ring of a port that reports overrun,
parity and framing; the drain hands the three to uart_insert_char in order. -/
theorem C1_rx_byte_mode_fifo_lossless_witness :
    (∀ reads ∈ [[(0x20, 0x41), (0x22, 0x42)], [(0x120, 0)]], all_rxne reads)
    ∧ (∀ r, stm32_rx_from_ring serial_core_plain 3 ()
          (receive_calls [[(0x20, 0x41), (0x22, 0x42)], [(0x120, 0)]]
            { read_status_mask := 0xb }) = some r → r.2.rx_skipped = 0)
    ∧ ∃ s1 p1, stm32_rx_from_ring serial_core_plain 3 ()
          (receive_calls [[(0x20, 0x41), (0x22, 0x42)], [(0x120, 0)]]
            { read_status_mask := 0xb }) = some (s1, p1)
        ∧ p1.tty_log =
            [.uart_insert_char 0x10020 8 0x41 TTY_NORMAL,
             .uart_insert_char 2 8 0x42 TTY_FRAME,
             .uart_insert_char 0 8 0 TTY_NORMAL,
             .tty_flip_buffer_push]
        ∧ p1.icount.rx = 3
        ∧ p1.rx_ring.head = p1.rx_ring.tail :=
  have hskip : ∀ r, stm32_rx_from_ring serial_core_plain 3 ()
      (receive_calls [[(0x20, 0x41), (0x22, 0x42)], [(0x120, 0)]]
        { read_status_mask := 0xb }) = some r → r.2.rx_skipped = 0 := fun r h => by
    have e : (stm32_rx_from_ring serial_core_plain 3 ()
      (receive_calls [[(0x20, 0x41), (0x22, 0x42)], [(0x120, 0)]]
        { read_status_mask := 0xb })).map (fun r => r.2.rx_skipped) = some 0 := by decide
    rw [h] at e
    exact Option.some.inj e
  ⟨by decide, hskip,
    C1_rx_byte_mode_fifo_lossless serial_core_plain () { read_status_mask := 0xb }
      [[(0x20, 0x41), (0x22, 0x42)], [(0x120, 0)]] 3 rfl (by decide) (by decide) (by decide)
      (by decide) (by decide) hskip⟩

/-- Filling an empty ring: of the reads of a run of producer calls the ring
keeps the first 1023, and it is then full. -/
theorem receive_calls_overflow (calls : List (List (Nat × Nat))) (p : stm32_port)
    (hempty : p.rx_ring.head = p.rx_ring.tail) (hidx : p.rx_ring.head < 1024)
    (hread : ∀ reads ∈ calls, all_rxne reads)
    (hN : 1023 ≤ calls.flatten.length) :
    ring_entries (receive_calls calls p).rx_ring
        = (calls.flatten.take 1023).map rx_slot
    ∧ CIRC_CNT (receive_calls calls p).rx_ring.head (receive_calls calls p).rx_ring.tail
        STM32_SERIAL_RINGSIZE = 1023
    ∧ CIRC_SPACE (receive_calls calls p).rx_ring.head (receive_calls calls p).rx_ring.tail
        STM32_SERIAL_RINGSIZE = 0
    ∧ (receive_calls calls p).rx_ring.tail = p.rx_ring.tail := by
  have ht : p.rx_ring.tail < 1024 := hempty ▸ hidx
  obtain ⟨qt, qh, qent, -⟩ := receive_calls_ring calls p hread hidx ht
  have hcnt := circ_cnt_ring _ _ hidx ht
  have hspace : CIRC_SPACE p.rx_ring.head p.rx_ring.tail STM32_SERIAL_RINGSIZE = 1023 := by
    rw [circ_space_ring, hcnt]; omega
  have hent0 : ring_entries p.rx_ring = [] := by
    unfold ring_entries
    have : CIRC_CNT p.rx_ring.head p.rx_ring.tail STM32_SERIAL_RINGSIZE = 0 := by
      rw [hcnt]; omega
    rw [this]; rfl
  rw [hspace] at qent qh
  rw [hent0, List.nil_append] at qent
  rw [Nat.min_eq_left hN] at qh
  have hc : CIRC_CNT (receive_calls calls p).rx_ring.head
      (receive_calls calls p).rx_ring.tail STM32_SERIAL_RINGSIZE = 1023 := by
    rw [circ_cnt_ring _ _ (by rw [qh]; omega) (by rw [qt]; exact ht), qh, qt]; omega
  refine ⟨qent, hc, ?_, qt⟩
  rw [circ_space_ring, hc]

/-- C2 (as amended): ring overflow retains capacity minus one entries. If
successive calls of stm32_receive_chars read 1023 or more pairs (so in
particular more than 1024) into an initially empty ring before any drain, the
ring then holds exactly 1023 = STM32_SERIAL_RINGSIZE - 1 entries: the oldest
1023 pairs read, in order, each with its original status and byte; every later
byte has been dropped, and the ring has no free space. -/
theorem C2_rx_overflow_retains_oldest_1023 (calls : List (List (Nat × Nat)))
    (p : stm32_port)
    (hempty : p.rx_ring.head = p.rx_ring.tail)
    (hidx : p.rx_ring.head < STM32_SERIAL_RINGSIZE)
    (hread : ∀ reads ∈ calls, all_rxne reads)
    (hN : 1023 ≤ calls.flatten.length) :
    ring_entries (receive_calls calls p).rx_ring = (calls.flatten.take 1023).map rx_slot
    ∧ (ring_entries (receive_calls calls p).rx_ring).length = STM32_SERIAL_RINGSIZE - 1
    ∧ CIRC_SPACE (receive_calls calls p).rx_ring.head (receive_calls calls p).rx_ring.tail
        STM32_SERIAL_RINGSIZE = 0 := by
  obtain ⟨h1, -, h3, -⟩ := receive_calls_overflow calls p hempty hidx hread hN
  refine ⟨h1, ?_, h3⟩
  rw [h1, List.length_map, List.length_take, Nat.min_eq_left hN]
  rfl

theorem all_rxne_numbered (n : Nat) :
    ∀ reads ∈ [(List.range n).map (fun i => (USART_SR_RXNE, i))], all_rxne reads := by
  intro reads hr r hm
  rw [List.mem_singleton] at hr
  subst hr
  obtain ⟨i, -, rfl⟩ := List.mem_map.mp hm
  show USART_SR_RXNE &&& USART_SR_RXNE ≠ 0
  decide

/-- Witness for C2: 1030 numbered bytes read into an empty ring. -/
theorem C2_rx_overflow_retains_oldest_1023_witness :
    (∀ reads ∈ [(List.range 1030).map (fun i => (USART_SR_RXNE, i))], all_rxne reads)
    ∧ 1023 ≤ [(List.range 1030).map (fun i => (USART_SR_RXNE, i))].flatten.length
    ∧ ring_entries (receive_calls [(List.range 1030).map (fun i => (USART_SR_RXNE, i))]
          {}).rx_ring
        = ([(List.range 1030).map (fun i => (USART_SR_RXNE, i))].flatten.take 1023).map rx_slot
    ∧ (ring_entries (receive_calls [(List.range 1030).map (fun i => (USART_SR_RXNE, i))]
          {}).rx_ring).length = STM32_SERIAL_RINGSIZE - 1
    ∧ CIRC_SPACE
        (receive_calls [(List.range 1030).map (fun i => (USART_SR_RXNE, i))] {}).rx_ring.head
        (receive_calls [(List.range 1030).map (fun i => (USART_SR_RXNE, i))] {}).rx_ring.tail
        STM32_SERIAL_RINGSIZE = 0 :=
  ⟨all_rxne_numbered 1030, by simp,
    C2_rx_overflow_retains_oldest_1023 _ {} rfl (by decide) (all_rxne_numbered 1030)
      (by simp)⟩

/-- Counterexample to C2 as stated: when 1025 bytes, numbered 0 to 1024, are
read into an empty ring, the ring retains 1023 entries and not 1024; the byte
numbered 1023, the 1024th read, is not among them. -/
theorem C2_counterexample :
    (ring_entries (receive_calls [(List.range 1025).map (fun i => (USART_SR_RXNE, i))]
        {}).rx_ring).length = 1023
    ∧ (ring_entries (receive_calls [(List.range 1025).map (fun i => (USART_SR_RXNE, i))]
        {}).rx_ring).length ≠ STM32_SERIAL_RINGSIZE
    ∧ rx_slot (USART_SR_RXNE, 1023)
        ∉ ring_entries (receive_calls [(List.range 1025).map (fun i => (USART_SR_RXNE, i))]
            {}).rx_ring := by
  obtain ⟨h1, -, -, -⟩ := receive_calls_overflow
    [(List.range 1025).map (fun i => (USART_SR_RXNE, i))] {} rfl (by decide)
    (all_rxne_numbered 1025) (by simp)
  rw [h1]
  refine ⟨by simp, by simp [STM32_SERIAL_RINGSIZE], ?_⟩
  intro hm
  obtain ⟨r, hr, hrs⟩ := List.mem_map.mp hm
  have hr2 := List.mem_of_mem_take hr
  simp only [List.flatten_cons, List.flatten_nil, List.append_nil] at hr hr2
  obtain ⟨i, hi, rfl⟩ := List.mem_map.mp hr2
  have hi2 : i = 1023 := by
    have := congrArg stm32_uart_char.ch hrs
    simpa [rx_slot] using this
  subst hi2
  rw [← List.map_take, List.take_range] at hr
  obtain ⟨j, hj, hje⟩ := List.mem_map.mp hr
  have hj2 : j = 1023 := by
    have := congrArg Prod.snd hje
    simpa using this
  subst hj2
  simp at hj

/-- With no free space at entry, the producer loop leaves the port as it
found it, whatever the peripheral presents. -/
theorem receive_loop_full_port (reads : List (Nat × Nat)) (p : stm32_port)
    (hfull : CIRC_SPACE p.rx_ring.head p.rx_ring.tail STM32_SERIAL_RINGSIZE = 0) :
    (stm32_receive_chars_loop reads p).2 = p := by
  induction reads with
  | nil => rfl
  | cons r rest ih =>
    obtain ⟨sr, ch⟩ := r
    simp only [stm32_receive_chars_loop, hfull, if_true]
    split
    · exact ih
    · rfl

/-- C3: overflow drops are silent and leave the ring intact. When the loop of
stm32_receive_chars reads a byte (status with RXNE) while CIRC_SPACE(head,
tail, 1024) == 0, that byte is consumed and discarded: the loop goes on with
the remaining input and the very same port. The call as a whole changes
nothing but the tasklet request: ring head, ring tail, every stored slot and
every counter are as before. -/
theorem C3_rx_overflow_drop_is_silent (p : stm32_port) (sr ch : Nat)
    (rest : List (Nat × Nat))
    (hrxne : sr &&& USART_SR_RXNE ≠ 0)
    (hfull : CIRC_SPACE p.rx_ring.head p.rx_ring.tail STM32_SERIAL_RINGSIZE = 0) :
    stm32_receive_chars_loop ((sr, ch) :: rest) p = stm32_receive_chars_loop rest p
    ∧ (stm32_receive_chars ((sr, ch) :: rest) p).2 = tasklet_schedule p
    ∧ (stm32_receive_chars ((sr, ch) :: rest) p).2.rx_ring.head = p.rx_ring.head
    ∧ (stm32_receive_chars ((sr, ch) :: rest) p).2.rx_ring.tail = p.rx_ring.tail
    ∧ (stm32_receive_chars ((sr, ch) :: rest) p).2.rx_ring.buf = p.rx_ring.buf
    ∧ (stm32_receive_chars ((sr, ch) :: rest) p).2.icount = p.icount := by
  have h1 : stm32_receive_chars_loop ((sr, ch) :: rest) p
      = stm32_receive_chars_loop rest p := by
    simp only [stm32_receive_chars_loop, hrxne, ne_eq, not_false_eq_true, if_true, hfull]
  have h2 : (stm32_receive_chars ((sr, ch) :: rest) p).2 = tasklet_schedule p := by
    simp only [stm32_receive_chars]
    rw [receive_loop_full_port _ p hfull]
  refine ⟨h1, h2, ?_, ?_, ?_, ?_⟩ <;> rw [h2] <;> rfl

/-- Witness for C3: a ring with head 1023 and tail 0 is full, and a byte read
then is dropped. -/
theorem C3_rx_overflow_drop_is_silent_witness :
    (0x20 &&& USART_SR_RXNE ≠ 0)
    ∧ CIRC_SPACE 1023 0 STM32_SERIAL_RINGSIZE = 0
    ∧ (stm32_receive_chars [(0x20, 0x41)]
        { rx_ring := { buf := fun _ => {}, head := 1023, tail := 0 } }).2
      = tasklet_schedule { rx_ring := { buf := fun _ => {}, head := 1023, tail := 0 } } :=
  ⟨by decide, by decide,
    (C3_rx_overflow_drop_is_silent
      { rx_ring := { buf := fun _ => {}, head := 1023, tail := 0 } } 0x20 0x41 []
      (by decide) (by decide)).2.1⟩

/-! ## Which step writes which ring index -/

theorem receive_loop_tail (reads : List (Nat × Nat)) (p : stm32_port) :
    (stm32_receive_chars_loop reads p).2.rx_ring.tail = p.rx_ring.tail := by
  induction reads generalizing p with
  | nil => rfl
  | cons r rest ih =>
    obtain ⟨sr, ch⟩ := r
    simp only [stm32_receive_chars_loop]
    split
    · split
      · exact ih p
      · rw [ih]
    · rfl

theorem rx_loop_head {σ : Type} (k : serial_core σ) (fuel : Nat) (s : σ) (p : stm32_port)
    (r : σ × stm32_port) (hrun : stm32_rx_from_ring_loop k fuel s p = some r) :
    r.2.rx_ring.head = p.rx_ring.head ∧ r.2.rx_ring.buf = p.rx_ring.buf := by
  induction fuel generalizing s p with
  | zero =>
    simp only [stm32_rx_from_ring_loop] at hrun
    split at hrun
    · exact absurd hrun (by simp)
    · cases hrun; exact ⟨rfl, rfl⟩
  | succ fuel ih =>
    simp only [stm32_rx_from_ring_loop] at hrun
    split at hrun
    · obtain ⟨h1, h2⟩ := ih _ _ hrun
      simp only [stm32_rx_from_ring_body] at h1 h2
      rw [rx_entry_ring] at h1 h2
      exact ⟨h1, h2⟩
    · cases hrun; exact ⟨rfl, rfl⟩

/-- The byte-mode receive step, whenever it returns, has left the ring's head
and store as they were. -/
theorem rx_from_ring_head {σ : Type} (k : serial_core σ) (fuel : Nat) (s : σ)
    (p : stm32_port) (r : σ × stm32_port) (hrun : stm32_rx_from_ring k fuel s p = some r) :
    r.2.rx_ring.head = p.rx_ring.head ∧ r.2.rx_ring.buf = p.rx_ring.buf := by
  simp only [stm32_rx_from_ring] at hrun
  split at hrun
  · exact absurd hrun (by simp)
  · rename_i s1 p1 hloop
    cases hrun
    obtain ⟨h1, h2⟩ := rx_loop_head k fuel s _ _ hloop
    have hr : (if p.irq_wake then { p with pm_wakeups := p.pm_wakeups + 1 } else p).rx_ring
        = p.rx_ring := by split <;> rfl
    rw [hr] at h1 h2
    exact ⟨h1, h2⟩

/-- The DMA receive step on a non-error status, with the residue within the
mapped length and `tail` inside the buffer: it returns, having set `head` to
the write position `len - residue` (wrapped to 0 at the buffer end) and
moved `tail` up to it; the store is untouched. -/
theorem rx_from_dma_ring (dmastat : dma_status) (residue : Nat) (p : stm32_port)
    (hne : dmastat ≠ .DMA_ERROR)
    (hlen : p.dma_rx.sg.dma_length < 2 ^ 31)
    (hres : residue ≤ p.dma_rx.sg.dma_length)
    (htail : p.rx_ring.tail < p.dma_rx.sg.dma_length) :
    ∃ p1, stm32_rx_from_dma dmastat residue p = some p1
      ∧ p1.rx_ring.head = (p.dma_rx.sg.dma_length - residue) % p.dma_rx.sg.dma_length
      ∧ p1.rx_ring.tail = (p.dma_rx.sg.dma_length - residue) % p.dma_rx.sg.dma_length
      ∧ p1.rx_ring.buf = p.rx_ring.buf := by
  have h0 : u32 (p.dma_rx.sg.dma_length + 2 ^ 32 - u32 residue)
      = p.dma_rx.sg.dma_length - residue := by
    unfold u32; omega
  have hnot : ¬ (p.dma_rx.sg.dma_length - residue > p.dma_rx.sg.dma_length) := by omega
  have e1 : s32 (p.dma_rx.sg.dma_length - residue) < s32 p.rx_ring.tail
      ↔ p.dma_rx.sg.dma_length - residue < p.rx_ring.tail :=
    s32_lt_iff _ _ (by omega) (by omega)
  have e2 : s32 p.rx_ring.tail < s32 (p.dma_rx.sg.dma_length - residue)
      ↔ p.rx_ring.tail < p.dma_rx.sg.dma_length - residue :=
    s32_lt_iff _ _ (by omega) (by omega)
  have e3 : s32 0 < s32 (p.dma_rx.sg.dma_length - residue)
      ↔ 0 < p.dma_rx.sg.dma_length - residue :=
    s32_lt_iff _ _ (by omega) (by omega)
  have hcw : u32 (u32 (p.dma_rx.sg.dma_length - residue) + 2 ^ 32 - u32 0)
      = p.dma_rx.sg.dma_length - residue := by
    unfold u32; omega
  have hcn : p.rx_ring.tail < p.dma_rx.sg.dma_length - residue →
      u32 (u32 (p.dma_rx.sg.dma_length - residue) + 2 ^ 32 - u32 p.rx_ring.tail)
        = p.dma_rx.sg.dma_length - residue - p.rx_ring.tail := by
    intro h
    unfold u32; omega
  unfold stm32_rx_from_dma
  simp only [hne, if_false, h0, hnot]
  have hmod : (p.dma_rx.sg.dma_length - residue) % p.dma_rx.sg.dma_length
      = if residue = 0 then 0 else p.dma_rx.sg.dma_length - residue := by
    split
    · next h => rw [h, Nat.sub_zero, Nat.mod_self]
    · exact Nat.mod_eq_of_lt (by omega)
  by_cases hwrap : p.dma_rx.sg.dma_length - residue < p.rx_ring.tail
  · have hr0 : residue ≠ 0 := by omega
    rw [if_neg hr0] at hmod
    by_cases hz : 0 < p.dma_rx.sg.dma_length - residue
    · have hge : ¬ (p.dma_rx.sg.dma_length - residue ≥ p.dma_rx.sg.dma_length) := by omega
      refine ⟨_, rfl, ?_, ?_, ?_⟩ <;>
        simp only [e1, e2, e3, hcw, hwrap, hz, hge, if_true, if_false, tty_call, spin_lock, spin_unlock,
          hmod]
    · have hz2 : ¬ (0 < p.dma_rx.sg.dma_length - residue) := hz
      refine ⟨_, rfl, ?_, ?_, ?_⟩ <;>
        simp only [e1, e2, e3, hcw, hwrap, hz2, if_true, if_false, tty_call, spin_lock, spin_unlock, hmod]
      omega
  · by_cases hlt : p.rx_ring.tail < p.dma_rx.sg.dma_length - residue
    · by_cases hr0 : residue = 0
      · have hge : p.dma_rx.sg.dma_length - residue ≥ p.dma_rx.sg.dma_length := by omega
        rw [if_pos hr0] at hmod
        refine ⟨_, rfl, ?_, ?_, ?_⟩ <;>
          simp only [e1, e2, e3, hcw, hcn hlt, hwrap, hlt, hge, if_true, if_false, tty_call, spin_lock,
            spin_unlock, hmod]
      · have hge : ¬ (p.dma_rx.sg.dma_length - residue ≥ p.dma_rx.sg.dma_length) := by
          omega
        rw [if_neg hr0] at hmod
        refine ⟨_, rfl, ?_, ?_, ?_⟩ <;>
          simp only [e1, e2, e3, hcw, hcn hlt, hwrap, hlt, hge, if_true, if_false, tty_call, spin_lock,
            spin_unlock, hmod]
    · have hr0 : residue ≠ 0 := by omega
      rw [if_neg hr0] at hmod
      refine ⟨_, rfl, ?_, ?_, ?_⟩ <;>
        simp only [e1, e2, e3, hcw, hwrap, hlt, if_true, if_false, tty_call, spin_lock, spin_unlock, hmod]
      omega

/-- Counterexample to C4 as stated: the deferred worker's receive step in DMA
mode, stm32_rx_from_dma, changes head (here from 100 to 192). -/
theorem C4_counterexample :
    dma_rx_port_example.rx_ring.head = 100
    ∧ (stm32_rx_from_dma .DMA_IN_PROGRESS 8000 dma_rx_port_example).map
        (fun q => q.rx_ring.head) = some 192 := by
  decide

/-! ## Byte-mode transmit -/

theorem txeie_set (x : Nat) : (x ||| USART_CR1_TXEIE) &&& USART_CR1_TXEIE ≠ 0 := by
  intro h
  have h7 := congrArg (fun v => Nat.testBit v 7) h
  have hb : Nat.testBit USART_CR1_TXEIE 7 = true := by decide
  simp [Nat.testBit_and, Nat.testBit_or, hb] at h7

theorem txeie_cleared (x : Nat) :
    (x &&& not32 USART_CR1_TXEIE) &&& USART_CR1_TXEIE = 0 := by
  have hb : not32 USART_CR1_TXEIE &&& USART_CR1_TXEIE = 0 := by decide
  rw [Nat.and_assoc, hb, Nat.and_zero]

/-- One byte-mode transmit step on a non-empty queue that is not stopped,
with no x_char queued. -/
theorem transmit_step (p : stm32_port) (hx : p.x_char = 0)
    (hne : p.xmit.head ≠ p.xmit.tail) (hst : p.tx_stopped = false) :
    stm32_transmit_chars p
      = { p with
          dr_writes := p.dr_writes ++ [p.xmit.buf p.xmit.tail]
          cr1 := if p.xmit.head = (p.xmit.tail + 1) % 4096
            then (p.cr1 ||| USART_CR1_TXEIE) &&& not32 USART_CR1_TXEIE
            else p.cr1 ||| USART_CR1_TXEIE
          xmit := { p.xmit with tail := (p.xmit.tail + 1) % 4096 }
          icount := { p.icount with tx := u32 (p.icount.tx + 1) }
          write_wakeups :=
            if CIRC_CNT p.xmit.head ((p.xmit.tail + 1) % 4096) UART_XMIT_SIZE < WAKEUP_CHARS
            then p.write_wakeups + 1 else p.write_wakeups } := by
  have hreg : USART_CR1 ≠ USART_DR ∧ USART_CR1 ≠ USART_BRR := by decide
  simp only [stm32_transmit_chars, hx, ne_eq, not_true_eq_false, if_false, uart_circ_empty,
    hne, hst, decide_False, Bool.or_self, Bool.false_eq_true, stm32_set_bits, stm32_stop_tx,
    stm32_clr_bits, readl_relaxed, writel_relaxed, if_true, hreg.1, hreg.2, xmit_mask,
    uart_circ_chars_pending, uart_write_wakeup]
  by_cases hw : CIRC_CNT p.xmit.head ((p.xmit.tail + 1) % 4096) UART_XMIT_SIZE < WAKEUP_CHARS
  · simp only [hw, if_true, decide_eq_true_eq]
    by_cases he : p.xmit.head = (p.xmit.tail + 1) % 4096
    · rw [if_pos he, if_pos he]
    · rw [if_neg he, if_neg he]
  · simp only [hw, if_false, decide_eq_true_eq]
    by_cases he : p.xmit.head = (p.xmit.tail + 1) % 4096
    · rw [if_pos he, if_pos he]
    · rw [if_neg he, if_neg he]

/-- Draining the transmit queue by successive byte-mode steps: the state
after `i` of the `K` steps a queue of `K` pending bytes takes. -/
theorem transmit_calls_drain (i : Nat) (p : stm32_port) (K : Nat)
    (hx : p.x_char = 0) (hst : p.tx_stopped = false)
    (hh : p.xmit.head < 4096) (ht : p.xmit.tail < 4096)
    (hK : CIRC_CNT p.xmit.head p.xmit.tail UART_XMIT_SIZE = K)
    (htx : p.icount.tx < 2 ^ 32) (hi : i ≤ K) :
    (transmit_calls i p).dr_writes = p.dr_writes ++ xmit_slots p.xmit.buf p.xmit.tail i
    ∧ (transmit_calls i p).xmit.tail = (p.xmit.tail + i) % 4096
    ∧ (transmit_calls i p).xmit.head = p.xmit.head
    ∧ (transmit_calls i p).xmit.buf = p.xmit.buf
    ∧ (transmit_calls i p).icount.tx = u32 (p.icount.tx + i)
    ∧ (transmit_calls i p).write_wakeups = p.write_wakeups + (i - (K - WAKEUP_CHARS))
    ∧ (0 < i → i < K → (transmit_calls i p).cr1 &&& USART_CR1_TXEIE ≠ 0)
    ∧ (0 < i → i = K → (transmit_calls i p).cr1 &&& USART_CR1_TXEIE = 0) := by
  induction i generalizing p K with
  | zero =>
    refine ⟨by simp [transmit_calls, xmit_slots], ?_, rfl, rfl, ?_, by simp [transmit_calls],
      fun h => absurd h (by decide), fun h => absurd h (by decide)⟩
    · show p.xmit.tail = (p.xmit.tail + 0) % 4096
      omega
    · show p.icount.tx = u32 (p.icount.tx + 0)
      unfold u32; omega
  | succ i ih =>
    have hcnt := circ_cnt_xmit _ _ hh ht
    have hne : p.xmit.head ≠ p.xmit.tail := by omega
    have hp1 := transmit_step p hx hne hst
    have e1 : (stm32_transmit_chars p).x_char = 0 := by rw [hp1]; exact hx
    have e2 : (stm32_transmit_chars p).tx_stopped = false := by rw [hp1]; exact hst
    have e3 : (stm32_transmit_chars p).xmit.head = p.xmit.head := by rw [hp1]
    have e4 : (stm32_transmit_chars p).xmit.tail = (p.xmit.tail + 1) % 4096 := by rw [hp1]
    have e5 : (stm32_transmit_chars p).xmit.buf = p.xmit.buf := by rw [hp1]
    have e6 : (stm32_transmit_chars p).icount.tx = u32 (p.icount.tx + 1) := by rw [hp1]
    have e7 : (stm32_transmit_chars p).dr_writes = p.dr_writes ++ [p.xmit.buf p.xmit.tail] := by
      rw [hp1]
    have hK1 : CIRC_CNT p.xmit.head ((p.xmit.tail + 1) % 4096) UART_XMIT_SIZE = K - 1 := by
      rw [circ_cnt_xmit _ _ hh (Nat.mod_lt _ (by decide))]; omega
    have e8 : (stm32_transmit_chars p).write_wakeups
        = if K - 1 < WAKEUP_CHARS then p.write_wakeups + 1 else p.write_wakeups := by
      rw [hp1]; show (if _ then _ else _) = _; rw [hK1]
    have e9 : (stm32_transmit_chars p).cr1
        = if p.xmit.head = (p.xmit.tail + 1) % 4096
          then (p.cr1 ||| USART_CR1_TXEIE) &&& not32 USART_CR1_TXEIE
          else p.cr1 ||| USART_CR1_TXEIE := by rw [hp1]
    clear hp1
    have hset : 1 < K → ¬ p.xmit.head = (p.xmit.tail + 1) % 4096 := by
      intro h; omega
    have hclr : K = 1 → p.xmit.head = (p.xmit.tail + 1) % 4096 := by
      intro h; omega
    simp only [transmit_calls]
    generalize stm32_transmit_chars p = p1 at e1 e2 e3 e4 e5 e6 e7 e8 e9 ⊢
    obtain ⟨a1, a2, a3, a4, a5, a6, a7, a8⟩ := ih p1 (K - 1) e1 e2
      (by rw [e3]; exact hh) (by rw [e4]; exact Nat.mod_lt _ (by decide))
      (by rw [e3, e4]; exact hK1) (by rw [e6]; exact Nat.mod_lt _ (by decide)) (by omega)
    clear ih hcnt hK hK1
    refine ⟨?_, ?_, ?_, ?_, ?_, ?_, ?_, ?_⟩
    · rw [a1, e7, e5, e4]
      simp [xmit_slots, UART_XMIT_SIZE]
    · rw [a2, e4]; omega
    · rw [a3, e3]
    · rw [a4, e5]
    · rw [a5, e6]; unfold u32; omega
    · rw [a6, e8]
      unfold WAKEUP_CHARS
      split <;> omega
    · intro _ hlt
      by_cases hi0 : i = 0
      · subst hi0
        show p1.cr1 &&& USART_CR1_TXEIE ≠ 0
        rw [e9, if_neg (hset hlt)]
        exact txeie_set _
      · exact a7 (by omega) (by omega)
    · intro _ heq
      by_cases hi0 : i = 0
      · subst hi0
        show p1.cr1 &&& USART_CR1_TXEIE = 0
        rw [e9, if_pos (hclr heq.symm)]
        exact txeie_cleared _
      · exact a8 (by omega) (by omega)

/-- C5: byte-mode transmit drains a K-byte queue in exactly K steps. For a
transmit queue with K >= 1 pending bytes (indices in the buffer, so K <
UART_XMIT_SIZE), no x_char queued, transmission not stopped and head not
moved: after i <= K successive calls of stm32_transmit_chars exactly the
first i queued bytes have been written to the data register, in queue order
(one per call), tail has advanced by i modulo UART_XMIT_SIZE and the tx
counter (a u32) by i; after each of the first K-1 calls the queue is
non-empty and CR1.TXEIE is set; after the K-th call the queue is empty
(tail == head) and CR1.TXEIE is cleared. -/
theorem C5_tx_byte_mode_drains_in_K_steps (p : stm32_port) (K : Nat)
    (hx : p.x_char = 0) (hst : p.tx_stopped = false)
    (hh : p.xmit.head < UART_XMIT_SIZE) (ht : p.xmit.tail < UART_XMIT_SIZE)
    (hK : uart_circ_chars_pending p.xmit = K) (hK1 : 1 ≤ K)
    (htx : p.icount.tx < 2 ^ 32) :
    (∀ i, i ≤ K →
      (transmit_calls i p).dr_writes = p.dr_writes ++ xmit_slots p.xmit.buf p.xmit.tail i
      ∧ (transmit_calls i p).xmit.tail = (p.xmit.tail + i) % UART_XMIT_SIZE
      ∧ (transmit_calls i p).xmit.head = p.xmit.head
      ∧ (transmit_calls i p).icount.tx = u32 (p.icount.tx + i))
    ∧ (∀ i, 0 < i → i < K →
        uart_circ_empty (transmit_calls i p).xmit = false
        ∧ (transmit_calls i p).cr1 &&& USART_CR1_TXEIE ≠ 0)
    ∧ uart_circ_empty (transmit_calls K p).xmit = true
    ∧ (transmit_calls K p).xmit.tail = p.xmit.head
    ∧ (transmit_calls K p).cr1 &&& USART_CR1_TXEIE = 0
    ∧ K < UART_XMIT_SIZE := by
  have hh2 : p.xmit.head < 4096 := hh
  have ht2 : p.xmit.tail < 4096 := ht
  have hK2 : CIRC_CNT p.xmit.head p.xmit.tail UART_XMIT_SIZE = K := hK
  have hcnt := circ_cnt_xmit _ _ hh2 ht2
  have hKlt : K < 4096 := by omega
  have hhead : p.xmit.head = (p.xmit.tail + K) % 4096 := by omega
  refine ⟨?_, ?_, ?_, ?_, ?_, hKlt⟩
  · intro i hi
    obtain ⟨a1, a2, a3, -, a5, -, -, -⟩ := transmit_calls_drain i p K hx hst hh2 ht2 hK2 htx hi
    exact ⟨a1, a2, a3, a5⟩
  · intro i h0 hlt
    obtain ⟨-, a2, a3, -, -, -, a7, -⟩ :=
      transmit_calls_drain i p K hx hst hh2 ht2 hK2 htx (by omega)
    refine ⟨?_, a7 h0 hlt⟩
    simp only [uart_circ_empty, a2, a3, decide_eq_false_iff_not]
    clear hK2 hcnt hK
    omega
  · obtain ⟨-, a2, a3, -, -, -, -, -⟩ :=
      transmit_calls_drain K p K hx hst hh2 ht2 hK2 htx (Nat.le_refl _)
    simp only [uart_circ_empty, a2, a3, decide_eq_true_eq]
    exact hhead
  · obtain ⟨-, a2, -, -, -, -, -, -⟩ :=
      transmit_calls_drain K p K hx hst hh2 ht2 hK2 htx (Nat.le_refl _)
    rw [a2]; exact hhead.symm
  · obtain ⟨-, -, -, -, -, -, -, a8⟩ :=
      transmit_calls_drain K p K hx hst hh2 ht2 hK2 htx (Nat.le_refl _)
    exact a8 hK1 rfl

/-- Witness for C5: a queue of 5 bytes that wraps around the buffer end. -/
theorem C5_tx_byte_mode_drains_in_K_steps_witness :
    tx_port_example.x_char = 0 ∧ tx_port_example.tx_stopped = false
    ∧ tx_port_example.xmit.head < UART_XMIT_SIZE
    ∧ tx_port_example.xmit.tail < UART_XMIT_SIZE
    ∧ uart_circ_chars_pending tx_port_example.xmit = 5
    ∧ (transmit_calls 5 tx_port_example).xmit.tail = tx_port_example.xmit.head
    ∧ (transmit_calls 5 tx_port_example).cr1 &&& USART_CR1_TXEIE = 0
    ∧ (transmit_calls 5 tx_port_example).dr_writes = [254, 255, 0, 1, 2] :=
  have h := C5_tx_byte_mode_drains_in_K_steps tx_port_example 5 rfl rfl (by decide)
    (by decide) (by decide) (by decide) (by decide)
  ⟨rfl, rfl, by decide, by decide, by decide, h.2.2.2.1, h.2.2.2.2.1,
    (h.1 5 (Nat.le_refl _)).1⟩

/-- C6 (as amended): the wake-up fires on every step below the low-water
mark. While a byte-mode transmit queue of K bytes is drained by successive
stm32_transmit_chars steps (no new data added), a step whose byte leaves the
pending count at WAKEUP_CHARS or more signals no wake-up, and every step that
leaves the pending count below WAKEUP_CHARS calls uart_write_wakeup once: the
first time on the step where the count drops below the mark, and again on
each later step. Draining the K bytes signals min(K, WAKEUP_CHARS) wake-ups
in all. -/
theorem C6_tx_wakeup_on_every_step_below_mark (p : stm32_port) (K : Nat)
    (hx : p.x_char = 0) (hst : p.tx_stopped = false)
    (hh : p.xmit.head < UART_XMIT_SIZE) (ht : p.xmit.tail < UART_XMIT_SIZE)
    (hK : uart_circ_chars_pending p.xmit = K)
    (htx : p.icount.tx < 2 ^ 32) :
    (∀ i, i < K →
      uart_circ_chars_pending (transmit_calls (i + 1) p).xmit = K - (i + 1)
      ∧ (transmit_calls (i + 1) p).write_wakeups
          = (transmit_calls i p).write_wakeups
            + (if K - (i + 1) < WAKEUP_CHARS then 1 else 0))
    ∧ (transmit_calls K p).write_wakeups = p.write_wakeups + min K WAKEUP_CHARS := by
  have hh2 : p.xmit.head < 4096 := hh
  have ht2 : p.xmit.tail < 4096 := ht
  have hK2 : CIRC_CNT p.xmit.head p.xmit.tail UART_XMIT_SIZE = K := hK
  have hcnt := circ_cnt_xmit _ _ hh2 ht2
  have hKlt : K < 4096 := by omega
  have hhead : p.xmit.head = (p.xmit.tail + K) % 4096 := by omega
  constructor
  · intro i hi
    obtain ⟨-, -, -, -, -, a6, -, -⟩ :=
      transmit_calls_drain i p K hx hst hh2 ht2 hK2 htx (by omega)
    obtain ⟨-, b2, b3, -, -, b6, -, -⟩ :=
      transmit_calls_drain (i + 1) p K hx hst hh2 ht2 hK2 htx (by omega)
    constructor
    · simp only [uart_circ_chars_pending]
      rw [circ_cnt_xmit _ _ (by rw [b3]; exact hh2) (by rw [b2]; exact Nat.mod_lt _ (by decide)),
        b2, b3]
      clear hK2 hcnt hK
      omega
    · rw [a6, b6]
      unfold WAKEUP_CHARS
      clear hK2 hcnt hK
      split <;> omega
  · obtain ⟨-, -, -, -, -, a6, -, -⟩ :=
      transmit_calls_drain K p K hx hst hh2 ht2 hK2 htx (Nat.le_refl _)
    rw [a6]
    unfold WAKEUP_CHARS
    clear hK2 hcnt hK
    omega

/-- Witness for C6: draining the queue of 257 bytes signals 256 wake-ups. -/
theorem C6_tx_wakeup_on_every_step_below_mark_witness :
    tx_port_257.x_char = 0 ∧ tx_port_257.tx_stopped = false
    ∧ tx_port_257.xmit.head < UART_XMIT_SIZE ∧ tx_port_257.xmit.tail < UART_XMIT_SIZE
    ∧ uart_circ_chars_pending tx_port_257.xmit = 257
    ∧ (transmit_calls 257 tx_port_257).write_wakeups
        = tx_port_257.write_wakeups + min 257 WAKEUP_CHARS :=
  ⟨rfl, rfl, by decide, by decide, by decide,
    (C6_tx_wakeup_on_every_step_below_mark tx_port_257 257 rfl rfl (by decide) (by decide)
      (by decide) (by decide)).2⟩

/-- Counterexample to C6 as stated: draining a queue of 257 bytes, the pending
count drops below WAKEUP_CHARS = 256 on the second step (256 to 255), where
the wake-up fires, and it fires again on the third step (255 to 254) although
the count stayed below the mark: two wake-ups for one crossing. -/
theorem C6_counterexample :
    uart_circ_chars_pending tx_port_257.xmit = 257
    ∧ uart_circ_chars_pending (transmit_calls 1 tx_port_257).xmit = 256
    ∧ (transmit_calls 1 tx_port_257).write_wakeups = 0
    ∧ uart_circ_chars_pending (transmit_calls 2 tx_port_257).xmit = 255
    ∧ (transmit_calls 2 tx_port_257).write_wakeups = 1
    ∧ uart_circ_chars_pending (transmit_calls 3 tx_port_257).xmit = 254
    ∧ (transmit_calls 3 tx_port_257).write_wakeups = 2 := by
  decide

/-- C7: a pass-through character bypasses the queue. Whenever port->x_char is
non-zero, stm32_transmit_chars writes exactly that character to the data
register, resets x_char to 0, increments the tx counter (a u32) by one and
returns with the transmit queue's head, tail and contents unchanged, whether
or not the queue is empty or transmission is stopped; nothing else in the
port changes. -/
theorem C7_tx_x_char_bypasses_queue (p : stm32_port) (hx : p.x_char ≠ 0) :
    stm32_transmit_chars p
        = { p with
            dr_writes := p.dr_writes ++ [p.x_char]
            x_char := 0
            icount := { p.icount with tx := u32 (p.icount.tx + 1) } }
    ∧ (stm32_transmit_chars p).dr_writes = p.dr_writes ++ [p.x_char]
    ∧ (stm32_transmit_chars p).x_char = 0
    ∧ (stm32_transmit_chars p).icount.tx = u32 (p.icount.tx + 1)
    ∧ (stm32_transmit_chars p).xmit.head = p.xmit.head
    ∧ (stm32_transmit_chars p).xmit.tail = p.xmit.tail
    ∧ (stm32_transmit_chars p).xmit.buf = p.xmit.buf := by
  have h : stm32_transmit_chars p
      = { p with
          dr_writes := p.dr_writes ++ [p.x_char]
          x_char := 0
          icount := { p.icount with tx := u32 (p.icount.tx + 1) } } := by
    simp only [stm32_transmit_chars, hx, ne_eq, not_false_eq_true, if_true, writel_relaxed]
  refine ⟨h, ?_, ?_, ?_, ?_, ?_, ?_⟩ <;> rw [h]

/-- Witness for C7: an XOFF (0x13) queued on a port whose transmit queue is
empty and whose transmission is stopped. -/
theorem C7_tx_x_char_bypasses_queue_witness :
    ({ x_char := 0x13, tx_stopped := true } : stm32_port).x_char ≠ 0
    ∧ (stm32_transmit_chars { x_char := 0x13, tx_stopped := true }).dr_writes = [0x13]
    ∧ (stm32_transmit_chars { x_char := 0x13, tx_stopped := true }).x_char = 0 :=
  have h := C7_tx_x_char_bypasses_queue { x_char := 0x13, tx_stopped := true } (by decide)
  ⟨by decide, h.2.1, h.2.2.1⟩

/-! ## Status bits of a received entry -/

theorem or_eq_zero_iff (a b : Nat) : a ||| b = 0 ↔ a = 0 ∧ b = 0 := by
  constructor
  · intro h
    constructor
    · apply Nat.eq_of_testBit_eq
      intro i
      have := congrArg (fun v => Nat.testBit v i) h
      simp [Nat.testBit_or] at this
      simp [this.1]
    · apply Nat.eq_of_testBit_eq
      intro i
      have := congrArg (fun v => Nat.testBit v i) h
      simp [Nat.testBit_or] at this
      simp [this.2]
  · rintro ⟨rfl, rfl⟩
    rfl

/-- The dummy bit does not show through a mask that lacks it. -/
theorem dummy_and (x b : Nat) (hb : USART_SR_DUMMY_RX &&& b = 0) :
    (x ||| USART_SR_DUMMY_RX) &&& b = x &&& b := by
  rw [Nat.and_distrib_right, hb, Nat.or_zero]

theorem dummy_and_masked (x m b : Nat) (hb : USART_SR_DUMMY_RX &&& b = 0) :
    ((x ||| USART_SR_DUMMY_RX) &&& m) &&& b = (x &&& m) &&& b := by
  rw [Nat.and_assoc, Nat.and_distrib_right, Nat.and_assoc x m b]
  have h : USART_SR_DUMMY_RX &&& (m &&& b) = 0 := by
    rw [Nat.and_comm m b, ← Nat.and_assoc, hb, Nat.zero_and]
  rw [h, Nat.or_zero]

theorem err_mask_iff (x : Nat) :
    x &&& USART_SR_ERR_MASK ≠ 0
      ↔ ¬ (x &&& USART_SR_LBD = 0 ∧ x &&& USART_SR_ORE = 0 ∧ x &&& USART_SR_FE = 0
            ∧ x &&& USART_SR_PE = 0) := by
  unfold USART_SR_ERR_MASK
  rw [Nat.and_or_distrib_left, Nat.and_or_distrib_left, Nat.and_or_distrib_left, ne_eq,
    or_eq_zero_iff, or_eq_zero_iff, or_eq_zero_iff]
  tauto

/-- The flag the drain computes for an entry is the flag of the
specification. -/
theorem rx_flag_eq_spec (read_status_mask : Nat) (c : stm32_uart_char) :
    (if (c.sr ||| USART_SR_DUMMY_RX) &&& USART_SR_ERR_MASK ≠ 0
      then rx_ring_error_flag ((c.sr ||| USART_SR_DUMMY_RX) &&& read_status_mask)
      else TTY_NORMAL)
      = status_flag_spec read_status_mask c.sr := by
  have hE : (c.sr ||| USART_SR_DUMMY_RX) &&& USART_SR_ERR_MASK = c.sr &&& USART_SR_ERR_MASK :=
    dummy_and _ _ (by decide)
  have hL := dummy_and_masked c.sr read_status_mask USART_SR_LBD (by decide)
  have hP := dummy_and_masked c.sr read_status_mask USART_SR_PE (by decide)
  have hF := dummy_and_masked c.sr read_status_mask USART_SR_FE (by decide)
  unfold status_flag_spec rx_ring_error_flag
  rw [hE, hL, hP, hF]
  by_cases h : c.sr &&& USART_SR_ERR_MASK ≠ 0
  · rw [if_pos h, if_neg ((err_mask_iff _).mp h)]
  · rw [if_neg h, if_pos (not_not.mp (mt (err_mask_iff _).mpr h))]

theorem rx_insert_event_spec (read_status_mask : Nat) (c : stm32_uart_char) :
    ∃ status, rx_insert_event read_status_mask c
      = .uart_insert_char status USART_SR_ORE c.ch
          (status_flag_spec read_status_mask c.sr) := by
  have h := rx_flag_eq_spec read_status_mask c
  unfold rx_insert_event
  by_cases herr : (c.sr ||| USART_SR_DUMMY_RX) &&& USART_SR_ERR_MASK ≠ 0
  · rw [if_pos herr] at h
    simp only [herr, ne_eq, not_false_eq_true, if_true]
    exact ⟨_, by rw [h]⟩
  · rw [if_neg herr] at h
    simp only [herr, if_false]
    exact ⟨_, by rw [h]⟩

theorem rx_counted_eq_priority (c : stm32_uart_char) (ic : uart_icount) :
    rx_counted c ic = rx_counted_by_priority c ic := by
  have hE := err_mask_iff (c.sr ||| USART_SR_DUMMY_RX)
  have hL : (c.sr ||| USART_SR_DUMMY_RX) &&& USART_SR_LBD = c.sr &&& USART_SR_LBD :=
    dummy_and _ _ (by decide)
  have hO : (c.sr ||| USART_SR_DUMMY_RX) &&& USART_SR_ORE = c.sr &&& USART_SR_ORE :=
    dummy_and _ _ (by decide)
  have hP : (c.sr ||| USART_SR_DUMMY_RX) &&& USART_SR_PE = c.sr &&& USART_SR_PE :=
    dummy_and _ _ (by decide)
  have hF : (c.sr ||| USART_SR_DUMMY_RX) &&& USART_SR_FE = c.sr &&& USART_SR_FE :=
    dummy_and _ _ (by decide)
  rw [hL, hO, hP, hF] at hE
  unfold rx_counted rx_counted_by_priority
  simp only [hL, hO, hP, hF]
  by_cases h1 : c.sr &&& USART_SR_LBD = 0 <;> by_cases h2 : c.sr &&& USART_SR_ORE = 0 <;>
    by_cases h3 : c.sr &&& USART_SR_PE = 0 <;> by_cases h4 : c.sr &&& USART_SR_FE = 0 <;>
    simp [hE, h1, h2, h3, h4]

/-- What processing one entry does to the port, with the skip decided by the
hooks: the counters move as `rx_counted` says; when a hook asks for it the
entry is skipped, and otherwise it is handed to `uart_insert_char`. -/
theorem rx_entry_eq {σ : Type} (k : serial_core σ) (c : stm32_uart_char) (s : σ)
    (p : stm32_port) :
    (stm32_rx_from_ring_entry k c s p).2
      = if rx_entry_skipped k c s
        then rx_skip { p with icount := rx_counted c p.icount }
        else tty_call (rx_insert_event p.read_status_mask c)
          { p with icount := rx_counted c p.icount } := by
  have hE : (c.sr ||| USART_SR_DUMMY_RX) &&& USART_SR_ERR_MASK = c.sr &&& USART_SR_ERR_MASK :=
    dummy_and _ _ (by decide)
  have hL : (c.sr ||| USART_SR_DUMMY_RX) &&& USART_SR_LBD = c.sr &&& USART_SR_LBD :=
    dummy_and _ _ (by decide)
  unfold stm32_rx_from_ring_entry rx_counted rx_insert_event rx_ring_insert
    rx_ring_count_error rx_entry_skipped
  simp only [hE, hL]
  by_cases herr : c.sr &&& USART_SR_ERR_MASK ≠ 0
  · simp only [herr, ne_eq, not_false_eq_true, if_true]
    by_cases hl : c.sr &&& USART_SR_LBD ≠ 0
    · simp only [hl, ne_eq, not_false_eq_true, if_true]
      cases hb : (k.uart_handle_break s).1 <;>
        cases hq : (k.uart_handle_sysrq_char (k.uart_handle_break s).2 c.ch).1 <;>
        simp [hb, hq]
    · simp only [hl, if_false]
      by_cases ho : (c.sr ||| USART_SR_DUMMY_RX) &&& USART_SR_ORE ≠ 0
      · cases hq : (k.uart_handle_sysrq_char s c.ch).1 <;> simp [ho, hq]
      · by_cases hp : (c.sr ||| USART_SR_DUMMY_RX) &&& USART_SR_PE ≠ 0
        · cases hq : (k.uart_handle_sysrq_char s c.ch).1 <;> simp [ho, hp, hq]
        · by_cases hf : (c.sr ||| USART_SR_DUMMY_RX) &&& USART_SR_FE ≠ 0
          · cases hq : (k.uart_handle_sysrq_char s c.ch).1 <;> simp [ho, hp, hf, hq]
          · cases hq : (k.uart_handle_sysrq_char s c.ch).1 <;> simp [ho, hp, hf, hq]
  · have hl : ¬ c.sr &&& USART_SR_LBD ≠ 0 := by
      intro h
      exact herr ((err_mask_iff _).mpr (fun hh => h hh.1))
    simp only [herr, hl, if_false]
    cases hq : (k.uart_handle_sysrq_char s c.ch).1 <;> simp [hq]

/-- The call the drain makes for an entry it does not skip, with the status
argument written out and the flag of the specification. -/
theorem rx_insert_event_eq (read_status_mask : Nat) (c : stm32_uart_char) :
    rx_insert_event read_status_mask c
      = .uart_insert_char
          (if c.sr &&& USART_SR_ERR_MASK ≠ 0
            then (c.sr ||| USART_SR_DUMMY_RX) &&& read_status_mask
            else c.sr ||| USART_SR_DUMMY_RX)
          USART_SR_ORE c.ch (status_flag_spec read_status_mask c.sr) := by
  have h := rx_flag_eq_spec read_status_mask c
  have hE : (c.sr ||| USART_SR_DUMMY_RX) &&& USART_SR_ERR_MASK = c.sr &&& USART_SR_ERR_MASK :=
    dummy_and _ _ (by decide)
  unfold rx_insert_event
  rw [hE] at h
  simp only [hE]
  by_cases herr : c.sr &&& USART_SR_ERR_MASK ≠ 0
  · rw [if_pos herr] at h
    rw [if_pos herr, if_pos herr, h]
  · rw [if_neg herr] at h
    rw [if_neg herr, if_neg herr, h]

/-- C8: status-to-flag translation in stm32_rx_from_ring. In every iteration
of the drain loop, on the entry at tail with captured status sr and character
ch: unless a serial-core hook asks to skip the entry (uart_handle_break on an
entry with the break bit, or uart_handle_sysrq_char), exactly one
uart_insert_char call is made, with the character ch, the status sr with the
dummy bit (masked with read_status_mask when sr has an error bit) and the flag
of the specification: TTY_NORMAL if sr has none of the break/overrun/framing/
parity bits; otherwise, with m = sr & read_status_mask, TTY_BREAK if m has the
break bit, else TTY_PARITY if m has the parity bit, else TTY_FRAME if m has
the framing bit, else TTY_NORMAL. When a hook asks to skip the entry nothing
is handed over and the skip is counted. In particular an entry that is not
skipped and whose error the report mask does not select (m has none of the
break, parity and framing bits) is handed over with the flag TTY_NORMAL. -/
theorem C8_rx_status_to_flag {σ : Type} (k : serial_core σ) (s : σ) (p : stm32_port) :
    (rx_entry_skipped k (p.rx_ring.buf p.rx_ring.tail) s = false →
      (stm32_rx_from_ring_body k s p).2.tty_log
          = p.tty_log ++ [.uart_insert_char
              (if (p.rx_ring.buf p.rx_ring.tail).sr &&& USART_SR_ERR_MASK ≠ 0
                then ((p.rx_ring.buf p.rx_ring.tail).sr ||| USART_SR_DUMMY_RX)
                  &&& p.read_status_mask
                else (p.rx_ring.buf p.rx_ring.tail).sr ||| USART_SR_DUMMY_RX)
              USART_SR_ORE (p.rx_ring.buf p.rx_ring.tail).ch
              (status_flag_spec p.read_status_mask (p.rx_ring.buf p.rx_ring.tail).sr)]
        ∧ (stm32_rx_from_ring_body k s p).2.rx_skipped = p.rx_skipped)
    ∧ (rx_entry_skipped k (p.rx_ring.buf p.rx_ring.tail) s = true →
        (stm32_rx_from_ring_body k s p).2.tty_log = p.tty_log
        ∧ (stm32_rx_from_ring_body k s p).2.rx_skipped = p.rx_skipped + 1)
    ∧ (rx_entry_skipped k (p.rx_ring.buf p.rx_ring.tail) s = false →
        ((p.rx_ring.buf p.rx_ring.tail).sr &&& p.read_status_mask) &&& USART_SR_LBD = 0 →
        ((p.rx_ring.buf p.rx_ring.tail).sr &&& p.read_status_mask) &&& USART_SR_PE = 0 →
        ((p.rx_ring.buf p.rx_ring.tail).sr &&& p.read_status_mask) &&& USART_SR_FE = 0 →
        (stm32_rx_from_ring_body k s p).2.tty_log
          = p.tty_log ++ [.uart_insert_char
              (if (p.rx_ring.buf p.rx_ring.tail).sr &&& USART_SR_ERR_MASK ≠ 0
                then ((p.rx_ring.buf p.rx_ring.tail).sr ||| USART_SR_DUMMY_RX)
                  &&& p.read_status_mask
                else (p.rx_ring.buf p.rx_ring.tail).sr ||| USART_SR_DUMMY_RX)
              USART_SR_ORE (p.rx_ring.buf p.rx_ring.tail).ch TTY_NORMAL]) := by
  have hbody : (stm32_rx_from_ring_body k s p).2
      = if rx_entry_skipped k (p.rx_ring.buf p.rx_ring.tail) s
        then rx_skip
          { p with
            rx_ring :=
              { p.rx_ring with
                tail := (p.rx_ring.tail + 1) &&& (STM32_SERIAL_RINGSIZE - 1) }
            icount := rx_counted (p.rx_ring.buf p.rx_ring.tail) p.icount }
        else tty_call (rx_insert_event p.read_status_mask (p.rx_ring.buf p.rx_ring.tail))
          { p with
            rx_ring :=
              { p.rx_ring with
                tail := (p.rx_ring.tail + 1) &&& (STM32_SERIAL_RINGSIZE - 1) }
            icount := rx_counted (p.rx_ring.buf p.rx_ring.tail) p.icount } := by
    unfold stm32_rx_from_ring_body
    exact rx_entry_eq k _ s _
  have hdeliver : rx_entry_skipped k (p.rx_ring.buf p.rx_ring.tail) s = false →
      (stm32_rx_from_ring_body k s p).2.tty_log
          = p.tty_log ++ [.uart_insert_char
              (if (p.rx_ring.buf p.rx_ring.tail).sr &&& USART_SR_ERR_MASK ≠ 0
                then ((p.rx_ring.buf p.rx_ring.tail).sr ||| USART_SR_DUMMY_RX)
                  &&& p.read_status_mask
                else (p.rx_ring.buf p.rx_ring.tail).sr ||| USART_SR_DUMMY_RX)
              USART_SR_ORE (p.rx_ring.buf p.rx_ring.tail).ch
              (status_flag_spec p.read_status_mask (p.rx_ring.buf p.rx_ring.tail).sr)]
        ∧ (stm32_rx_from_ring_body k s p).2.rx_skipped = p.rx_skipped := by
    intro hs
    rw [hbody, hs, rx_insert_event_eq]
    exact ⟨rfl, rfl⟩
  refine ⟨hdeliver, ?_, ?_⟩
  · intro hs
    rw [hbody, hs]
    exact ⟨rfl, rfl⟩
  · intro hs h1 h2 h3
    have hflag : status_flag_spec p.read_status_mask (p.rx_ring.buf p.rx_ring.tail).sr
        = TTY_NORMAL := by
      unfold status_flag_spec
      simp [h1, h2, h3]
    rw [(hdeliver hs).1, hflag]

/-- Witness for C8: with serial core built without sysrq support, the entry
0x42 received with a parity error on a port whose report mask holds the
overrun bit only is handed to uart_insert_char with status 0 and the flag
TTY_NORMAL. -/
theorem C8_rx_status_to_flag_witness :
    rx_entry_skipped serial_core_plain
      (rx_port_parity_unreported.rx_ring.buf rx_port_parity_unreported.rx_ring.tail) ()
      = false
    ∧ rx_port_parity_unreported.read_status_mask = USART_SR_ORE
    ∧ (rx_port_parity_unreported.rx_ring.buf rx_port_parity_unreported.rx_ring.tail).sr
        = USART_SR_RXNE ||| USART_SR_PE
    ∧ (stm32_rx_from_ring_body serial_core_plain () rx_port_parity_unreported).2.tty_log
        = [.uart_insert_char 0 USART_SR_ORE 0x42 TTY_NORMAL] := by
  have h := (C8_rx_status_to_flag serial_core_plain () rx_port_parity_unreported).2.2
    (by decide) (by decide) (by decide) (by decide)
  refine ⟨by decide, by decide, by decide, ?_⟩
  rw [h]
  decide

/-- C9 (as amended): the first line error present is counted, and no error
stops the drain. Every iteration of the drain loop of stm32_rx_from_ring
advances rx and, of the four error counters, exactly the one of the first
condition present in the entry's captured status, in the order break,
overrun, parity, framing (a condition behind an earlier one is not counted).
On a ring with indices in range and with fuel for every entry the drain
returns with the ring empty, whatever the statuses of the entries, and the
counters are those of this rule applied to the entries in order. -/
theorem C9_rx_first_error_counted {σ : Type} (k : serial_core σ) (fuel : Nat) (s : σ)
    (p : stm32_port)
    (hh : p.rx_ring.head < STM32_SERIAL_RINGSIZE)
    (ht : p.rx_ring.tail < STM32_SERIAL_RINGSIZE)
    (hfuel : CIRC_CNT p.rx_ring.head p.rx_ring.tail STM32_SERIAL_RINGSIZE ≤ fuel) :
    (stm32_rx_from_ring_body k s p).2.icount
        = rx_counted_by_priority (p.rx_ring.buf p.rx_ring.tail) p.icount
    ∧ ∃ s1 p1, stm32_rx_from_ring k fuel s p = some (s1, p1)
        ∧ p1.rx_ring.tail = p1.rx_ring.head
        ∧ p1.icount
            = (ring_entries p.rx_ring).foldl (fun ic c => rx_counted_by_priority c ic)
                p.icount := by
  constructor
  · unfold stm32_rx_from_ring_body
    rw [rx_entry_icount, rx_counted_eq_priority]
  · obtain ⟨s1, p1, hrun, hring, hic, -, -, -⟩ := rx_from_ring_summary k fuel s p hh ht hfuel
    refine ⟨s1, p1, hrun, by rw [hring], ?_⟩
    rw [hic]
    congr 1
    funext ic c
    exact rx_counted_eq_priority c ic

/-- Witness for C9: the drain of a ring holding one entry with an overrun and
a parity error. -/
theorem C9_rx_first_error_counted_witness :
    rx_port_overrun_parity.rx_ring.head < STM32_SERIAL_RINGSIZE
    ∧ rx_port_overrun_parity.rx_ring.tail < STM32_SERIAL_RINGSIZE
    ∧ CIRC_CNT rx_port_overrun_parity.rx_ring.head rx_port_overrun_parity.rx_ring.tail
        STM32_SERIAL_RINGSIZE ≤ 1
    ∧ (stm32_rx_from_ring_body serial_core_plain () rx_port_overrun_parity).2.icount
        = rx_counted_by_priority
            (rx_port_overrun_parity.rx_ring.buf rx_port_overrun_parity.rx_ring.tail)
            rx_port_overrun_parity.icount :=
  ⟨by decide, by decide, by decide,
    (C9_rx_first_error_counted serial_core_plain 1 () rx_port_overrun_parity (by decide)
      (by decide) (by decide)).1⟩

/-- Counterexample to C9 as stated: an entry whose captured status has both
the overrun and the parity bit is drained; the overrun counter advances, the
parity counter does not. -/
theorem C9_counterexample :
    (rx_port_overrun_parity.rx_ring.buf rx_port_overrun_parity.rx_ring.tail).sr
        &&& USART_SR_PE ≠ 0
    ∧ rx_port_overrun_parity.icount.parity = 0
    ∧ (stm32_rx_from_ring serial_core_plain 1 () rx_port_overrun_parity).map
        (fun r => (r.2.icount.rx, r.2.icount.overrun, r.2.icount.parity))
        = some (1, 1, 0) := by
  decide

/-! ## Line configuration and the ignore mask -/

theorem writel_relaxed_frame (val reg : Nat) (p : stm32_port) :
    (writel_relaxed val reg p).rx_ring = p.rx_ring
    ∧ (writel_relaxed val reg p).icount = p.icount
    ∧ (writel_relaxed val reg p).ignore_status_mask = p.ignore_status_mask
    ∧ (writel_relaxed val reg p).read_status_mask = p.read_status_mask := by
  unfold writel_relaxed
  split_ifs <;> exact ⟨rfl, rfl, rfl, rfl⟩

theorem set_termios_frame (c_cflag c_iflag baud : Nat) (p : stm32_port) :
    (stm32_set_termios c_cflag c_iflag baud p).rx_ring = p.rx_ring
    ∧ (stm32_set_termios c_cflag c_iflag baud p).icount = p.icount
    ∧ (stm32_set_termios c_cflag c_iflag baud p).ignore_status_mask
        = termios_ignore_mask c_cflag c_iflag := by
  have W1 := fun v r q => (writel_relaxed_frame v r q).1
  have W2 := fun v r q => (writel_relaxed_frame v r q).2.1
  have W3 := fun v r q => (writel_relaxed_frame v r q).2.2.1
  refine ⟨?_, ?_, ?_⟩
  · simp only [stm32_set_termios, spin_lock, spin_unlock, stm32_set_bits, stm32_clr_bits,
      W1, apply_ite stm32_port.rx_ring,
      ite_self]
  · simp only [stm32_set_termios, spin_lock, spin_unlock, stm32_set_bits, stm32_clr_bits,
      W2, apply_ite stm32_port.icount,
      ite_self]
  · simp only [stm32_set_termios, spin_lock, spin_unlock, stm32_set_bits, stm32_clr_bits,
      W3,
      apply_ite stm32_port.ignore_status_mask, ite_self, termios_ignore_mask]
    by_cases h1 : c_iflag &&& IGNPAR ≠ 0 <;> by_cases h2 : c_iflag &&& IGNBRK ≠ 0 <;>
      by_cases h3 : c_cflag &&& CREAD = 0 <;> simp [h1, h2, h3, Nat.or_assoc]

theorem termios_ignore_mask_overrun (c_cflag c_iflag : Nat) :
    termios_ignore_mask c_cflag c_iflag &&& USART_SR_ORE ≠ 0
      ↔ (c_iflag &&& IGNPAR ≠ 0 ∧ c_iflag &&& IGNBRK ≠ 0) := by
  unfold termios_ignore_mask
  by_cases h1 : c_iflag &&& IGNPAR ≠ 0 <;> by_cases h2 : c_iflag &&& IGNBRK ≠ 0 <;>
    by_cases h3 : c_cflag &&& CREAD = 0 <;>
    simp only [h1, h2, h3, if_true, if_false, ne_eq, not_true_eq_false, not_false_eq_true,
      and_self, and_false, false_and, iff_true, iff_false, not_not] <;> decide

/-- C10 (as amended): the overrun counter does not depend on the ignore
policy. Whatever stm32_set_termios has configured (IGNPAR and IGNBRK both set,
one of them, or neither), a received entry whose captured status has the
overrun bit and not the break bit increments icount.overrun (a u32) by one
when drained by stm32_rx_from_ring. Setting both IGNPAR and IGNBRK puts the
overrun bit into ignore_status_mask, and with at most one of the two set it is
not in the mask; the counter chain does not consult that mask. -/
theorem C10_overrun_counted_whatever_the_ignore_policy {σ : Type} (k : serial_core σ)
    (s : σ) (p : stm32_port) (c_cflag c_iflag baud : Nat)
    (hore : (p.rx_ring.buf p.rx_ring.tail).sr &&& USART_SR_ORE ≠ 0)
    (hlbd : (p.rx_ring.buf p.rx_ring.tail).sr &&& USART_SR_LBD = 0) :
    ((stm32_set_termios c_cflag c_iflag baud p).ignore_status_mask &&& USART_SR_ORE ≠ 0
      ↔ (c_iflag &&& IGNPAR ≠ 0 ∧ c_iflag &&& IGNBRK ≠ 0))
    ∧ (stm32_rx_from_ring_body k s (stm32_set_termios c_cflag c_iflag baud p)).2.icount.overrun
        = u32 (p.icount.overrun + 1) := by
  obtain ⟨f1, f2, f3⟩ := set_termios_frame c_cflag c_iflag baud p
  constructor
  · rw [f3]
    exact termios_ignore_mask_overrun c_cflag c_iflag
  · unfold stm32_rx_from_ring_body
    rw [rx_entry_icount, rx_counted_eq_priority]
    show (rx_counted_by_priority
      ((stm32_set_termios c_cflag c_iflag baud p).rx_ring.buf
        (stm32_set_termios c_cflag c_iflag baud p).rx_ring.tail)
      (stm32_set_termios c_cflag c_iflag baud p).icount).overrun = _
    rw [f1, f2]
    unfold rx_counted_by_priority
    simp only [hlbd, hore, ne_eq, not_false_eq_true, and_self, if_true]

/-- Witness for C10: an entry with an overrun on a port configured with both
IGNPAR and IGNBRK. -/
theorem C10_overrun_counted_whatever_the_ignore_policy_witness :
    (rx_port_overrun.rx_ring.buf rx_port_overrun.rx_ring.tail).sr &&& USART_SR_ORE ≠ 0
    ∧ (rx_port_overrun.rx_ring.buf rx_port_overrun.rx_ring.tail).sr &&& USART_SR_LBD = 0
    ∧ (stm32_rx_from_ring_body serial_core_plain ()
        (stm32_set_termios (CS8 ||| CREAD) (IGNPAR ||| IGNBRK) 115200
          rx_port_overrun)).2.icount.overrun
        = u32 (rx_port_overrun.icount.overrun + 1) :=
  ⟨by decide, by decide,
    (C10_overrun_counted_whatever_the_ignore_policy serial_core_plain () rx_port_overrun
      (CS8 ||| CREAD) (IGNPAR ||| IGNBRK) 115200 (by decide) (by decide)).2⟩

/-- Counterexample to C10 as stated: the port has been configured by
stm32_set_termios with both IGNPAR and IGNBRK (the overrun bit is in the
ignore mask), an entry with the overrun bit is drained, and the overrun
counter goes from 0 to 1. -/
theorem C10_counterexample :
    rx_port_overrun_raw.ignore_status_mask &&& USART_SR_ORE ≠ 0
    ∧ (rx_port_overrun_raw.rx_ring.buf rx_port_overrun_raw.rx_ring.tail).sr
        &&& USART_SR_ORE ≠ 0
    ∧ rx_port_overrun_raw.icount.overrun = 0
    ∧ (stm32_rx_from_ring serial_core_plain 1 () rx_port_overrun_raw).map
        (fun r => r.2.icount.overrun) = some 1 := by
  decide

/-! ## Characters ignored without CREAD -/

/-- C11 (the code at the failing input): stm32_set_termios has been called with
CREAD clear, so the dummy bit is in ignore_status_mask, and the ring holds a
clean byte 0x41 and a byte 0x42 with a parity error. The drain hands both to
uart_insert_char; the clean one keeps the dummy bit in its status and is
ignored, but the status of the one with the error has been masked with
read_status_mask, which lacks the dummy bit, so under the rule of
uart_insert_char the byte 0x42 is inserted into the consumer buffer. -/
theorem C11_cread_clear_error_char_inserted :
    CS8 &&& CREAD = 0
    ∧ rx_port_cread_clear.ignore_status_mask = USART_SR_DUMMY_RX
    ∧ rx_port_cread_clear.read_status_mask = USART_SR_ORE
    ∧ (stm32_rx_from_ring serial_core_plain 2 () rx_port_cread_clear).map
        (fun r => r.2.tty_log)
        = some [.uart_insert_char (0x20 ||| USART_SR_DUMMY_RX) USART_SR_ORE 0x41 TTY_NORMAL,
                .uart_insert_char 0 USART_SR_ORE 0x42 TTY_NORMAL,
                .tty_flip_buffer_push]
    ∧ (stm32_rx_from_ring serial_core_plain 2 () rx_port_cread_clear).map
        (fun r => inserted_chars r.2.ignore_status_mask r.2.tty_log) = some [0x42] := by
  decide

/-! ## The DMA receive pass -/

theorem ring_bytes_length (buf : Nat → stm32_uart_char) (start count : Nat) :
    (ring_bytes buf start count).length = count := by
  simp [ring_bytes]

/-- What a DMA receive pass hands to the tty layer and adds to `rx`, on a
non-error status with the residue within the mapped length and `tail` inside
the buffer. With the write position `pos = len - residue`: when `pos < tail`
the segment from `tail` to the buffer end, then (unless empty) the segment
from 0 to `pos`; otherwise (unless empty) the segment from `tail` to `pos`;
then one push. -/
theorem rx_from_dma_effect (dmastat : dma_status) (residue : Nat) (p : stm32_port)
    (hne : dmastat ≠ .DMA_ERROR)
    (hlen : p.dma_rx.sg.dma_length < 2 ^ 31)
    (hres : residue ≤ p.dma_rx.sg.dma_length)
    (htail : p.rx_ring.tail < p.dma_rx.sg.dma_length)
    (hrx : p.icount.rx < 2 ^ 32) :
    ∃ p1, stm32_rx_from_dma dmastat residue p = some p1
      ∧ (p.dma_rx.sg.dma_length - residue < p.rx_ring.tail →
          p1.tty_log = p.tty_log
            ++ [.tty_insert_flip_string (ring_bytes p.rx_ring.buf p.rx_ring.tail
                  (p.dma_rx.sg.dma_length - p.rx_ring.tail))]
            ++ (if 0 < p.dma_rx.sg.dma_length - residue
                then [.tty_insert_flip_string (ring_bytes p.rx_ring.buf 0
                  (p.dma_rx.sg.dma_length - residue))] else [])
            ++ [.tty_flip_buffer_push]
          ∧ p1.icount.rx = u32 (p.icount.rx
              + ((p.dma_rx.sg.dma_length - p.rx_ring.tail)
                  + (p.dma_rx.sg.dma_length - residue))))
      ∧ (p.rx_ring.tail ≤ p.dma_rx.sg.dma_length - residue →
          p1.tty_log = p.tty_log
            ++ (if p.rx_ring.tail < p.dma_rx.sg.dma_length - residue
                then [.tty_insert_flip_string (ring_bytes p.rx_ring.buf p.rx_ring.tail
                  (p.dma_rx.sg.dma_length - residue - p.rx_ring.tail))] else [])
            ++ [.tty_flip_buffer_push]
          ∧ p1.icount.rx = u32 (p.icount.rx
              + (p.dma_rx.sg.dma_length - residue - p.rx_ring.tail))) := by
  have h0 : u32 (p.dma_rx.sg.dma_length + 2 ^ 32 - u32 residue)
      = p.dma_rx.sg.dma_length - residue := by
    unfold u32; omega
  have hc : u32 (p.dma_rx.sg.dma_length + 2 ^ 32 - u32 p.rx_ring.tail)
      = p.dma_rx.sg.dma_length - p.rx_ring.tail := by
    unfold u32; omega
  have hnot : ¬ (p.dma_rx.sg.dma_length - residue > p.dma_rx.sg.dma_length) := by omega
  have e1 : s32 (p.dma_rx.sg.dma_length - residue) < s32 p.rx_ring.tail
      ↔ p.dma_rx.sg.dma_length - residue < p.rx_ring.tail :=
    s32_lt_iff _ _ (by omega) (by omega)
  have e2 : s32 p.rx_ring.tail < s32 (p.dma_rx.sg.dma_length - residue)
      ↔ p.rx_ring.tail < p.dma_rx.sg.dma_length - residue :=
    s32_lt_iff _ _ (by omega) (by omega)
  have e3 : s32 0 < s32 (p.dma_rx.sg.dma_length - residue)
      ↔ 0 < p.dma_rx.sg.dma_length - residue :=
    s32_lt_iff _ _ (by omega) (by omega)
  have hcw : u32 (u32 (p.dma_rx.sg.dma_length - residue) + 2 ^ 32 - u32 0)
      = p.dma_rx.sg.dma_length - residue := by
    unfold u32; omega
  have hcn : p.rx_ring.tail < p.dma_rx.sg.dma_length - residue →
      u32 (u32 (p.dma_rx.sg.dma_length - residue) + 2 ^ 32 - u32 p.rx_ring.tail)
        = p.dma_rx.sg.dma_length - residue - p.rx_ring.tail := by
    intro h
    unfold u32; omega
  unfold stm32_rx_from_dma
  simp only [hne, if_false, h0, hnot]
  by_cases hwrap : p.dma_rx.sg.dma_length - residue < p.rx_ring.tail
  · have hle : ¬ (p.rx_ring.tail ≤ p.dma_rx.sg.dma_length - residue) := by omega
    by_cases hz : 0 < p.dma_rx.sg.dma_length - residue
    · have hge : ¬ (p.dma_rx.sg.dma_length - residue ≥ p.dma_rx.sg.dma_length) := by omega
      refine ⟨_, rfl, fun _ => ⟨?_, ?_⟩, fun h => absurd h hle⟩
      · simp only [e1, e2, e3, hcw, hwrap, hz, hge, hc, if_true, if_false, tty_call, spin_lock, spin_unlock,
          Nat.sub_zero, List.append_assoc, List.singleton_append]
      · simp only [e1, e2, e3, hcw, hwrap, hz, hge, hc, if_true, if_false, tty_call, spin_lock, spin_unlock,
          Nat.sub_zero]
        unfold u32; omega
    · have hz2 : ¬ (0 < p.dma_rx.sg.dma_length - residue) := hz
      refine ⟨_, rfl, fun _ => ⟨?_, ?_⟩, fun h => absurd h hle⟩
      · simp only [e1, e2, e3, hcw, hwrap, hz2, hc, if_true, if_false, tty_call, spin_lock, spin_unlock,
          List.append_assoc, List.singleton_append, List.append_nil, List.nil_append]
      · simp only [e1, e2, e3, hcw, hwrap, hz2, hc, if_true, if_false, tty_call, spin_lock, spin_unlock]
        unfold u32; omega
  · by_cases hlt : p.rx_ring.tail < p.dma_rx.sg.dma_length - residue
    · by_cases hge : p.dma_rx.sg.dma_length - residue ≥ p.dma_rx.sg.dma_length
      · refine ⟨_, rfl, fun h => absurd h hwrap, fun _ => ⟨?_, ?_⟩⟩
        · simp only [e1, e2, e3, hcw, hcn hlt, hwrap, hlt, hge, if_true, if_false, tty_call, spin_lock, spin_unlock,
            List.append_assoc, List.singleton_append]
        · simp only [e1, e2, e3, hcw, hcn hlt, hwrap, hlt, hge, if_true, if_false, tty_call, spin_lock, spin_unlock]
      · refine ⟨_, rfl, fun h => absurd h hwrap, fun _ => ⟨?_, ?_⟩⟩
        · simp only [e1, e2, e3, hcw, hcn hlt, hwrap, hlt, hge, if_true, if_false, tty_call, spin_lock, spin_unlock,
            List.append_assoc, List.singleton_append]
        · simp only [e1, e2, e3, hcw, hcn hlt, hwrap, hlt, hge, if_true, if_false, tty_call, spin_lock, spin_unlock]
    · refine ⟨_, rfl, fun h => absurd h hwrap, fun _ => ⟨?_, ?_⟩⟩
      · simp only [e1, e2, e3, hcw, hwrap, hlt, if_true, if_false, tty_call, spin_lock, spin_unlock,
          List.append_assoc, List.singleton_append, List.append_nil, List.nil_append]
      · simp only [e1, e2, e3, hcw, hwrap, hlt, if_true, if_false, tty_call, spin_lock, spin_unlock]
        unfold u32; omega

/-- A DMA receive pass, whenever it returns, has left the DMA bookkeeping of
the receive direction as it was. -/
theorem rx_from_dma_frame (dmastat : dma_status) (residue : Nat) (p p1 : stm32_port)
    (hrun : stm32_rx_from_dma dmastat residue p = some p1) :
    p1.dma_rx = p.dma_rx := by
  unfold stm32_rx_from_dma at hrun
  by_cases he : dmastat = .DMA_ERROR
  · rw [if_pos he] at hrun
    cases hrun
    rfl
  · rw [if_neg he] at hrun
    dsimp only at hrun
    split at hrun
    · exact absurd hrun (by simp)
    · cases hrun
      simp only [spin_lock, spin_unlock, tty_call, apply_ite stm32_port.dma_rx, ite_self]

/-- The indices are compared as ints: with a (hypothetical) buffer of
0x90000000 bytes, tail at 0x7FFFFFFC and a residue of 0x0FFFFFFC, the write
position 0x80000004 is negative as an int, so the pass takes the wrap-around
branch, delivers the 0x10000004 bytes up to the buffer end and leaves
tail = 0 with head at the write position. -/
theorem rx_from_dma_past_int_max :
    (stm32_rx_from_dma .DMA_IN_PROGRESS 0x0FFFFFFC
        { dma_rx := { sg := { dma_length := 0x90000000 }, use := true, chan := some 1 }
          rx_ring := { buf := fun _ => {}, head := 0x7FFFFFFC, tail := 0x7FFFFFFC } }).map
      (fun q => (q.rx_ring.head, q.rx_ring.tail, q.icount.rx))
      = some (0x80000004, 0, 0x10000004) := by
  decide

/-- C12: DMA receive wraparound drain. For a pass of stm32_rx_from_dma on a
non-error status with DMA buffer length L (below 2^31, as head and tail are C
ints; the driver maps 8192 bytes), tail < L and write position
pos = L - residue (residue within L): the pass returns, and when pos < tail it
has delivered first the end-of-buffer segment buf[tail .. L) and then (unless
pos = 0, when that segment is empty) the from-zero segment buf[0 .. pos), in
that order, followed by one push; the rx counter (a u32) has advanced by
(L - tail) + pos and tail equals pos. When pos >= tail exactly the pos - tail
bytes buf[tail .. pos) have been delivered (nothing when pos = tail) and
counted. -/
theorem C12_rx_dma_wraparound_drain (dmastat : dma_status) (residue : Nat)
    (p : stm32_port)
    (hne : dmastat ≠ .DMA_ERROR)
    (hlen : p.dma_rx.sg.dma_length < 2 ^ 31)
    (hres : residue ≤ p.dma_rx.sg.dma_length)
    (htail : p.rx_ring.tail < p.dma_rx.sg.dma_length)
    (hrx : p.icount.rx < 2 ^ 32) :
    ∃ p1, stm32_rx_from_dma dmastat residue p = some p1
      ∧ (p.dma_rx.sg.dma_length - residue < p.rx_ring.tail →
          p1.tty_log = p.tty_log
            ++ [.tty_insert_flip_string (ring_bytes p.rx_ring.buf p.rx_ring.tail
                  (p.dma_rx.sg.dma_length - p.rx_ring.tail))]
            ++ (if 0 < p.dma_rx.sg.dma_length - residue
                then [.tty_insert_flip_string (ring_bytes p.rx_ring.buf 0
                  (p.dma_rx.sg.dma_length - residue))] else [])
            ++ [.tty_flip_buffer_push]
          ∧ p1.icount.rx = u32 (p.icount.rx
              + ((p.dma_rx.sg.dma_length - p.rx_ring.tail)
                  + (p.dma_rx.sg.dma_length - residue)))
          ∧ p1.rx_ring.tail = p.dma_rx.sg.dma_length - residue)
      ∧ (p.rx_ring.tail ≤ p.dma_rx.sg.dma_length - residue →
          p1.tty_log = p.tty_log
            ++ (if p.rx_ring.tail < p.dma_rx.sg.dma_length - residue
                then [.tty_insert_flip_string (ring_bytes p.rx_ring.buf p.rx_ring.tail
                  (p.dma_rx.sg.dma_length - residue - p.rx_ring.tail))] else [])
            ++ [.tty_flip_buffer_push]
          ∧ p1.icount.rx = u32 (p.icount.rx
              + (p.dma_rx.sg.dma_length - residue - p.rx_ring.tail))) := by
  obtain ⟨p1, h1, hw, hn⟩ := rx_from_dma_effect dmastat residue p hne hlen hres htail hrx
  obtain ⟨p2, h2, -, ht2, -⟩ := rx_from_dma_ring dmastat residue p hne hlen hres htail
  have hp : p2 = p1 := Option.some.inj (h2.symm.trans h1)
  subst hp
  refine ⟨p2, h1, fun h => ⟨(hw h).1, (hw h).2, ?_⟩, hn⟩
  rw [ht2]
  exact Nat.mod_eq_of_lt (by omega)

/-- Witness for C12: an 8192-byte buffer with tail at 100 and a residue of
8142, so that the write position 50 lies behind tail. -/
theorem C12_rx_dma_wraparound_drain_witness :
    dma_status.DMA_IN_PROGRESS ≠ dma_status.DMA_ERROR
    ∧ dma_rx_port_example.dma_rx.sg.dma_length < 2 ^ 31
    ∧ 8142 ≤ dma_rx_port_example.dma_rx.sg.dma_length
    ∧ dma_rx_port_example.rx_ring.tail < dma_rx_port_example.dma_rx.sg.dma_length
    ∧ dma_rx_port_example.icount.rx < 2 ^ 32
    ∧ ∃ p1, stm32_rx_from_dma .DMA_IN_PROGRESS 8142 dma_rx_port_example = some p1
        ∧ p1.tty_log =
            [.tty_insert_flip_string (ring_bytes dma_rx_port_example.rx_ring.buf 100 8092),
             .tty_insert_flip_string (ring_bytes dma_rx_port_example.rx_ring.buf 0 50),
             .tty_flip_buffer_push]
        ∧ p1.icount.rx = 8142
        ∧ p1.rx_ring.tail = 50 :=
  ⟨by decide, by decide, by decide, by decide, by decide,
    let ⟨p1, h1, hw, _⟩ := C12_rx_dma_wraparound_drain .DMA_IN_PROGRESS 8142
      dma_rx_port_example (by decide) (by decide) (by decide) (by decide) (by decide)
    ⟨p1, h1, hw (by decide)⟩⟩

/-- C13 (the code at the failing input): two passes of stm32_rx_from_dma in a
row on an 8192-byte buffer with tail at 100, the engine reporting the status
DMA_IN_PROGRESS and the residue 0 both times. The first pass delivers the
8092 bytes buf[100 .. 8192) and wraps head and tail to 0. The second pass
computes head = 8192 again, finds tail = 0 behind it, and delivers the whole
buffer buf[0 .. 8192) once more, adding 8192 to the rx counter. -/
theorem C13_rx_dma_repeat_at_residue_zero :
    ∃ p1 p2, stm32_rx_from_dma .DMA_IN_PROGRESS 0 dma_rx_port_example = some p1
      ∧ stm32_rx_from_dma .DMA_IN_PROGRESS 0 p1 = some p2
      ∧ p1.rx_ring.tail = 0
      ∧ p1.icount.rx = 8092
      ∧ p1.tty_log =
          [.tty_insert_flip_string (ring_bytes dma_rx_port_example.rx_ring.buf 100 8092),
           .tty_flip_buffer_push]
      ∧ p2.tty_log = p1.tty_log
          ++ [.tty_insert_flip_string (ring_bytes dma_rx_port_example.rx_ring.buf 0 8192),
              .tty_flip_buffer_push]
      ∧ flip_string_lengths (p2.tty_log.drop p1.tty_log.length) = [8192]
      ∧ p2.icount.rx = 8092 + 8192 := by
  have hL : dma_rx_port_example.dma_rx.sg.dma_length = 8192 := rfl
  have hT : dma_rx_port_example.rx_ring.tail = 100 := rfl
  obtain ⟨p1, h1, -, hn1⟩ := rx_from_dma_effect .DMA_IN_PROGRESS 0 dma_rx_port_example
    (by decide) (by decide) (by decide) (by decide) (by decide)
  obtain ⟨q1, g1, -, ht1, hb1⟩ := rx_from_dma_ring .DMA_IN_PROGRESS 0 dma_rx_port_example
    (by decide) (by decide) (by decide) (by decide)
  have hq : q1 = p1 := Option.some.inj (g1.symm.trans h1)
  subst hq
  have hf := rx_from_dma_frame _ _ _ _ h1
  obtain ⟨hlog1, hrx1⟩ := hn1 (by decide)
  rw [hL, hT] at hlog1 hrx1
  have htail1 : q1.rx_ring.tail = 0 := by rw [ht1, hL]
  have hrx1b : q1.icount.rx = 8092 := by rw [hrx1]; rfl
  have hL1 : q1.dma_rx.sg.dma_length = 8192 := by rw [hf, hL]
  obtain ⟨p2, h2, -, hn2⟩ := rx_from_dma_effect .DMA_IN_PROGRESS 0 q1
    (by decide) (by rw [hL1]; decide) (by rw [hL1]; decide) (by rw [htail1, hL1]; decide)
    (by rw [hrx1b]; decide)
  obtain ⟨hlog2, hrx2⟩ := hn2 (by rw [htail1, hL1]; decide)
  rw [hL1, htail1, hb1] at hlog2
  rw [hL1, htail1, hrx1b] at hrx2
  have hlog1b : q1.tty_log =
      [.tty_insert_flip_string (ring_bytes dma_rx_port_example.rx_ring.buf 100 8092),
       .tty_flip_buffer_push] := by
    rw [hlog1]; rfl
  have hlog2b : p2.tty_log = q1.tty_log
      ++ [.tty_insert_flip_string (ring_bytes dma_rx_port_example.rx_ring.buf 0 8192),
          .tty_flip_buffer_push] := by
    rw [hlog2]
    simp
  refine ⟨q1, p2, h1, h2, htail1, hrx1b, hlog1b, hlog2b, ?_, ?_⟩
  · rw [hlog2b, List.drop_left]
    simp [flip_string_lengths, ring_bytes_length]
  · rw [hrx2]; rfl

/-- C14: a DMA runtime error is non-fatal and atomic. When the status query in
stm32_rx_from_dma returns DMA_ERROR, the pass returns having delivered nothing
to the tty layer; ring head, ring tail, the store and all counters are
unchanged, the port lock is as it was (held by the caller, never released),
and the deferred worker has been requested again. -/
theorem C14_rx_dma_error_reschedules (residue : Nat) (p : stm32_port) :
    stm32_rx_from_dma .DMA_ERROR residue p = some (tasklet_schedule p)
    ∧ (tasklet_schedule p).tasklet_scheduled = true
    ∧ (tasklet_schedule p).tty_log = p.tty_log
    ∧ (tasklet_schedule p).rx_ring.head = p.rx_ring.head
    ∧ (tasklet_schedule p).rx_ring.tail = p.rx_ring.tail
    ∧ (tasklet_schedule p).rx_ring.buf = p.rx_ring.buf
    ∧ (tasklet_schedule p).icount = p.icount
    ∧ (tasklet_schedule p).lock_held = p.lock_held
    ∧ (tasklet_schedule p).lock_releases = p.lock_releases :=
  ⟨rfl, rfl, rfl, rfl, rfl, rfl, rfl, rfl, rfl⟩

/-- On a non-zero residue a second DMA receive pass with the same answer of
the engine delivers nothing: it only pushes, and leaves `rx` and `tail` as the
first pass left them. -/
theorem rx_from_dma_repeat_idle (dmastat : dma_status) (residue : Nat) (p : stm32_port)
    (hne : dmastat ≠ .DMA_ERROR)
    (hlen : p.dma_rx.sg.dma_length < 2 ^ 31)
    (hres : residue ≤ p.dma_rx.sg.dma_length) (hres0 : 0 < residue)
    (htail : p.rx_ring.tail < p.dma_rx.sg.dma_length)
    (hrx : p.icount.rx < 2 ^ 32) :
    ∃ p1 p2, stm32_rx_from_dma dmastat residue p = some p1
      ∧ stm32_rx_from_dma dmastat residue p1 = some p2
      ∧ p2.tty_log = p1.tty_log ++ [.tty_flip_buffer_push]
      ∧ p2.icount.rx = p1.icount.rx
      ∧ p2.rx_ring.tail = p1.rx_ring.tail := by
  obtain ⟨p1, h1, -, ht1, -⟩ := rx_from_dma_ring dmastat residue p hne hlen hres htail
  have hf := rx_from_dma_frame _ _ _ _ h1
  have hpos : (p.dma_rx.sg.dma_length - residue) % p.dma_rx.sg.dma_length
      = p.dma_rx.sg.dma_length - residue := Nat.mod_eq_of_lt (by omega)
  rw [hpos] at ht1
  have hL1 : p1.dma_rx.sg.dma_length = p.dma_rx.sg.dma_length := by rw [hf]
  obtain ⟨q1, g1, hw1, hn1⟩ := rx_from_dma_effect dmastat residue p hne hlen hres htail hrx
  have hq : q1 = p1 := Option.some.inj (g1.symm.trans h1)
  subst hq
  have hrx1 : q1.icount.rx < 2 ^ 32 := by
    by_cases hc : p.dma_rx.sg.dma_length - residue < p.rx_ring.tail
    · rw [(hw1 hc).2]; exact Nat.mod_lt _ (by decide)
    · rw [(hn1 (by omega)).2]; exact Nat.mod_lt _ (by decide)
  obtain ⟨p2, h2, -, hn2⟩ := rx_from_dma_effect dmastat residue q1 hne
    (by rw [hL1]; exact hlen) (by rw [hL1]; exact hres) (by rw [hL1, ht1]; omega) hrx1
  obtain ⟨r2, g2, -, ht2, -⟩ := rx_from_dma_ring dmastat residue q1 hne
    (by rw [hL1]; exact hlen) (by rw [hL1]; exact hres) (by rw [hL1, ht1]; omega)
  have hr : r2 = p2 := Option.some.inj (g2.symm.trans h2)
  subst hr
  obtain ⟨hlog2, hrx2⟩ := hn2 (by rw [hL1, ht1])
  rw [hL1, ht1, if_neg (Nat.lt_irrefl _), List.append_nil] at hlog2
  rw [hL1, ht1, Nat.sub_self, Nat.add_zero] at hrx2
  refine ⟨q1, r2, h1, h2, hlog2, ?_, ?_⟩
  · rw [hrx2]; exact Nat.mod_eq_of_lt hrx1
  · rw [ht2, hL1, hpos, ht1]

/-! ## DMA transmit -/

theorem circ_cnt_to_end_xmit (head tail : Nat) (hh : head < 4096) (ht : tail < 4096) :
    CIRC_CNT_TO_END head tail UART_XMIT_SIZE
      = min ((head + 4096 - tail) % 4096) (4096 - tail) := by
  unfold CIRC_CNT_TO_END UART_XMIT_SIZE
  dsimp only
  split <;> omega

/-- Arming a transmit descriptor: the effect of `stm32_tx_with_dma` on an idle
channel with a non-empty queue that is not stopped. -/
theorem tx_with_dma_arm (prep : Option Nat) (p : stm32_port)
    (hidle : p.dma_tx.dsc = none) (hne : p.xmit.head ≠ p.xmit.tail)
    (hst : p.tx_stopped = false)
    (hh : p.xmit.head < 4096) (ht : p.xmit.tail < 4096) :
    ∃ p1, stm32_tx_with_dma prep p = some p1
      ∧ p1.dma_tx.sg.offset = p.xmit.tail
      ∧ p1.dma_tx.sg.dma_length
          = min ((p.xmit.head + 4096 - p.xmit.tail) % 4096) (4096 - p.xmit.tail)
      ∧ p1.dma_tx.sg.dma_address
          = u32 ((p.dma_tx.sg.dma_address &&& not32 (UART_XMIT_SIZE - 1)) + p.xmit.tail)
      ∧ p1.dma_tx.dsc = prep
      ∧ p1.dma_tx.chan = p.dma_tx.chan
      ∧ p1.xmit = p.xmit
      ∧ p1.icount = p.icount
      ∧ p1.tasklet_scheduled = p.tasklet_scheduled
      ∧ p1.dma_log = p.dma_log
          ++ [.dmaengine_prep_slave_sg p.dma_tx.chan p.xmit.tail
                (u32 ((p.dma_tx.sg.dma_address &&& not32 (UART_XMIT_SIZE - 1)) + p.xmit.tail))
                (min ((p.xmit.head + 4096 - p.xmit.tail) % 4096) (4096 - p.xmit.tail)) prep]
          ++ (match prep with
              | some dsc => [.dmaengine_submit dsc]
              | none => []) := by
  have hlen := circ_cnt_to_end_xmit _ _ hh ht
  have hoff : p.xmit.tail &&& (UART_XMIT_SIZE - 1) = p.xmit.tail := by
    rw [xmit_mask]; exact Nat.mod_eq_of_lt ht
  have hpos : ¬ min ((p.xmit.head + 4096 - p.xmit.tail) % 4096) (4096 - p.xmit.tail) = 0 := by
    omega
  unfold stm32_tx_with_dma
  simp only [hidle, ne_eq, not_true_eq_false, if_false, uart_circ_empty, hne, hst,
    decide_False, Bool.false_eq_true, not_false_eq_true, and_self, if_true, hoff, hlen, hpos,
    dma_call]
  cases prep with
  | none =>
    exact ⟨_, rfl, rfl, rfl, rfl, hidle.symm ▸ rfl, rfl, rfl, rfl, rfl, by simp⟩
  | some dsc =>
    dsimp only
    split
    · exact ⟨_, rfl, rfl, rfl, rfl, rfl, rfl, rfl, rfl, rfl, by simp [uart_write_wakeup]⟩
    · exact ⟨_, rfl, rfl, rfl, rfl, rfl, rfl, rfl, rfl, rfl, by simp⟩

/-- The effect of the transmit completion callback on a port with a pending
descriptor. -/
theorem complete_tx_dma_effect (q : stm32_port) (dsc : Nat)
    (hdsc : q.dma_tx.dsc = some dsc) :
    ∃ q1, stm32_complete_tx_dma q = some q1
      ∧ q1.xmit.tail = (q.xmit.tail + q.dma_tx.sg.dma_length) % 4096
      ∧ q1.xmit.head = q.xmit.head
      ∧ q1.xmit.buf = q.xmit.buf
      ∧ q1.icount.tx = u32 (q.icount.tx + q.dma_tx.sg.dma_length)
      ∧ q1.dma_tx.dsc = none
      ∧ q1.dma_tx.cookie = -EINVAL
      ∧ q1.tasklet_scheduled
          = (q.tasklet_scheduled
              || decide (q.xmit.head ≠ (q.xmit.tail + q.dma_tx.sg.dma_length) % 4096))
      ∧ q1.write_wakeups
          = (if CIRC_CNT q.xmit.head ((q.xmit.tail + q.dma_tx.sg.dma_length) % 4096)
                UART_XMIT_SIZE < WAKEUP_CHARS
             then q.write_wakeups + 1 else q.write_wakeups) := by
  have htail : u32 (q.xmit.tail + q.dma_tx.sg.dma_length) &&& (UART_XMIT_SIZE - 1)
      = (q.xmit.tail + q.dma_tx.sg.dma_length) % 4096 := by
    rw [xmit_mask]; unfold u32; omega
  unfold stm32_complete_tx_dma
  by_cases hw : CIRC_CNT q.xmit.head ((q.xmit.tail + q.dma_tx.sg.dma_length) % 4096)
      UART_XMIT_SIZE < WAKEUP_CHARS
  · by_cases he : q.xmit.head = (q.xmit.tail + q.dma_tx.sg.dma_length) % 4096
    · have hE : decide (q.xmit.head = (q.xmit.tail + q.dma_tx.sg.dma_length) % 4096) = true :=
        decide_eq_true he
      cases hc : q.dma_tx.chan <;>
        simp only [spin_lock, hc, hdsc, htail, uart_circ_chars_pending, uart_circ_empty,
          uart_write_wakeup, tasklet_schedule, spin_unlock, dma_call, hw, hE, if_true, if_false,
          decide_not, not_true_eq_false, Bool.not_true, Bool.or_false] <;>
        exact ⟨_, rfl, rfl, rfl, rfl, rfl, rfl, rfl, rfl, rfl⟩
    · have hE : decide (q.xmit.head = (q.xmit.tail + q.dma_tx.sg.dma_length) % 4096) = false :=
        decide_eq_false he
      cases hc : q.dma_tx.chan <;>
        simp only [spin_lock, hc, hdsc, htail, uart_circ_chars_pending, uart_circ_empty,
          uart_write_wakeup, tasklet_schedule, spin_unlock, dma_call, hw, hE, if_true, if_false,
          decide_not, Bool.false_eq_true, not_false_eq_true, Bool.not_false, Bool.or_true] <;>
        exact ⟨_, rfl, rfl, rfl, rfl, rfl, rfl, rfl, rfl, rfl⟩
  · by_cases he : q.xmit.head = (q.xmit.tail + q.dma_tx.sg.dma_length) % 4096
    · have hE : decide (q.xmit.head = (q.xmit.tail + q.dma_tx.sg.dma_length) % 4096) = true :=
        decide_eq_true he
      cases hc : q.dma_tx.chan <;>
        simp only [spin_lock, hc, hdsc, htail, uart_circ_chars_pending, uart_circ_empty,
          uart_write_wakeup, tasklet_schedule, spin_unlock, dma_call, hw, hE, if_true, if_false,
          decide_not, not_true_eq_false, Bool.not_true, Bool.or_false] <;>
        exact ⟨_, rfl, rfl, rfl, rfl, rfl, rfl, rfl, rfl, rfl⟩
    · have hE : decide (q.xmit.head = (q.xmit.tail + q.dma_tx.sg.dma_length) % 4096) = false :=
        decide_eq_false he
      cases hc : q.dma_tx.chan <;>
        simp only [spin_lock, hc, hdsc, htail, uart_circ_chars_pending, uart_circ_empty,
          uart_write_wakeup, tasklet_schedule, spin_unlock, dma_call, hw, hE, if_true, if_false,
          decide_not, Bool.false_eq_true, not_false_eq_true, Bool.not_false, Bool.or_true] <;>
        exact ⟨_, rfl, rfl, rfl, rfl, rfl, rfl, rfl, rfl, rfl⟩

/-- C15: a DMA transmit run never wraps. When stm32_tx_with_dma finds no
descriptor pending, the queue non-empty, transmission not stopped and head and
tail inside the buffer, it does not hit the BUG_ON: the transfer it prepares
starts at offset tail and its length is min((head - tail) mod UART_XMIT_SIZE,
UART_XMIT_SIZE - tail), the contiguous run from tail to the lesser of head or
buffer end; the length is at least 1 and offset + length <= UART_XMIT_SIZE.
The descriptor the engine returns for it is the one armed. -/
theorem C15_tx_dma_run_never_wraps (prep : Option Nat) (p : stm32_port)
    (hidle : p.dma_tx.dsc = none) (hne : uart_circ_empty p.xmit = false)
    (hst : p.tx_stopped = false)
    (hh : p.xmit.head < UART_XMIT_SIZE) (ht : p.xmit.tail < UART_XMIT_SIZE) :
    ∃ p1, stm32_tx_with_dma prep p = some p1
      ∧ p1.dma_tx.sg.offset = p.xmit.tail
      ∧ p1.dma_tx.sg.dma_length
          = min (CIRC_CNT p.xmit.head p.xmit.tail UART_XMIT_SIZE)
              (UART_XMIT_SIZE - p.xmit.tail)
      ∧ 1 ≤ p1.dma_tx.sg.dma_length
      ∧ p1.dma_tx.sg.offset + p1.dma_tx.sg.dma_length ≤ UART_XMIT_SIZE
      ∧ p1.dma_tx.dsc = prep
      ∧ (∃ addr, .dmaengine_prep_slave_sg p.dma_tx.chan p1.dma_tx.sg.offset addr
            p1.dma_tx.sg.dma_length prep ∈ p1.dma_log) := by
  have hh2 : p.xmit.head < 4096 := hh
  have ht2 : p.xmit.tail < 4096 := ht
  have hne2 : p.xmit.head ≠ p.xmit.tail := by
    simpa [uart_circ_empty] using hne
  obtain ⟨p1, h1, hoff, hlen, -, hdsc, -, -, -, -, hlog⟩ :=
    tx_with_dma_arm prep p hidle hne2 hst hh2 ht2
  have hcnt := circ_cnt_xmit _ _ hh2 ht2
  refine ⟨p1, h1, hoff, ?_, ?_, ?_, hdsc, ?_⟩
  · rw [hlen, hcnt]; rfl
  · rw [hlen]; clear hcnt; omega
  · rw [hoff, hlen]; show _ ≤ 4096; clear hcnt; omega
  · refine ⟨u32 ((p.dma_tx.sg.dma_address &&& not32 (UART_XMIT_SIZE - 1)) + p.xmit.tail), ?_⟩
    rw [hlog, hoff, hlen]
    simp

/-- Witness for C15: a queue of 5 bytes that wraps around the buffer end
(tail 4094, head 3); the run armed is the 2 bytes up to the buffer end. -/
theorem C15_tx_dma_run_never_wraps_witness :
    tx_dma_port_example.dma_tx.dsc = none
    ∧ uart_circ_empty tx_dma_port_example.xmit = false
    ∧ tx_dma_port_example.tx_stopped = false
    ∧ tx_dma_port_example.xmit.head < UART_XMIT_SIZE
    ∧ tx_dma_port_example.xmit.tail < UART_XMIT_SIZE
    ∧ ∃ p1, stm32_tx_with_dma (some 7) tx_dma_port_example = some p1
        ∧ p1.dma_tx.sg.offset = 4094
        ∧ p1.dma_tx.sg.dma_length = 2 :=
  ⟨rfl, rfl, rfl, by decide, by decide,
    let ⟨p1, h1, h2, h3, _⟩ := C15_tx_dma_run_never_wraps (some 7) tx_dma_port_example rfl rfl
      rfl (by decide) (by decide)
    ⟨p1, h1, h2, h3⟩⟩

/-- C16: at most one transmit descriptor in flight. If a transmit descriptor
is pending (dma_tx.dsc non-NULL), stm32_tx_with_dma returns with the port
exactly as it was: no descriptor prepared or submitted, the pending
descriptor, the scatterlist and the transmit queue unchanged, no wake-up.
Consequently a call of stm32_tx_with_dma that changes dma_tx.dsc started with
none pending, and a pending descriptor goes away only through
stm32_complete_tx_dma or stm32_release_tx_dma, which leave dsc NULL. -/
theorem C16_tx_dma_single_descriptor (prep : Option Nat) (p : stm32_port)
    (hp : p.dma_tx.dsc ≠ none) :
    stm32_tx_with_dma prep p = some p
    ∧ (∀ pr q q1, stm32_tx_with_dma pr q = some q1 → q1.dma_tx.dsc ≠ q.dma_tx.dsc →
        q.dma_tx.dsc = none)
    ∧ (∀ q q1, stm32_complete_tx_dma q = some q1 → q1.dma_tx.dsc = none)
    ∧ (∀ q, (stm32_release_tx_dma q).dma_tx.dsc = none) := by
  have hbusy : ∀ pr (q : stm32_port), q.dma_tx.dsc ≠ none →
      stm32_tx_with_dma pr q = some q := by
    intro pr q hq
    unfold stm32_tx_with_dma
    rw [if_pos hq]
  refine ⟨hbusy prep p hp, ?_, ?_, ?_⟩
  · intro pr q q1 hrun hchg
    by_contra hq
    rw [hbusy pr q hq] at hrun
    cases hrun
    exact hchg rfl
  · intro q q1 hrun
    cases hd : q.dma_tx.dsc with
    | none =>
      cases hc : q.dma_tx.chan <;>
        simp [stm32_complete_tx_dma, spin_lock, hc, hd, dma_call] at hrun
    | some d =>
      obtain ⟨q2, h2, -, -, -, -, hnone, -⟩ := complete_tx_dma_effect q d hd
      rw [h2] at hrun
      cases hrun
      exact hnone
  · intro q
    unfold stm32_release_tx_dma
    rfl

/-- Witness for C16: a port with the descriptor 7 pending. -/
theorem C16_tx_dma_single_descriptor_witness :
    tx_dma_port_busy.dma_tx.dsc ≠ none
    ∧ stm32_tx_with_dma (some 9) tx_dma_port_busy = some tx_dma_port_busy :=
  ⟨by decide, (C16_tx_dma_single_descriptor (some 9) tx_dma_port_busy (by decide)).1⟩

theorem tx_pending_after_completion (h t a : Nat) (hh : h < 4096) (ht : t < 4096)
    (ha : (h + 4096 - t) % 4096 + a < 4096) :
    ((h + a) % 4096 + 4096 - (t + min ((h + 4096 - t) % 4096) (4096 - t)) % 4096) % 4096
      = (h + 4096 - t) % 4096 + a - min ((h + 4096 - t) % 4096) (4096 - t) := by
  omega

/-- C17: DMA transmit completion accounting. stm32_tx_with_dma arms a
descriptor of length len on an idle channel (queue non-empty, not stopped,
indices in the buffer); before the transfer completes the line discipline may
queue a further a bytes (head moves forward only, a = 0 when head is not
moved). Then stm32_complete_tx_dma returns with tail = (tail + len) mod
UART_XMIT_SIZE, the tx counter (a u32) advanced by len, the descriptor retired
(dsc = NULL, cookie = -EINVAL), and the deferred worker requested iff the
queue is still non-empty. The pending count afterwards is the pending count
at arming, plus the a bytes queued since, minus len; len is at most the
pending count at arming, so tail never passes head. -/
theorem C17_tx_dma_completion_accounting (dsc a : Nat) (p : stm32_port)
    (hidle : p.dma_tx.dsc = none) (hne : uart_circ_empty p.xmit = false)
    (hst : p.tx_stopped = false) (hsched : p.tasklet_scheduled = false)
    (hh : p.xmit.head < UART_XMIT_SIZE) (ht : p.xmit.tail < UART_XMIT_SIZE)
    (ha : uart_circ_chars_pending p.xmit + a < UART_XMIT_SIZE) :
    ∃ p1 p2, stm32_tx_with_dma (some dsc) p = some p1
      ∧ stm32_complete_tx_dma (xmit_produce a p1) = some p2
      ∧ p2.xmit.tail = (p.xmit.tail + p1.dma_tx.sg.dma_length) % UART_XMIT_SIZE
      ∧ p2.icount.tx = u32 (p.icount.tx + p1.dma_tx.sg.dma_length)
      ∧ p2.dma_tx.dsc = none
      ∧ p2.dma_tx.cookie = -EINVAL
      ∧ (p2.tasklet_scheduled = true ↔ uart_circ_empty p2.xmit = false)
      ∧ p1.dma_tx.sg.dma_length ≤ uart_circ_chars_pending p.xmit
      ∧ uart_circ_chars_pending p2.xmit
          = uart_circ_chars_pending p.xmit + a - p1.dma_tx.sg.dma_length := by
  have hh2 : p.xmit.head < 4096 := hh
  have ht2 : p.xmit.tail < 4096 := ht
  have hne2 : p.xmit.head ≠ p.xmit.tail := by
    simpa [uart_circ_empty] using hne
  have hcnt : uart_circ_chars_pending p.xmit = (p.xmit.head + 4096 - p.xmit.tail) % 4096 :=
    circ_cnt_xmit _ _ hh2 ht2
  have ha2 : (p.xmit.head + 4096 - p.xmit.tail) % 4096 + a < 4096 := by
    rw [← hcnt]; exact ha
  obtain ⟨p1, h1, -, hlen, -, hdsc, -, hx, hic, hts, -⟩ :=
    tx_with_dma_arm (some dsc) p hidle hne2 hst hh2 ht2
  obtain ⟨p2, h2, c1, c2, -, c4, c5, c6, c7, -⟩ :=
    complete_tx_dma_effect (xmit_produce a p1) dsc hdsc
  have e1 : (xmit_produce a p1).xmit.tail = p.xmit.tail := by
    show p1.xmit.tail = _
    rw [hx]
  have e2 : (xmit_produce a p1).xmit.head = (p.xmit.head + a) % 4096 := by
    show (p1.xmit.head + a) % UART_XMIT_SIZE = _
    rw [hx]; rfl
  have e3 : (xmit_produce a p1).dma_tx.sg.dma_length = p1.dma_tx.sg.dma_length := rfl
  have e4 : (xmit_produce a p1).icount = p1.icount := rfl
  have e5 : (xmit_produce a p1).tasklet_scheduled = p1.tasklet_scheduled := rfl
  rw [e1, e3] at c1
  rw [e2] at c2
  rw [e4, e3, hic] at c4
  rw [e5, hts, hsched, e1, e2, e3, Bool.false_or] at c7
  have hp2 : uart_circ_chars_pending p2.xmit
      = (p2.xmit.head + 4096 - p2.xmit.tail) % 4096 :=
    circ_cnt_xmit _ _ (by rw [c2]; exact Nat.mod_lt _ (by decide))
      (by rw [c1]; exact Nat.mod_lt _ (by decide))
  refine ⟨p1, p2, h1, h2, c1, c4, c5, c6, ?_, ?_, ?_⟩
  · rw [c7]
    simp only [uart_circ_empty, c1, c2, decide_eq_true_eq, decide_eq_false_iff_not]
  · rw [hcnt, hlen]
    exact Nat.min_le_left _ _
  · rw [hp2, hcnt, c1, c2, hlen]
    exact tx_pending_after_completion _ _ _ hh2 ht2 ha2

/-- Witness for C17: the wrapping 5-byte queue; the first run of 2 bytes is
armed and completed with head not moved, leaving 3 bytes pending. -/
theorem C17_tx_dma_completion_accounting_witness :
    tx_dma_port_example.dma_tx.dsc = none
    ∧ uart_circ_empty tx_dma_port_example.xmit = false
    ∧ tx_dma_port_example.tx_stopped = false
    ∧ tx_dma_port_example.tasklet_scheduled = false
    ∧ tx_dma_port_example.xmit.head < UART_XMIT_SIZE
    ∧ tx_dma_port_example.xmit.tail < UART_XMIT_SIZE
    ∧ uart_circ_chars_pending tx_dma_port_example.xmit + 0 < UART_XMIT_SIZE
    ∧ ∃ p1 p2, stm32_tx_with_dma (some 7) tx_dma_port_example = some p1
        ∧ stm32_complete_tx_dma (xmit_produce 0 p1) = some p2
        ∧ p2.dma_tx.dsc = none :=
  by
  have hp : uart_circ_chars_pending tx_dma_port_example.xmit + 0 < UART_XMIT_SIZE := by
    decide
  obtain ⟨p1, p2, h1, h2, -, -, h5, -⟩ := C17_tx_dma_completion_accounting 7 0
    tx_dma_port_example rfl rfl rfl rfl (by decide) (by decide) hp
  exact ⟨rfl, rfl, rfl, rfl, by decide, by decide, hp, p1, p2, h1, h2, h5⟩

/-! ## Mode selection, release and start-up -/

/-- What `stm32_set_ops` installs, written out: each of the six pointers as a
function of the flag of its own direction. -/
theorem set_ops_eq (p : stm32_port) :
    stm32_set_ops p
      = { p with
          prepare_rx := if p.dma_rx.use then some .stm32_prepare_rx_dma else none
          schedule_rx :=
            some (if p.dma_rx.use then .stm32_rx_from_dma else .stm32_rx_from_ring)
          release_rx := if p.dma_rx.use then some .stm32_release_rx_dma else none
          prepare_tx := if p.dma_tx.use then some .stm32_prepare_tx_dma else none
          schedule_tx :=
            some (if p.dma_tx.use then .stm32_tx_with_dma else .stm32_transmit_chars)
          release_tx := if p.dma_tx.use then some .stm32_release_tx_dma else none } := by
  unfold stm32_set_ops stm32_use_dma_rx stm32_use_dma_tx
  cases hr : p.dma_rx.use <;> cases ht : p.dma_tx.use <;> simp [hr, ht]

/-- C18: mode selection is per direction and total. After stm32_set_ops the
triple (prepare_rx, schedule_rx, release_rx) is (stm32_prepare_rx_dma,
stm32_rx_from_dma, stm32_release_rx_dma) if dma_rx.use is true and (NULL,
stm32_rx_from_ring, NULL) otherwise; the tx triple is (stm32_prepare_tx_dma,
stm32_tx_with_dma, stm32_release_tx_dma) if dma_tx.use is true and (NULL,
stm32_transmit_chars, NULL) otherwise. The rx triple does not depend on
dma_tx.use nor the tx triple on dma_rx.use, schedule_rx and schedule_tx are
never NULL, and the flags themselves are not changed. -/
theorem C18_set_ops_per_direction (p : stm32_port) :
    ((stm32_set_ops p).prepare_rx, (stm32_set_ops p).schedule_rx, (stm32_set_ops p).release_rx)
        = (if p.dma_rx.use
           then (some .stm32_prepare_rx_dma, some .stm32_rx_from_dma,
                 some .stm32_release_rx_dma)
           else (none, some .stm32_rx_from_ring, none))
    ∧ ((stm32_set_ops p).prepare_tx, (stm32_set_ops p).schedule_tx,
        (stm32_set_ops p).release_tx)
        = (if p.dma_tx.use
           then (some .stm32_prepare_tx_dma, some .stm32_tx_with_dma,
                 some .stm32_release_tx_dma)
           else (none, some .stm32_transmit_chars, none))
    ∧ (∀ b : Bool,
        ((stm32_set_ops { p with dma_tx := { p.dma_tx with use := b } }).prepare_rx,
         (stm32_set_ops { p with dma_tx := { p.dma_tx with use := b } }).schedule_rx,
         (stm32_set_ops { p with dma_tx := { p.dma_tx with use := b } }).release_rx)
        = ((stm32_set_ops p).prepare_rx, (stm32_set_ops p).schedule_rx,
           (stm32_set_ops p).release_rx))
    ∧ (∀ b : Bool,
        ((stm32_set_ops { p with dma_rx := { p.dma_rx with use := b } }).prepare_tx,
         (stm32_set_ops { p with dma_rx := { p.dma_rx with use := b } }).schedule_tx,
         (stm32_set_ops { p with dma_rx := { p.dma_rx with use := b } }).release_tx)
        = ((stm32_set_ops p).prepare_tx, (stm32_set_ops p).schedule_tx,
           (stm32_set_ops p).release_tx))
    ∧ (stm32_set_ops p).schedule_rx ≠ none
    ∧ (stm32_set_ops p).schedule_tx ≠ none
    ∧ (stm32_set_ops p).dma_rx = p.dma_rx
    ∧ (stm32_set_ops p).dma_tx = p.dma_tx := by
  refine ⟨?_, ?_, ?_, ?_, ?_, ?_, ?_, ?_⟩
  · rw [set_ops_eq]
    cases p.dma_rx.use <;> rfl
  · rw [set_ops_eq]
    cases p.dma_tx.use <;> rfl
  · intro b
    rw [set_ops_eq, set_ops_eq]
  · intro b
    rw [set_ops_eq, set_ops_eq]
  · rw [set_ops_eq]
    simp
  · rw [set_ops_eq]
    simp
  · rw [set_ops_eq]
  · rw [set_ops_eq]

/-- C20: the DMA release path and the mode selection are idempotent. For each
direction, applying stm32_release_rx_dma (resp. stm32_release_tx_dma) twice
yields the same port state as applying it once, with chan == NULL, dsc == NULL
and cookie == -EINVAL, and the second application makes no call into the DMA
layer (no terminate, release or unmap); applying stm32_set_ops twice installs
the same functions as applying it once. -/
theorem C20_release_and_set_ops_idempotent (p : stm32_port) :
    stm32_release_rx_dma (stm32_release_rx_dma p) = stm32_release_rx_dma p
    ∧ (stm32_release_rx_dma p).dma_rx.chan = none
    ∧ (stm32_release_rx_dma p).dma_rx.dsc = none
    ∧ (stm32_release_rx_dma p).dma_rx.cookie = -EINVAL
    ∧ (stm32_release_rx_dma (stm32_release_rx_dma p)).dma_log
        = (stm32_release_rx_dma p).dma_log
    ∧ stm32_release_tx_dma (stm32_release_tx_dma p) = stm32_release_tx_dma p
    ∧ (stm32_release_tx_dma p).dma_tx.chan = none
    ∧ (stm32_release_tx_dma p).dma_tx.dsc = none
    ∧ (stm32_release_tx_dma p).dma_tx.cookie = -EINVAL
    ∧ (stm32_release_tx_dma (stm32_release_tx_dma p)).dma_log
        = (stm32_release_tx_dma p).dma_log
    ∧ stm32_set_ops (stm32_set_ops p) = stm32_set_ops p := by
  have hrx : stm32_release_rx_dma (stm32_release_rx_dma p) = stm32_release_rx_dma p := by
    cases hc : p.dma_rx.chan <;> simp [stm32_release_rx_dma, dma_call, hc]
  have htx : stm32_release_tx_dma (stm32_release_tx_dma p) = stm32_release_tx_dma p := by
    cases hc : p.dma_tx.chan <;> simp [stm32_release_tx_dma, dma_call, hc]
  refine ⟨hrx, rfl, rfl, rfl, by rw [hrx], htx, rfl, rfl, rfl, by rw [htx], ?_⟩
  rw [set_ops_eq, set_ops_eq]

theorem set_bits_cr1 (p : stm32_port) (b : Nat) :
    stm32_set_bits p USART_CR1 b = { p with cr1 := p.cr1 ||| b } := by
  simp [stm32_set_bits, readl_relaxed, writel_relaxed, USART_CR1, USART_BRR, USART_DR]

theorem set_bits_cr3 (p : stm32_port) (b : Nat) :
    stm32_set_bits p USART_CR3 b = { p with cr3 := p.cr3 ||| b } := by
  simp [stm32_set_bits, readl_relaxed, writel_relaxed, USART_CR1, USART_CR2, USART_CR3,
    USART_BRR, USART_DR]

theorem init_property_use (np : Option device_node) (p : stm32_port) :
    stm32_init_property np p
      = { p with
          dma_rx := { p.dma_rx with use := dma_rx_requested np }
          dma_tx := { p.dma_tx with use := dma_tx_requested np } } := by
  cases np with
  | none => rfl
  | some n =>
    obtain ⟨a, b, c⟩ := n
    cases a <;> cases b <;> cases c <;> rfl

/-- Outcome of the receive set-up when every step succeeds. -/
theorem prepare_rx_dma_ok (e : dma_setup) (p : stm32_port) (hok : dma_setup_ok_rx e) :
    ∃ D L, stm32_prepare_rx_dma e p = some (0, { p with dma_rx := D, dma_log := L })
      ∧ D.use = p.dma_rx.use ∧ D.chan = e.chan ∧ D.dsc = e.dsc := by
  obtain ⟨hc, ha, hn, hr, hd⟩ := hok
  cases hdsc : e.dsc with
  | none => exact absurd hdsc hd
  | some d =>
    have h : ∃ q, stm32_prepare_rx_dma e p = some (0, q)
        ∧ q = { p with dma_rx := q.dma_rx, dma_log := q.dma_log }
        ∧ q.dma_rx.use = p.dma_rx.use ∧ q.dma_rx.chan = e.chan ∧ q.dma_rx.dsc = some d := by
      simp only [stm32_prepare_rx_dma, dma_call, hc, ha, hn, hr, hdsc, if_false, if_true,
        not_true_eq_false, ne_eq, not_false_eq_true]
      exact ⟨_, rfl, rfl, rfl, rfl, rfl⟩
    obtain ⟨q, h1, h2, h3⟩ := h
    exact ⟨q.dma_rx, q.dma_log, by rw [← h2]; exact h1, h3⟩

/-- Outcome of the receive set-up when it fails at a handled site. -/
theorem prepare_rx_dma_fails (e : dma_setup) (p : stm32_port) (hf : dma_setup_fails e)
    (hd : p.dma_rx.dsc = none) :
    ∃ D L, stm32_prepare_rx_dma e p = some (-EINVAL, { p with dma_rx := D, dma_log := L })
      ∧ D.use = false ∧ D.chan = none ∧ D.dsc = none := by
  have h : ∃ q, stm32_prepare_rx_dma e p = some (-EINVAL, q)
      ∧ q = { p with dma_rx := q.dma_rx, dma_log := q.dma_log }
      ∧ q.dma_rx.use = false ∧ q.dma_rx.chan = none ∧ q.dma_rx.dsc = none := by
    cases hc : e.chan with
    | none =>
      simp only [stm32_prepare_rx_dma, stm32_prepare_rx_dma_chan_err, dma_call, hc, if_true,
        ne_eq, not_true_eq_false, if_false]
      exact ⟨_, rfl, rfl, rfl, rfl, hd⟩
    | some c =>
      rcases hf with h | ⟨ha, h⟩
      · rw [hc] at h
        cases h
      · by_cases hn : e.nent = 0
        · simp only [stm32_prepare_rx_dma, stm32_prepare_rx_dma_chan_err,
            stm32_release_rx_dma, dma_call, hc, ha, hn, if_true, ne_eq, not_true_eq_false,
            if_false, not_false_eq_true, reduceCtorEq]
          exact ⟨_, rfl, rfl, rfl, rfl, rfl⟩
        · have hr : e.config_ret ≠ 0 := by
            rcases h with h | h
            · exact absurd h hn
            · exact h
          simp only [stm32_prepare_rx_dma, stm32_prepare_rx_dma_chan_err,
            stm32_release_rx_dma, dma_call, hc, ha, hn, hr, if_true, ne_eq,
            not_true_eq_false, if_false, not_false_eq_true, reduceCtorEq]
          exact ⟨_, rfl, rfl, rfl, rfl, rfl⟩
  obtain ⟨q, h1, h2, h3⟩ := h
  exact ⟨q.dma_rx, q.dma_log, by rw [← h2]; exact h1, h3⟩

/-- Outcome of the transmit set-up when every step succeeds. -/
theorem prepare_tx_dma_ok (e : dma_setup) (p : stm32_port) (hok : dma_setup_ok_tx e) :
    ∃ D L, stm32_prepare_tx_dma e p = some (0, { p with dma_tx := D, dma_log := L })
      ∧ D.use = p.dma_tx.use ∧ D.chan = e.chan ∧ D.dsc = p.dma_tx.dsc := by
  obtain ⟨hc, ha, hn, hr⟩ := hok
  have h : ∃ q, stm32_prepare_tx_dma e p = some (0, q)
      ∧ q = { p with dma_tx := q.dma_tx, dma_log := q.dma_log }
      ∧ q.dma_tx.use = p.dma_tx.use ∧ q.dma_tx.chan = e.chan
      ∧ q.dma_tx.dsc = p.dma_tx.dsc := by
    simp only [stm32_prepare_tx_dma, dma_call, hc, ha, hn, hr, if_false, if_true,
      not_true_eq_false, ne_eq, not_false_eq_true]
    exact ⟨_, rfl, rfl, rfl, rfl, rfl⟩
  obtain ⟨q, h1, h2, h3⟩ := h
  exact ⟨q.dma_tx, q.dma_log, by rw [← h2]; exact h1, h3⟩

/-- Outcome of the transmit set-up when it fails at a handled site. -/
theorem prepare_tx_dma_fails (e : dma_setup) (p : stm32_port) (hf : dma_setup_fails e)
    (hd : p.dma_tx.dsc = none) :
    ∃ D L, stm32_prepare_tx_dma e p = some (-EINVAL, { p with dma_tx := D, dma_log := L })
      ∧ D.use = false ∧ D.chan = none ∧ D.dsc = none := by
  have h : ∃ q, stm32_prepare_tx_dma e p = some (-EINVAL, q)
      ∧ q = { p with dma_tx := q.dma_tx, dma_log := q.dma_log }
      ∧ q.dma_tx.use = false ∧ q.dma_tx.chan = none ∧ q.dma_tx.dsc = none := by
    cases hc : e.chan with
    | none =>
      simp only [stm32_prepare_tx_dma, stm32_prepare_tx_dma_chan_err, dma_call, hc, if_true,
        ne_eq, not_true_eq_false, if_false]
      exact ⟨_, rfl, rfl, rfl, rfl, hd⟩
    | some c =>
      rcases hf with h | ⟨ha, h⟩
      · rw [hc] at h
        cases h
      · by_cases hn : e.nent = 0
        · simp only [stm32_prepare_tx_dma, stm32_prepare_tx_dma_chan_err,
            stm32_release_tx_dma, dma_call, hc, ha, hn, if_true, ne_eq, not_true_eq_false,
            if_false, not_false_eq_true, reduceCtorEq]
          exact ⟨_, rfl, rfl, rfl, rfl, rfl⟩
        · have hr : e.config_ret ≠ 0 := by
            rcases h with h | h
            · exact absurd h hn
            · exact h
          simp only [stm32_prepare_tx_dma, stm32_prepare_tx_dma_chan_err,
            stm32_release_tx_dma, dma_call, hc, ha, hn, hr, if_true, ne_eq,
            not_true_eq_false, if_false, not_false_eq_true, reduceCtorEq]
          exact ⟨_, rfl, rfl, rfl, rfl, rfl⟩
  obtain ⟨q, h1, h2, h3⟩ := h
  exact ⟨q.dma_tx, q.dma_log, by rw [← h2]; exact h1, h3⟩

theorem setup_fails_not_ok_rx (e : dma_setup) (hf : dma_setup_fails e) :
    ¬ dma_setup_ok_rx e := by
  rintro ⟨hc, _, hn, hr, _⟩
  rcases hf with h | ⟨_, h | h⟩
  · exact hc h
  · exact hn h
  · exact h hr

theorem setup_fails_not_ok_tx (e : dma_setup) (hf : dma_setup_fails e) :
    ¬ dma_setup_ok_tx e := by
  rintro ⟨hc, _, hn, hr⟩
  rcases hf with h | ⟨_, h | h⟩
  · exact hc h
  · exact hn h
  · exact h hr

/-- The start-up written with its two set-up blocks and its register values
named. -/
theorem startup_eq (irq_ret : Int) (np : Option device_node) (erx etx : dma_setup)
    (p : stm32_port) :
    stm32_startup irq_ret np erx etx p
      = if irq_ret ≠ 0 then some (irq_ret, p)
        else
          let q := stm32_set_ops
            (stm32_init_property np (tasklet_enable { p with irq_requested := true }))
          match startup_prepare q.prepare_rx erx etx q with
          | none => none
          | some q1 =>
            match startup_prepare q1.prepare_tx erx etx q1 with
            | none => none
            | some q2 =>
              some (0, stm32_set_bits (stm32_set_bits q2 USART_CR1 (startup_cr1 q2))
                USART_CR3 (startup_cr3 q2)) := by
  rfl

/-- The receive block of the start-up: whatever the outcome of the set-up, the
port continues with the functions of the mode the receive direction is left
in. -/
theorem startup_prepare_rx (erx etx : dma_setup) (x : stm32_port)
    (hd : x.dma_rx.dsc = none)
    (H : x.dma_rx.use = true → dma_setup_ok_rx erx ∨ dma_setup_fails erx) :
    ∃ D L, startup_prepare (stm32_set_ops x).prepare_rx erx etx (stm32_set_ops x)
        = some (stm32_set_ops { x with dma_rx := D, dma_log := L })
      ∧ (D.use = true ↔ (x.dma_rx.use = true ∧ dma_setup_ok_rx erx))
      ∧ (x.dma_rx.use = true → dma_setup_fails erx → D.chan = none ∧ D.dsc = none) := by
  cases hu : x.dma_rx.use with
  | false =>
    refine ⟨x.dma_rx, x.dma_log, ?_, ?_, ?_⟩
    · have hpr : (stm32_set_ops x).prepare_rx = none := by
        rw [set_ops_eq]
        simp [hu]
      rw [hpr]
      rfl
    · simp [hu]
    · intro h
      cases h
  | true =>
    have hpr : (stm32_set_ops x).prepare_rx = some .stm32_prepare_rx_dma := by
      rw [set_ops_eq]
      simp [hu]
    rw [hpr]
    rcases H hu with hok | hf
    · obtain ⟨D, L, hprep, hDu, -, -⟩ := prepare_rx_dma_ok erx (stm32_set_ops x) hok
      have hDu1 : D.use = true := by
        rw [hDu, set_ops_eq]
        exact hu
      refine ⟨D, L, ?_, ?_, ?_⟩
      · simp only [startup_prepare, call_prepare, hprep, lt_self_iff_false, if_false]
        rw [set_ops_eq, set_ops_eq]
        simp [hDu1, hu]
      · simp [hDu1, hok]
      · intro _ hf
        exact absurd hok (setup_fails_not_ok_rx erx hf)
    · obtain ⟨D, L, hprep, hDu, hDc, hDd⟩ := prepare_rx_dma_fails erx (stm32_set_ops x) hf
        (by rw [set_ops_eq]; exact hd)
      refine ⟨D, L, ?_, ?_, ?_⟩
      · have hneg : -EINVAL < 0 := by decide
        simp only [startup_prepare, call_prepare, hprep, hneg, if_true]
        rw [set_ops_eq, set_ops_eq, set_ops_eq]
      · simp [hDu, setup_fails_not_ok_rx erx hf]
      · intro _ _
        exact ⟨hDc, hDd⟩

/-- The transmit block of the start-up, likewise. -/
theorem startup_prepare_tx (erx etx : dma_setup) (x : stm32_port)
    (hd : x.dma_tx.dsc = none)
    (H : x.dma_tx.use = true → dma_setup_ok_tx etx ∨ dma_setup_fails etx) :
    ∃ D L, startup_prepare (stm32_set_ops x).prepare_tx erx etx (stm32_set_ops x)
        = some (stm32_set_ops { x with dma_tx := D, dma_log := L })
      ∧ (D.use = true ↔ (x.dma_tx.use = true ∧ dma_setup_ok_tx etx))
      ∧ (x.dma_tx.use = true → dma_setup_fails etx → D.chan = none ∧ D.dsc = none) := by
  cases hu : x.dma_tx.use with
  | false =>
    refine ⟨x.dma_tx, x.dma_log, ?_, ?_, ?_⟩
    · have hpr : (stm32_set_ops x).prepare_tx = none := by
        rw [set_ops_eq]
        simp [hu]
      rw [hpr]
      rfl
    · simp [hu]
    · intro h
      cases h
  | true =>
    have hpr : (stm32_set_ops x).prepare_tx = some .stm32_prepare_tx_dma := by
      rw [set_ops_eq]
      simp [hu]
    rw [hpr]
    rcases H hu with hok | hf
    · obtain ⟨D, L, hprep, hDu, -, -⟩ := prepare_tx_dma_ok etx (stm32_set_ops x) hok
      have hDu1 : D.use = true := by
        rw [hDu, set_ops_eq]
        exact hu
      refine ⟨D, L, ?_, ?_, ?_⟩
      · simp only [startup_prepare, call_prepare, hprep, lt_self_iff_false, if_false]
        rw [set_ops_eq, set_ops_eq]
        simp [hDu1, hu]
      · simp [hDu1, hok]
      · intro _ hf
        exact absurd hok (setup_fails_not_ok_tx etx hf)
    · obtain ⟨D, L, hprep, hDu, hDc, hDd⟩ := prepare_tx_dma_fails etx (stm32_set_ops x) hf
        (by rw [set_ops_eq]; exact hd)
      refine ⟨D, L, ?_, ?_, ?_⟩
      · have hneg : -EINVAL < 0 := by decide
        simp only [startup_prepare, call_prepare, hprep, hneg, if_true]
        rw [set_ops_eq, set_ops_eq, set_ops_eq]
      · simp [hDu, setup_fails_not_ok_tx etx hf]
      · intro _ _
        exact ⟨hDc, hDd⟩

theorem init_property_fields (np : Option device_node) (p : stm32_port) :
    (stm32_init_property np p).dma_rx.use = dma_rx_requested np
    ∧ (stm32_init_property np p).dma_tx.use = dma_tx_requested np
    ∧ (stm32_init_property np p).dma_rx.dsc = p.dma_rx.dsc
    ∧ (stm32_init_property np p).dma_tx.dsc = p.dma_tx.dsc
    ∧ (stm32_init_property np p).cr1 = p.cr1
    ∧ (stm32_init_property np p).cr3 = p.cr3 := by
  cases np with
  | none => exact ⟨rfl, rfl, rfl, rfl, rfl, rfl⟩
  | some n =>
    obtain ⟨a, b, c⟩ := n
    cases a <;> cases b <;> cases c <;> exact ⟨rfl, rfl, rfl, rfl, rfl, rfl⟩

theorem startup_effect (np : Option device_node) (erx etx : dma_setup) (p : stm32_port)
    (hrx : dma_rx_requested np = true → dma_setup_ok_rx erx ∨ dma_setup_fails erx)
    (htx : dma_tx_requested np = true → dma_setup_ok_tx etx ∨ dma_setup_fails etx)
    (hdrx : p.dma_rx.dsc = none) (hdtx : p.dma_tx.dsc = none) :
    ∃ p1, stm32_startup 0 np erx etx p = some (0, p1)
      ∧ (p1.dma_rx.use = true ↔ (dma_rx_requested np = true ∧ dma_setup_ok_rx erx))
      ∧ (p1.dma_tx.use = true ↔ (dma_tx_requested np = true ∧ dma_setup_ok_tx etx))
      ∧ (dma_rx_requested np = true → dma_setup_fails erx →
          p1.dma_rx.chan = none ∧ p1.dma_rx.dsc = none)
      ∧ (dma_tx_requested np = true → dma_setup_fails etx →
          p1.dma_tx.chan = none ∧ p1.dma_tx.dsc = none)
      ∧ stm32_set_ops p1 = p1
      ∧ p1.cr1 = p.cr1 ||| startup_cr1 p1
      ∧ p1.cr3 = p.cr3 ||| startup_cr3 p1 := by
  obtain ⟨hi1, hi2, hi3, hi4, hi5, hi6⟩ :=
    init_property_fields np (tasklet_enable { p with irq_requested := true })
  have hi3 : (stm32_init_property np (tasklet_enable { p with irq_requested := true })).dma_rx.dsc
      = none := hi3.trans hdrx
  have hi4 : (stm32_init_property np (tasklet_enable { p with irq_requested := true })).dma_tx.dsc
      = none := hi4.trans hdtx
  have hi5 : (stm32_init_property np (tasklet_enable { p with irq_requested := true })).cr1
      = p.cr1 := hi5
  have hi6 : (stm32_init_property np (tasklet_enable { p with irq_requested := true })).cr3
      = p.cr3 := hi6
  rw [startup_eq]
  simp only [ne_eq, not_true_eq_false, if_false]
  generalize stm32_init_property np (tasklet_enable { p with irq_requested := true }) = x
    at hi1 hi2 hi3 hi4 hi5 hi6 ⊢
  obtain ⟨D, L, h1, hD, hDf⟩ := startup_prepare_rx erx etx x hi3
    (fun h => hrx (by rw [← hi1]; exact h))
  obtain ⟨E, M, h2, hE, hEf⟩ := startup_prepare_tx erx etx { x with dma_rx := D, dma_log := L }
    hi4 (fun h => htx (by rw [← hi2]; exact h))
  simp only [h1, h2]
  refine ⟨_, rfl, ?_, ?_, ?_, ?_, ?_, ?_, ?_⟩
  · simp only [set_bits_cr1, set_bits_cr3, set_ops_eq]
    rw [hD, hi1]
  · simp only [set_bits_cr1, set_bits_cr3, set_ops_eq]
    rw [hE]
    exact Iff.of_eq (by rw [← hi2])
  · intro h hf
    simp only [set_bits_cr1, set_bits_cr3, set_ops_eq]
    exact hDf (hi1.trans h) hf
  · intro h hf
    simp only [set_bits_cr1, set_bits_cr3, set_ops_eq]
    exact hEf (hi2.trans h) hf
  · simp only [set_bits_cr1, set_bits_cr3, set_ops_eq]
  · simp only [set_bits_cr1, set_bits_cr3, set_ops_eq]
    rw [← hi5]
    rfl
  · simp only [set_bits_cr1, set_bits_cr3, set_ops_eq]
    rw [← hi6]
    rfl

/-- C19: a DMA set-up failure falls back to byte mode without failing the
start-up. Whenever request_irq succeeds (returns 0), every requested set-up
either succeeds or fails at a handled site (channel request, buffer mapping,
slave configuration), and the port enters with no descriptor (as after probe
or stm32_shutdown), stm32_startup returns 0. After a failed receive set-up the
receive direction has use == false, chan == NULL, dsc == NULL, the byte-mode
functions installed (prepare_rx NULL, schedule_rx == stm32_rx_from_ring,
release_rx NULL), RXNEIE and not IDLEIE among the bits requested in CR1 and
DMAR not among the bits requested in CR3; after a failed transmit set-up the
transmit direction has use == false, chan == NULL, dsc == NULL, schedule_tx ==
stm32_transmit_chars and DMAT not requested. In every case each direction is in
DMA mode exactly when its own flag was requested and its own set-up succeeded,
schedule_rx and schedule_tx are those of that mode, and the requested bits are
OR-ed into CR1 and CR3. -/
theorem C19_startup_dma_fallback (np : Option device_node) (erx etx : dma_setup)
    (p : stm32_port)
    (hrx : dma_rx_requested np = true → dma_setup_ok_rx erx ∨ dma_setup_fails erx)
    (htx : dma_tx_requested np = true → dma_setup_ok_tx etx ∨ dma_setup_fails etx)
    (hdrx : p.dma_rx.dsc = none) (hdtx : p.dma_tx.dsc = none) :
    ∃ p1, stm32_startup 0 np erx etx p = some (0, p1)
      ∧ (dma_rx_requested np = true → dma_setup_fails erx →
          p1.dma_rx.use = false ∧ p1.dma_rx.chan = none ∧ p1.dma_rx.dsc = none
          ∧ p1.prepare_rx = none ∧ p1.schedule_rx = some .stm32_rx_from_ring
          ∧ p1.release_rx = none
          ∧ startup_cr1 p1 &&& USART_CR1_RXNEIE = USART_CR1_RXNEIE
          ∧ startup_cr1 p1 &&& USART_CR1_IDLEIE = 0
          ∧ startup_cr3 p1 &&& USART_CR3_DMAR = 0)
      ∧ (dma_tx_requested np = true → dma_setup_fails etx →
          p1.dma_tx.use = false ∧ p1.dma_tx.chan = none ∧ p1.dma_tx.dsc = none
          ∧ p1.prepare_tx = none ∧ p1.schedule_tx = some .stm32_transmit_chars
          ∧ p1.release_tx = none
          ∧ startup_cr3 p1 &&& USART_CR3_DMAT = 0)
      ∧ (p1.dma_rx.use = true ↔ (dma_rx_requested np = true ∧ dma_setup_ok_rx erx))
      ∧ (p1.dma_tx.use = true ↔ (dma_tx_requested np = true ∧ dma_setup_ok_tx etx))
      ∧ p1.schedule_rx
          = some (if p1.dma_rx.use then .stm32_rx_from_dma else .stm32_rx_from_ring)
      ∧ p1.schedule_tx
          = some (if p1.dma_tx.use then .stm32_tx_with_dma else .stm32_transmit_chars)
      ∧ p1.cr1 = p.cr1 ||| startup_cr1 p1
      ∧ p1.cr3 = p.cr3 ||| startup_cr3 p1 := by
  obtain ⟨p1, hres, hru, htu, hrf, htf, hops, hcr1, hcr3⟩ :=
    startup_effect np erx etx p hrx htx hdrx hdtx
  have hE := set_ops_eq p1
  rw [hops] at hE
  have hprx : p1.prepare_rx = if p1.dma_rx.use then some .stm32_prepare_rx_dma else none := by
    have h := congrArg stm32_port.prepare_rx hE
    exact h
  have hsrx : p1.schedule_rx
      = some (if p1.dma_rx.use then .stm32_rx_from_dma else .stm32_rx_from_ring) := by
    have h := congrArg stm32_port.schedule_rx hE
    exact h
  have hrrx : p1.release_rx = if p1.dma_rx.use then some .stm32_release_rx_dma else none := by
    have h := congrArg stm32_port.release_rx hE
    exact h
  have hptx : p1.prepare_tx = if p1.dma_tx.use then some .stm32_prepare_tx_dma else none := by
    have h := congrArg stm32_port.prepare_tx hE
    exact h
  have hstx : p1.schedule_tx
      = some (if p1.dma_tx.use then .stm32_tx_with_dma else .stm32_transmit_chars) := by
    have h := congrArg stm32_port.schedule_tx hE
    exact h
  have hrtx : p1.release_tx = if p1.dma_tx.use then some .stm32_release_tx_dma else none := by
    have h := congrArg stm32_port.release_tx hE
    exact h
  clear hE hops
  refine ⟨p1, hres, ?_, ?_, hru, htu, hsrx, hstx, hcr1, hcr3⟩
  · intro hreq hf
    have hu : p1.dma_rx.use = false := by
      cases h : p1.dma_rx.use with
      | false => rfl
      | true => exact absurd (hru.mp h).2 (setup_fails_not_ok_rx erx hf)
    obtain ⟨hc, hd⟩ := hrf hreq hf
    refine ⟨hu, hc, hd, ?_, ?_, ?_, ?_, ?_, ?_⟩
    · rw [hprx, hu]
      rfl
    · rw [hsrx, hu]
      rfl
    · rw [hrrx, hu]
      rfl
    · simp only [startup_cr1, stm32_use_dma_rx, hu]
      decide
    · simp only [startup_cr1, stm32_use_dma_rx, hu]
      decide
    · simp only [startup_cr3, hu]
      cases p1.dma_tx.use <;> decide
  · intro hreq hf
    have hu : p1.dma_tx.use = false := by
      cases h : p1.dma_tx.use with
      | false => rfl
      | true => exact absurd (htu.mp h).2 (setup_fails_not_ok_tx etx hf)
    obtain ⟨hc, hd⟩ := htf hreq hf
    refine ⟨hu, hc, hd, ?_, ?_, ?_, ?_⟩
    · rw [hptx, hu]
      rfl
    · rw [hstx, hu]
      rfl
    · rw [hrtx, hu]
      rfl
    · simp only [startup_cr3, hu]
      cases p1.dma_rx.use <;> decide

/-- Witness for C19: DMA is requested in both directions, the receive set-up
fails at the mapping of the buffer and the transmit set-up succeeds; the
start-up returns 0 with the receive direction in byte mode and the transmit
direction in DMA mode. -/
theorem C19_startup_dma_fallback_witness :
    (dma_rx_requested (some node_dma_both) = true →
        dma_setup_ok_rx setup_map_fails ∨ dma_setup_fails setup_map_fails)
    ∧ (dma_tx_requested (some node_dma_both) = true →
        dma_setup_ok_tx setup_succeeds ∨ dma_setup_fails setup_succeeds)
    ∧ ({} : stm32_port).dma_rx.dsc = none
    ∧ ({} : stm32_port).dma_tx.dsc = none
    ∧ ∃ p1, stm32_startup 0 (some node_dma_both) setup_map_fails setup_succeeds {}
          = some (0, p1)
        ∧ p1.dma_rx.use = false ∧ p1.dma_rx.chan = none
        ∧ p1.schedule_rx = some .stm32_rx_from_ring
        ∧ p1.dma_tx.use = true
        ∧ p1.schedule_tx = some .stm32_tx_with_dma := by
  have hf : dma_setup_fails setup_map_fails := Or.inr ⟨rfl, Or.inl rfl⟩
  have hok : dma_setup_ok_tx setup_succeeds := by decide
  obtain ⟨p1, h, hr, -, -, htu, -, hstx, -, -⟩ := C19_startup_dma_fallback
    (some node_dma_both) setup_map_fails setup_succeeds {}
    (fun _ => Or.inr hf) (fun _ => Or.inl hok) rfl rfl
  obtain ⟨hu, hc, -, -, hs, -⟩ := hr rfl hf
  have ht : p1.dma_tx.use = true := htu.mpr ⟨rfl, hok⟩
  refine ⟨fun _ => Or.inr hf, fun _ => Or.inl hok, rfl, rfl, p1, h, hu, hc, hs, ht, ?_⟩
  rw [hstx, ht]
  rfl

/-! ## The interrupt handler -/

/-- The producer loop writes nothing of the port but the receive ring. -/
theorem receive_loop_only_ring (reads : List (Nat × Nat)) (p : stm32_port) :
    (stm32_receive_chars_loop reads p).2
      = { p with rx_ring := (stm32_receive_chars_loop reads p).2.rx_ring } := by
  induction reads generalizing p with
  | nil => rfl
  | cons r rest ih =>
    obtain ⟨sr, ch⟩ := r
    simp only [stm32_receive_chars_loop]
    split
    · split
      · exact ih p
      · exact ih _
    · rfl

/-- What the producer loop does to the ring depends on the ring alone. -/
theorem receive_loop_ring_congr (reads : List (Nat × Nat)) (p q : stm32_port)
    (h : p.rx_ring = q.rx_ring) :
    (stm32_receive_chars_loop reads p).2.rx_ring
      = (stm32_receive_chars_loop reads q).2.rx_ring := by
  induction reads generalizing p q with
  | nil => exact h
  | cons r rest ih =>
    obtain ⟨sr, ch⟩ := r
    simp only [stm32_receive_chars_loop, h]
    split
    · split
      · exact ih p q h
      · exact ih _ _ rfl
    · exact h

theorem clr_bits_cr1 (p : stm32_port) (b : Nat) :
    stm32_clr_bits p USART_CR1 b = { p with cr1 := p.cr1 &&& not32 b } := by
  simp [stm32_clr_bits, readl_relaxed, writel_relaxed, USART_CR1, USART_BRR, USART_DR]

/-- The port the interrupt handler hands to its transmit-ready branch: the
lock is held, the receive ring is the one the producer loop leaves when RXNE
was read at entry, and nothing else but the tasklet request has changed. -/
theorem interrupt_receive_part (sr : Nat) (reads : List (Nat × Nat)) (p : stm32_port) :
    ∃ b : Bool,
      (if sr &&& USART_SR_RXNE ≠ 0 then
          stm32_receive_chars reads
            (if stm32_use_dma_rx (spin_lock p) then
              if sr &&& USART_SR_IDLE ≠ 0 then tasklet_schedule (spin_lock p)
              else spin_lock p
            else spin_lock p)
        else (reads,
            (if stm32_use_dma_rx (spin_lock p) then
              if sr &&& USART_SR_IDLE ≠ 0 then tasklet_schedule (spin_lock p)
              else spin_lock p
            else spin_lock p))).2
        = { p with
            lock_held := true
            tasklet_scheduled := b
            rx_ring := if sr &&& USART_SR_RXNE ≠ 0
              then (stm32_receive_chars_loop reads p).2.rx_ring else p.rx_ring } := by
  have h0 : ∃ b : Bool,
      (if stm32_use_dma_rx (spin_lock p) then
          if sr &&& USART_SR_IDLE ≠ 0 then tasklet_schedule (spin_lock p)
          else spin_lock p
        else spin_lock p)
        = { p with lock_held := true, tasklet_scheduled := b } := by
    split
    · split
      · exact ⟨true, rfl⟩
      · exact ⟨p.tasklet_scheduled, rfl⟩
    · exact ⟨p.tasklet_scheduled, rfl⟩
  obtain ⟨b, hb⟩ := h0
  rw [hb]
  by_cases hr : sr &&& USART_SR_RXNE ≠ 0
  · refine ⟨true, ?_⟩
    rw [if_pos hr, if_pos hr]
    unfold stm32_receive_chars
    dsimp only
    rw [receive_loop_only_ring,
      receive_loop_ring_congr reads { p with lock_held := true, tasklet_scheduled := b } p rfl]
    rfl
  · refine ⟨b, ?_⟩
    rw [if_neg hr, if_neg hr]

/-- What the interrupt handler leaves of the port. -/
theorem interrupt_effect (sr : Nat) (reads : List (Nat × Nat)) (p : stm32_port) :
    (stm32_interrupt sr reads p).1 = IRQ_HANDLED
    ∧ (stm32_interrupt sr reads p).2.2.lock_held = false
    ∧ (stm32_interrupt sr reads p).2.2.lock_releases = p.lock_releases + 1
    ∧ (stm32_interrupt sr reads p).2.2.dr_writes = p.dr_writes
    ∧ (stm32_interrupt sr reads p).2.2.xmit = p.xmit
    ∧ (stm32_interrupt sr reads p).2.2.x_char = p.x_char
    ∧ (stm32_interrupt sr reads p).2.2.cr1
        = (if sr &&& USART_SR_TXE ≠ 0 then p.cr1 &&& not32 USART_CR1_TXEIE else p.cr1)
    ∧ (sr &&& USART_SR_TXE ≠ 0 → (stm32_interrupt sr reads p).2.2.tasklet_scheduled = true)
    ∧ (stm32_interrupt sr reads p).2.2.rx_ring
        = (if sr &&& USART_SR_RXNE ≠ 0
            then (stm32_receive_chars_loop reads p).2.rx_ring else p.rx_ring) := by
  obtain ⟨b, hb⟩ := interrupt_receive_part sr reads p
  unfold stm32_interrupt
  dsimp only
  rw [hb]
  by_cases ht : sr &&& USART_SR_TXE ≠ 0
  · simp only [if_pos ht, clr_bits_cr1, tasklet_schedule, spin_unlock, and_self, implies_true]
  · simp only [if_neg ht, spin_unlock, and_self, and_true, true_and]
    intro h
    exact absurd h ht

/-- C21: the interrupt handler defers transmit work. For every port state,
every status value read at entry and whatever the peripheral presents to the
receive loop, stm32_interrupt returns IRQ_HANDLED with the port lock released;
and if the status read at entry has TXE set, then on return TXEIE is cleared
in CR1 (the other bits of CR1 are as before), the tasklet has been requested,
no byte has been written to the data register, and the transmit queue (head,
tail, contents) and x_char are unchanged. -/
theorem C21_interrupt_defers_transmit (sr : Nat) (reads : List (Nat × Nat))
    (p : stm32_port) :
    (stm32_interrupt sr reads p).1 = IRQ_HANDLED
    ∧ (stm32_interrupt sr reads p).2.2.lock_held = false
    ∧ (sr &&& USART_SR_TXE ≠ 0 →
        (stm32_interrupt sr reads p).2.2.cr1 &&& USART_CR1_TXEIE = 0
        ∧ (stm32_interrupt sr reads p).2.2.cr1 = p.cr1 &&& not32 USART_CR1_TXEIE
        ∧ (stm32_interrupt sr reads p).2.2.tasklet_scheduled = true
        ∧ (stm32_interrupt sr reads p).2.2.dr_writes = p.dr_writes
        ∧ (stm32_interrupt sr reads p).2.2.xmit.head = p.xmit.head
        ∧ (stm32_interrupt sr reads p).2.2.xmit.tail = p.xmit.tail
        ∧ (stm32_interrupt sr reads p).2.2.xmit.buf = p.xmit.buf
        ∧ (stm32_interrupt sr reads p).2.2.x_char = p.x_char) := by
  obtain ⟨h1, h2, -, h4, h5, h6, h7, h8, -⟩ := interrupt_effect sr reads p
  refine ⟨h1, h2, ?_⟩
  intro ht
  rw [if_pos ht] at h7
  refine ⟨?_, h7, h8 ht, h4, ?_, ?_, ?_, h6⟩
  · rw [h7]
    exact txeie_cleared p.cr1
  · rw [h5]
  · rw [h5]
  · rw [h5]

/-! ## The port lock during a tasklet run -/

theorem writel_dr (v : Nat) (p : stm32_port) :
    writel_relaxed v USART_DR p = { p with dr_writes := p.dr_writes ++ [v] } := by
  simp [writel_relaxed]

/-- A byte-mode transmit step leaves the lock and the installed functions as
they are. -/
theorem transmit_chars_lock (p : stm32_port) :
    (stm32_transmit_chars p).lock_releases = p.lock_releases
    ∧ (stm32_transmit_chars p).lock_held = p.lock_held
    ∧ (stm32_transmit_chars p).schedule_rx = p.schedule_rx := by
  unfold stm32_transmit_chars stm32_stop_tx uart_write_wakeup
  simp only [clr_bits_cr1, set_bits_cr1, writel_dr]
  split_ifs <;> exact ⟨rfl, rfl, rfl⟩

/-- A DMA transmit step, whenever it returns, has left the lock and the
installed functions as they are. -/
theorem tx_with_dma_lock (prep : Option Nat) (p q : stm32_port)
    (hrun : stm32_tx_with_dma prep p = some q) :
    q.lock_releases = p.lock_releases ∧ q.lock_held = p.lock_held
    ∧ q.schedule_rx = p.schedule_rx := by
  unfold stm32_tx_with_dma uart_write_wakeup dma_call at hrun
  cases prep <;> dsimp only at hrun <;> split_ifs at hrun <;>
    (cases hrun; exact ⟨rfl, rfl, rfl⟩)

theorem rx_entry_lock {σ : Type} (k : serial_core σ) (c : stm32_uart_char) (s : σ)
    (p : stm32_port) :
    (stm32_rx_from_ring_entry k c s p).2.lock_releases = p.lock_releases
    ∧ (stm32_rx_from_ring_entry k c s p).2.lock_held = p.lock_held := by
  rcases rx_entry_cases k c s p with h | h <;> rw [h] <;> exact ⟨rfl, rfl⟩

theorem rx_loop_lock {σ : Type} (k : serial_core σ) (fuel : Nat) (s : σ) (p : stm32_port)
    (r : σ × stm32_port) (hrun : stm32_rx_from_ring_loop k fuel s p = some r) :
    r.2.lock_releases = p.lock_releases ∧ r.2.lock_held = p.lock_held := by
  induction fuel generalizing s p with
  | zero =>
    simp only [stm32_rx_from_ring_loop] at hrun
    split at hrun
    · exact absurd hrun (by simp)
    · cases hrun; exact ⟨rfl, rfl⟩
  | succ fuel ih =>
    simp only [stm32_rx_from_ring_loop] at hrun
    split at hrun
    · obtain ⟨h1, h2⟩ := ih _ _ hrun
      simp only [stm32_rx_from_ring_body] at h1 h2
      rw [(rx_entry_lock _ _ _ _).1] at h1
      rw [(rx_entry_lock _ _ _ _).2] at h2
      exact ⟨h1, h2⟩
    · cases hrun; exact ⟨rfl, rfl⟩

/-- The byte-mode receive step, whenever it returns, has released the lock
once and holds it again. -/
theorem rx_from_ring_lock {σ : Type} (k : serial_core σ) (fuel : Nat) (s : σ)
    (p : stm32_port) (r : σ × stm32_port) (hrun : stm32_rx_from_ring k fuel s p = some r) :
    r.2.lock_releases = p.lock_releases + 1 ∧ r.2.lock_held = true := by
  simp only [stm32_rx_from_ring] at hrun
  split at hrun
  · exact absurd hrun (by simp)
  · rename_i s1 p1 hloop
    cases hrun
    obtain ⟨h1, -⟩ := rx_loop_lock k fuel s _ _ hloop
    have hr : (if p.irq_wake then { p with pm_wakeups := p.pm_wakeups + 1 } else p).lock_releases
        = p.lock_releases := by split <;> rfl
    rw [hr] at h1
    refine ⟨?_, rfl⟩
    show p1.lock_releases + 1 = p.lock_releases + 1
    rw [h1]

/-- The DMA receive step, whenever it returns: on DMA_ERROR it has not touched
the lock; otherwise it has released the lock once and holds it again. -/
theorem rx_from_dma_lock (dmastat : dma_status) (residue : Nat) (p q : stm32_port)
    (hrun : stm32_rx_from_dma dmastat residue p = some q) :
    q.lock_releases = p.lock_releases + (if dmastat = .DMA_ERROR then 0 else 1)
    ∧ (dmastat ≠ .DMA_ERROR → q.lock_held = true)
    ∧ (dmastat = .DMA_ERROR → q.lock_held = p.lock_held) := by
  unfold stm32_rx_from_dma at hrun
  by_cases he : dmastat = .DMA_ERROR
  · rw [if_pos he] at hrun
    cases hrun
    rw [if_pos he]
    exact ⟨rfl, fun h => absurd he h, fun _ => rfl⟩
  · rw [if_neg he] at hrun
    rw [if_neg he]
    dsimp only at hrun
    split_ifs at hrun <;> (cases hrun; exact ⟨rfl, fun _ => rfl, fun h => absurd h he⟩)

/-- The releases of the port lock during a tasklet run on a port whose
functions are those `stm32_set_ops` installs: one by the receive step (none
when the DMA receive step finds DMA_ERROR), then the final one. -/
theorem tasklet_func_lock {σ : Type} (env : tasklet_env σ) (s : σ) (p : stm32_port)
    (hops : stm32_set_ops p = p) (r : σ × stm32_port)
    (hrun : stm32_tasklet_func env s p = some r) :
    r.2.lock_held = false
    ∧ r.2.lock_releases
        = p.lock_releases
          + (if p.dma_rx.use = true ∧ env.dmastat = .DMA_ERROR then 0 else 1) + 1 := by
  have hE := set_ops_eq p
  rw [hops] at hE
  have htx : p.schedule_tx
      = some (if p.dma_tx.use then .stm32_tx_with_dma else .stm32_transmit_chars) := by
    have h := congrArg stm32_port.schedule_tx hE
    exact h
  have hrx : p.schedule_rx
      = some (if p.dma_rx.use then .stm32_rx_from_dma else .stm32_rx_from_ring) := by
    have h := congrArg stm32_port.schedule_rx hE
    exact h
  clear hE hops
  unfold stm32_tasklet_func at hrun
  have htx1 : (spin_lock p).schedule_tx
      = some (if p.dma_tx.use then .stm32_tx_with_dma else .stm32_transmit_chars) := htx
  simp only [htx1] at hrun
  -- the transmit step
  have hstep : ∃ q, call_schedule
      (if p.dma_tx.use then stm32_fn.stm32_tx_with_dma else stm32_fn.stm32_transmit_chars)
      env s (spin_lock p) = some (s, q)
      ∧ q.lock_releases = p.lock_releases ∧ q.schedule_rx = p.schedule_rx := by
    cases hu : p.dma_tx.use with
    | false =>
      obtain ⟨h1, -, h3⟩ := transmit_chars_lock (spin_lock p)
      exact ⟨_, rfl, h1, h3⟩
    | true =>
      rw [hu] at hrun
      simp only [if_true, call_schedule] at hrun ⊢
      cases hq : stm32_tx_with_dma env.prep (spin_lock p) with
      | none =>
        rw [hq] at hrun
        exact absurd hrun (by simp)
      | some q =>
        obtain ⟨h1, -, h3⟩ := tx_with_dma_lock env.prep (spin_lock p) q hq
        exact ⟨q, rfl, h1, h3⟩
  obtain ⟨q, hq, hql, hqs⟩ := hstep
  rw [hq] at hrun
  simp only [hqs, hrx] at hrun
  -- the receive step
  cases hu : p.dma_rx.use with
  | false =>
    rw [hu] at hrun
    simp only [Bool.false_eq_true, if_false, call_schedule] at hrun
    cases hr : stm32_rx_from_ring env.k env.fuel s q with
    | none =>
      rw [hr] at hrun
      exact absurd hrun (by simp)
    | some r1 =>
      rw [hr] at hrun
      obtain ⟨h1, -⟩ := rx_from_ring_lock env.k env.fuel s q r1 hr
      cases hrun
      refine ⟨rfl, ?_⟩
      show r1.2.lock_releases + 1 = _
      rw [h1, hql]
      simp
  | true =>
    rw [hu] at hrun
    simp only [if_true, call_schedule] at hrun
    cases hr : stm32_rx_from_dma env.dmastat env.residue q with
    | none =>
      rw [hr] at hrun
      exact absurd hrun (by simp)
    | some q1 =>
      rw [hr] at hrun
      obtain ⟨h1, -, -⟩ := rx_from_dma_lock env.dmastat env.residue q q1 hr
      cases hrun
      refine ⟨rfl, ?_⟩
      show q1.lock_releases + 1 = _
      rw [h1, hql]
      simp

/-- C22 (as amended): the lock drop during a tasklet run. Each receive step
releases the port lock once around the push to the tty layer and takes it
again: stm32_rx_from_ring on every pass, stm32_rx_from_dma on every pass
whose status is not DMA_ERROR (on DMA_ERROR it returns without touching the
lock). The transmit steps stm32_transmit_chars and stm32_tx_with_dma never
release it. Hence a run of stm32_tasklet_func with the functions stm32_set_ops
installs releases the lock once between its acquire and its final release,
except for a DMA receive step that finds DMA_ERROR, when it releases it only
at the end. -/
theorem C22_lock_drop_in_receive_steps {σ : Type} (env : tasklet_env σ) (s : σ)
    (p : stm32_port) :
    (stm32_transmit_chars p).lock_releases = p.lock_releases
    ∧ (∀ q, stm32_tx_with_dma env.prep p = some q → q.lock_releases = p.lock_releases)
    ∧ (∀ r, stm32_rx_from_ring env.k env.fuel s p = some r →
        r.2.lock_releases = p.lock_releases + 1 ∧ r.2.lock_held = true)
    ∧ (∀ q, stm32_rx_from_dma env.dmastat env.residue p = some q →
        q.lock_releases = p.lock_releases + (if env.dmastat = .DMA_ERROR then 0 else 1)
        ∧ (env.dmastat ≠ .DMA_ERROR → q.lock_held = true))
    ∧ (stm32_set_ops p = p → ∀ r, stm32_tasklet_func env s p = some r →
        r.2.lock_held = false
        ∧ r.2.lock_releases
            = p.lock_releases
              + (if p.dma_rx.use = true ∧ env.dmastat = .DMA_ERROR then 0 else 1) + 1) := by
  refine ⟨(transmit_chars_lock p).1, ?_, ?_, ?_, ?_⟩
  · intro q hq
    exact (tx_with_dma_lock env.prep p q hq).1
  · intro r hr
    exact rx_from_ring_lock env.k env.fuel s p r hr
  · intro q hq
    obtain ⟨h1, h2, -⟩ := rx_from_dma_lock env.dmastat env.residue p q hq
    exact ⟨h1, h2⟩
  · intro hops r hr
    exact tasklet_func_lock env s p hops r hr

/-- Witness for C22: a tasklet run on a port in DMA receive mode (byte-mode
transmit, empty queue) with the transfer in progress returns, having released
the lock twice: once in stm32_rx_from_dma and once at the end. -/
theorem C22_lock_drop_in_receive_steps_witness :
    stm32_set_ops (stm32_set_ops dma_rx_port_example) = stm32_set_ops dma_rx_port_example
    ∧ ∃ r, stm32_tasklet_func tasklet_env_example () (stm32_set_ops dma_rx_port_example)
          = some r
        ∧ r.2.lock_held = false ∧ r.2.lock_releases = 2 := by
  have hops : stm32_set_ops (stm32_set_ops dma_rx_port_example)
      = stm32_set_ops dma_rx_port_example := by
    rw [set_ops_eq, set_ops_eq]
  have hret : (stm32_tasklet_func tasklet_env_example ()
      (stm32_set_ops dma_rx_port_example)).isSome = true := by
    decide
  obtain ⟨r, hr⟩ := Option.isSome_iff_exists.mp hret
  obtain ⟨h1, h2⟩ := (C22_lock_drop_in_receive_steps tasklet_env_example ()
    (stm32_set_ops dma_rx_port_example)).2.2.2.2 hops r hr
  exact ⟨hops, r, hr, h1, h2⟩

/-- Counterexample to C22 as stated: stm32_rx_from_dma releases the port lock.
On a port in DMA receive mode with the lock held and no release so far, the
step returns with one release counted and the lock held again; the tasklet run
around it ends with two releases. -/
theorem C22_counterexample :
    (spin_lock dma_rx_port_example).lock_releases = 0
    ∧ (stm32_rx_from_dma .DMA_IN_PROGRESS 8000 (spin_lock dma_rx_port_example)).map
        (fun q => (q.lock_releases, q.lock_held)) = some (1, true)
    ∧ (stm32_set_ops dma_rx_port_example).schedule_rx = some .stm32_rx_from_dma
    ∧ (stm32_tasklet_func tasklet_env_example () (stm32_set_ops dma_rx_port_example)).map
        (fun r => r.2.lock_releases) = some 2 := by
  decide

/-! ## The registers written by the line configuration -/

theorem readl_cr (p : stm32_port) :
    readl_relaxed p USART_CR1 = p.cr1 ∧ readl_relaxed p USART_CR2 = p.cr2
    ∧ readl_relaxed p USART_CR3 = p.cr3 :=
  ⟨rfl, rfl, rfl⟩

theorem writel_regs (v : Nat) (p : stm32_port) :
    writel_relaxed v USART_BRR p = { p with brr := v }
    ∧ writel_relaxed v USART_CR1 p = { p with cr1 := v }
    ∧ writel_relaxed v USART_CR2 p = { p with cr2 := v }
    ∧ writel_relaxed v USART_CR3 p = { p with cr3 := v } :=
  ⟨rfl, rfl, rfl, rfl⟩

/-- The control and baud-rate registers after `stm32_set_termios`: BRR holds
the divisor the call computed; CR1, CR2 and CR3 hold the values read at entry
with the requested bits OR-ed in. -/
theorem set_termios_regs (c_cflag c_iflag baud : Nat) (p : stm32_port) :
    (stm32_set_termios c_cflag c_iflag baud p).brr
        = u32 ((DIV_ROUND_CLOSEST p.uartclk baud
              / (if DIV_ROUND_CLOSEST p.uartclk baud < 16 then 8 else 16))
            <<< USART_BRR_DIV_M_SHIFT)
          ||| (DIV_ROUND_CLOSEST p.uartclk baud
              % (if DIV_ROUND_CLOSEST p.uartclk baud < 16 then 8 else 16))
    ∧ (stm32_set_termios c_cflag c_iflag baud p).cr1
        = (if (if ¬ p.hw_flow_control then c_cflag &&& not32 CRTSCTS else c_cflag)
                &&& PARODD ≠ 0
           then (fun x => x ||| USART_CR1_PS) else id)
          (if (if ¬ p.hw_flow_control then c_cflag &&& not32 CRTSCTS else c_cflag)
                &&& PARENB ≠ 0
           then
             (if (if ¬ p.hw_flow_control then c_cflag &&& not32 CRTSCTS else c_cflag)
                  &&& CSIZE = CS8
              then (p.cr1 ||| USART_CR1_PCE) ||| USART_CR1_M else p.cr1 ||| USART_CR1_PCE)
           else p.cr1)
    ∧ (stm32_set_termios c_cflag c_iflag baud p).cr2
        = (if (if ¬ p.hw_flow_control then c_cflag &&& not32 CRTSCTS else c_cflag)
                &&& CSTOPB ≠ 0
           then p.cr2 ||| USART_CR2_STOP_2B else p.cr2)
    ∧ (stm32_set_termios c_cflag c_iflag baud p).cr3
        = (if (if ¬ p.hw_flow_control then c_cflag &&& not32 CRTSCTS else c_cflag)
                &&& CRTSCTS ≠ 0
           then p.cr3 ||| USART_CR3_CTSE else p.cr3) := by
  have R1 := fun q => (readl_cr q).1
  have R2 := fun q => (readl_cr q).2.1
  have R3 := fun q => (readl_cr q).2.2
  have W0 := fun v q => (writel_regs v q).1
  have W1 := fun v q => (writel_regs v q).2.1
  have W2 := fun v q => (writel_regs v q).2.2.1
  have W3 := fun v q => (writel_regs v q).2.2.2
  refine ⟨?_, ?_, ?_, ?_⟩
  · simp only [stm32_set_termios, spin_lock, spin_unlock, stm32_set_bits, stm32_clr_bits,
      R1, R2, R3, W0, W1, W2, W3,
      apply_ite stm32_port.brr,
      apply_ite stm32_port.uartclk, ite_self]
  · simp only [stm32_set_termios, spin_lock, spin_unlock, stm32_set_bits, stm32_clr_bits,
      R1, R2, R3, W0, W1, W2, W3,
      apply_ite stm32_port.cr1,
      apply_ite stm32_port.uartclk, ite_self]
    split_ifs <;> rfl
  · simp only [stm32_set_termios, spin_lock, spin_unlock, stm32_set_bits, stm32_clr_bits,
      R1, R2, R3, W0, W1, W2, W3,
      apply_ite stm32_port.cr2,
      apply_ite stm32_port.uartclk, ite_self]
  · simp only [stm32_set_termios, spin_lock, spin_unlock, stm32_set_bits, stm32_clr_bits,
      R1, R2, R3, W0, W1, W2, W3,
      apply_ite stm32_port.cr3,
      apply_ite stm32_port.uartclk, ite_self]

/-- C24 (the code at the failing input): a first stm32_set_termios asks for two
stop bits, odd parity and CTS flow control; a second one asks for none of
them (c_cflag = CS8 | CREAD). The registers written by the second call still
have STOP_2B in CR2, PCE, PS and M in CR1 and CTSE in CR3: the function reads
the registers and only ORs bits into them, so no setting is ever switched
off. -/
theorem C24_settings_not_switched_off :
    (CS8 ||| CREAD) &&& CSTOPB = 0
    ∧ (CS8 ||| CREAD) &&& PARENB = 0
    ∧ (CS8 ||| CREAD) &&& PARODD = 0
    ∧ (CS8 ||| CREAD) &&& CRTSCTS = 0
    ∧ termios_port_configured.cr1 = (USART_CR1_PCE ||| USART_CR1_M ||| USART_CR1_PS)
    ∧ termios_port_configured.cr2 = USART_CR2_STOP_2B
    ∧ termios_port_configured.cr3 = USART_CR3_CTSE
    ∧ (stm32_set_termios (CS8 ||| CREAD) 0 115200 termios_port_configured).cr2
        &&& USART_CR2_STOP_2B ≠ 0
    ∧ (stm32_set_termios (CS8 ||| CREAD) 0 115200 termios_port_configured).cr1
        &&& USART_CR1_PCE ≠ 0
    ∧ (stm32_set_termios (CS8 ||| CREAD) 0 115200 termios_port_configured).cr1
        &&& USART_CR1_PS ≠ 0
    ∧ (stm32_set_termios (CS8 ||| CREAD) 0 115200 termios_port_configured).cr3
        &&& USART_CR3_CTSE ≠ 0 := by
  decide

/-- C27 (the code at the failing input): on a 16 MHz port with CR1 = 0 a call
for 2000000 baud computes usartdiv = 8 < 16 and writes BRR for 8 times
oversampling (mantissa 1, fraction 0), but CR1 has OVER8 clear on return: the
bit set by stm32_set_bits is overwritten by the final write of the value of
CR1 read at entry. Likewise with OVER8 set at entry a call for 115200 baud
(usartdiv = 139, BRR = 139 for 16 times oversampling) returns with OVER8
still set. -/
theorem C27_over8_left_as_found :
    DIV_ROUND_CLOSEST termios_port_example.uartclk 2000000 = 8
    ∧ termios_port_example.cr1 = 0
    ∧ (stm32_set_termios (CS8 ||| CREAD) 0 2000000 termios_port_example).brr = 1 <<< 4
    ∧ (stm32_set_termios (CS8 ||| CREAD) 0 2000000 termios_port_example).cr1
        &&& USART_CR1_OVER8 = 0
    ∧ DIV_ROUND_CLOSEST termios_port_example.uartclk 115200 = 139
    ∧ (stm32_set_termios (CS8 ||| CREAD) 0 115200
        { termios_port_example with cr1 := USART_CR1_OVER8 }).brr = 139
    ∧ (stm32_set_termios (CS8 ||| CREAD) 0 115200
        { termios_port_example with cr1 := USART_CR1_OVER8 }).cr1
        &&& USART_CR1_OVER8 ≠ 0 := by
  decide

/-- Whatever is requested, the OVER8 bit `stm32_set_termios` leaves in CR1 is
the one it found there. -/
theorem set_termios_over8 (c_cflag c_iflag baud : Nat) (p : stm32_port) :
    (stm32_set_termios c_cflag c_iflag baud p).cr1 &&& USART_CR1_OVER8
      = p.cr1 &&& USART_CR1_OVER8 := by
  have key : ∀ x b : Nat, b &&& USART_CR1_OVER8 = 0 →
      (x ||| b) &&& USART_CR1_OVER8 = x &&& USART_CR1_OVER8 := by
    intro x b hb
    rw [Nat.and_distrib_right, hb, Nat.or_zero]
  have h1 : USART_CR1_PS &&& USART_CR1_OVER8 = 0 := by decide
  have h2 : USART_CR1_PCE &&& USART_CR1_OVER8 = 0 := by decide
  have h3 : USART_CR1_M &&& USART_CR1_OVER8 = 0 := by decide
  rw [(set_termios_regs c_cflag c_iflag baud p).2.1]
  split_ifs <;> simp only [id, key _ _ h1, key _ _ h2, key _ _ h3]

theorem brr_fields_over16 (d : Nat) (hd : d < 2 ^ 32) :
    u32 ((d / 16) <<< USART_BRR_DIV_M_SHIFT) ||| d % 16 = d := by
  have h1 : (d / 16) <<< USART_BRR_DIV_M_SHIFT = 2 ^ 4 * (d / 16) := by
    rw [Nat.shiftLeft_eq, Nat.mul_comm]
    rfl
  have h2 : u32 (2 ^ 4 * (d / 16)) = 2 ^ 4 * (d / 16) := by
    unfold u32
    omega
  have h3 : d % 16 < 2 ^ 4 := by omega
  rw [h1, h2, ← Nat.mul_add_lt_is_or h3]
  omega

/-- C29: baud-rate divisor encoding. For every uartclk and baud with
0 < baud <= uartclk / 8 and uartclk + baud / 2 within 32 bits, with
usartdiv = (uartclk + baud / 2) / baud, stm32_set_termios writes to BRR the
value ((usartdiv / ov) << 4) | (usartdiv % ov), where ov = 16 when
usartdiv >= 16 and ov = 8 otherwise. For usartdiv >= 16 this value is usartdiv
itself; for usartdiv < 16 the fraction field (bits 0-3) is at most 7; in both
cases usartdiv >= 8 and the mantissa field (bits 4 and up) is at least 1. -/
theorem C29_brr_divisor_encoding (c_cflag c_iflag baud : Nat) (p : stm32_port)
    (hb : 0 < baud) (hmax : baud ≤ p.uartclk / 8) (hov : p.uartclk + baud / 2 < 2 ^ 32) :
    (stm32_set_termios c_cflag c_iflag baud p).brr
        = (((p.uartclk + baud / 2) / baud
              / (if 16 ≤ (p.uartclk + baud / 2) / baud then 16 else 8)) <<< 4)
          ||| ((p.uartclk + baud / 2) / baud
              % (if 16 ≤ (p.uartclk + baud / 2) / baud then 16 else 8))
    ∧ (16 ≤ (p.uartclk + baud / 2) / baud →
        (stm32_set_termios c_cflag c_iflag baud p).brr = (p.uartclk + baud / 2) / baud)
    ∧ ((p.uartclk + baud / 2) / baud < 16 →
        (stm32_set_termios c_cflag c_iflag baud p).brr &&& 0xf ≤ 7)
    ∧ 8 ≤ (p.uartclk + baud / 2) / baud
    ∧ 1 ≤ (stm32_set_termios c_cflag c_iflag baud p).brr >>> 4 := by
  have hdiv : DIV_ROUND_CLOSEST p.uartclk baud = (p.uartclk + baud / 2) / baud := by
    unfold DIV_ROUND_CLOSEST u32
    rw [Nat.mod_eq_of_lt hov]
  have h8 : 8 ≤ (p.uartclk + baud / 2) / baud := by
    rw [Nat.le_div_iff_mul_le hb]
    omega
  have hlt : (p.uartclk + baud / 2) / baud < 2 ^ 32 :=
    Nat.lt_of_le_of_lt (Nat.div_le_self _ _) hov
  rw [(set_termios_regs c_cflag c_iflag baud p).1, hdiv]
  generalize (p.uartclk + baud / 2) / baud = d at h8 hlt
  clear hdiv hov hmax hb
  by_cases h16 : 16 ≤ d
  · have hn : ¬ d < 16 := by omega
    have hval := brr_fields_over16 d hlt
    have hval2 : (d / 16) <<< 4 ||| d % 16 = d := by
      have h3 : d % 16 < 2 ^ 4 := by omega
      rw [Nat.shiftLeft_eq, Nat.mul_comm, ← Nat.mul_add_lt_is_or h3]
      omega
    rw [if_neg hn, if_pos h16, hval, hval2]
    refine ⟨rfl, fun _ => rfl, fun h => absurd h hn, h8, ?_⟩
    rw [Nat.shiftRight_eq_div_pow]
    omega
  · have hl : d < 16 := by omega
    have hq : d / 8 = 1 := by omega
    have hf : d % 8 < 8 := by omega
    have hm : u32 (1 <<< USART_BRR_DIV_M_SHIFT) = 16 := by decide
    rw [if_pos hl, if_neg h16, hq, hm]
    generalize d % 8 = f at hf
    refine ⟨?_, fun h => absurd h h16, fun _ => ?_, h8, ?_⟩ <;>
      interval_cases f <;> decide

/-- Witness for C29: a 16 MHz clock at 115200 baud gives usartdiv = 139, and
BRR holds 139 (mantissa 8, fraction 11). -/
theorem C29_brr_divisor_encoding_witness :
    0 < 115200
    ∧ 115200 ≤ termios_port_example.uartclk / 8
    ∧ termios_port_example.uartclk + 115200 / 2 < 2 ^ 32
    ∧ (termios_port_example.uartclk + 115200 / 2) / 115200 = 139
    ∧ (stm32_set_termios (CS8 ||| CREAD) 0 115200 termios_port_example).brr = 139
    ∧ 1 ≤ (stm32_set_termios (CS8 ||| CREAD) 0 115200 termios_port_example).brr >>> 4 := by
  have h := C29_brr_divisor_encoding (CS8 ||| CREAD) 0 115200 termios_port_example
    (by decide) (by decide) (by decide)
  exact ⟨by decide, by decide, by decide, by decide, h.2.1 (by decide), h.2.2.2.2⟩

/-! ## The index invariant of the DMA receive pass -/

/-- C25 (as amended): the index invariant of the DMA receive pass. For a DMA
buffer of length L (below 2^31, as head and tail are C ints), whenever
stm32_rx_from_dma is entered with tail inside the buffer (tail <= L - 1) and
the engine reports a status other than DMA_ERROR and a residue <= L: the pass
returns (the BUG_ON on head > L does not fire), head is recomputed as
L - residue, which as an int lies between 0 and L, and on return
tail == head <= L - 1 (head wrapped to 0 at the buffer end). On DMA_ERROR the
pass returns before head is recomputed and leaves head and tail as they
were. -/
theorem C25_rx_dma_index_invariant (dmastat : dma_status) (residue : Nat) (p : stm32_port)
    (hne : dmastat ≠ .DMA_ERROR)
    (hlen : p.dma_rx.sg.dma_length < 2 ^ 31)
    (hres : residue ≤ p.dma_rx.sg.dma_length)
    (htail : p.rx_ring.tail < p.dma_rx.sg.dma_length) :
    (∃ p1, stm32_rx_from_dma dmastat residue p = some p1
      ∧ s32 (u32 (p.dma_rx.sg.dma_length + 2 ^ 32 - u32 residue))
          = ((p.dma_rx.sg.dma_length - residue : Nat) : Int)
      ∧ p.dma_rx.sg.dma_length - residue ≤ p.dma_rx.sg.dma_length
      ∧ p1.rx_ring.head = (p.dma_rx.sg.dma_length - residue) % p.dma_rx.sg.dma_length
      ∧ p1.rx_ring.tail = p1.rx_ring.head
      ∧ p1.rx_ring.tail < p.dma_rx.sg.dma_length)
    ∧ stm32_rx_from_dma .DMA_ERROR residue p = some (tasklet_schedule p)
    ∧ (tasklet_schedule p).rx_ring = p.rx_ring := by
  obtain ⟨p1, h1, h2, h3, -⟩ := rx_from_dma_ring dmastat residue p hne hlen hres htail
  have hpos : 0 < p.dma_rx.sg.dma_length := by omega
  have h0 : u32 (p.dma_rx.sg.dma_length + 2 ^ 32 - u32 residue)
      = p.dma_rx.sg.dma_length - residue := by
    unfold u32
    omega
  refine ⟨⟨p1, h1, ?_, Nat.sub_le _ _, h2, by rw [h2, h3], ?_⟩, rfl, rfl⟩
  · rw [h0]
    exact s32_of_lt _ (by omega)
  · rw [h3]
    exact Nat.mod_lt _ hpos

/-- Witness for C25: the 8192-byte buffer with tail at 100 and the engine
reporting residue 0 (write position at the buffer end); the pass returns with
head and tail wrapped to 0. -/
theorem C25_rx_dma_index_invariant_witness :
    dma_status.DMA_IN_PROGRESS ≠ dma_status.DMA_ERROR
    ∧ dma_rx_port_example.dma_rx.sg.dma_length < 2 ^ 31
    ∧ 0 ≤ dma_rx_port_example.dma_rx.sg.dma_length
    ∧ dma_rx_port_example.rx_ring.tail < dma_rx_port_example.dma_rx.sg.dma_length
    ∧ ∃ p1, stm32_rx_from_dma .DMA_IN_PROGRESS 0 dma_rx_port_example = some p1
        ∧ p1.rx_ring.head = 0 ∧ p1.rx_ring.tail = 0 := by
  obtain ⟨⟨p1, h1, -, -, h5, h6, -⟩, -, -⟩ := C25_rx_dma_index_invariant .DMA_IN_PROGRESS 0
    dma_rx_port_example (by decide) (by decide) (by decide) (by decide)
  have h0 : p1.rx_ring.head = 0 := by
    rw [h5]
    rfl
  exact ⟨by decide, by decide, by decide, by decide, p1, h1, h0, by rw [h6, h0]⟩

/-- Counterexample to C25 as stated: the port started in DMA receive mode,
after a tasklet pass and an interrupt that ran the producer loop, has
head = 1 and tail = 4096 in its 8192-byte buffer. A pass of stm32_rx_from_dma
entered there with tail inside the buffer, for which the engine reports
DMA_ERROR (residue 0), returns with tail = 4096 and head = 1: tail == head
does not hold on return. -/
theorem C25_counterexample :
    dma_rx_port_after_irq.map
        (fun p => (p.dma_rx.sg.dma_length, p.rx_ring.head, p.rx_ring.tail))
      = some (8192, 1, 4096)
    ∧ (dma_rx_port_after_irq.bind (fun p => stm32_rx_from_dma .DMA_ERROR 0 p)).map
        (fun q => (q.rx_ring.head, q.rx_ring.tail))
      = some (1, 4096)
    ∧ (1 : Nat) ≠ 4096 := by
  decide

/-! ## Draining the transmit queue by DMA -/

theorem xmit_run_succ (buf : Nat → Nat) (off len : Nat) :
    xmit_run buf off (len + 1) = buf off :: xmit_run buf (off + 1) len := by
  unfold xmit_run
  rw [List.range_succ_eq_map, List.map_cons, List.map_map]
  refine congrArg₂ _ rfl (List.map_congr_left ?_)
  intro i _
  show buf (off + (i + 1)) = buf (off + 1 + i)
  rw [Nat.add_assoc, Nat.add_comm 1 i]

/-- A run that ends within the buffer is the queue content in FIFO order. -/
theorem xmit_slots_eq_run (buf : Nat → Nat) (n tail : Nat) (h : tail + n ≤ 4096) :
    xmit_slots buf tail n = xmit_run buf tail n := by
  induction n generalizing tail with
  | zero => rfl
  | succ n ih =>
    rw [xmit_run_succ]
    simp only [xmit_slots, UART_XMIT_SIZE]
    by_cases hn : n = 0
    · subst hn
      rfl
    · rw [Nat.mod_eq_of_lt (by omega), ih (tail + 1) (by omega)]

theorem xmit_slots_append (buf : Nat → Nat) (a b tail : Nat) (ht : tail < 4096) :
    xmit_slots buf tail (a + b)
      = xmit_slots buf tail a ++ xmit_slots buf ((tail + a) % 4096) b := by
  induction a generalizing tail with
  | zero =>
    rw [Nat.zero_add, Nat.add_zero, Nat.mod_eq_of_lt ht]
    rfl
  | succ a ih =>
    have h1 : a + 1 + b = (a + b) + 1 := by omega
    have h2 : ((tail + 1) % 4096 + a) % 4096 = (tail + (a + 1)) % 4096 := by omega
    rw [h1]
    simp only [xmit_slots, UART_XMIT_SIZE, List.cons_append]
    rw [ih ((tail + 1) % 4096) (Nat.mod_lt _ (by decide)), h2]

/-- A DMA transmit step, whenever it returns, has left the stop flag as it
was. -/
theorem tx_with_dma_stopped (prep : Option Nat) (p q : stm32_port)
    (hrun : stm32_tx_with_dma prep p = some q) :
    q.tx_stopped = p.tx_stopped := by
  unfold stm32_tx_with_dma uart_write_wakeup dma_call at hrun
  cases prep <;> dsimp only at hrun <;> split_ifs at hrun <;>
    (cases hrun; rfl)

/-- The completion callback, whenever it returns, has handed no new run to
the DMA engine and has left the stop flag as it was. -/
theorem complete_tx_dma_frame (p q : stm32_port)
    (hrun : stm32_complete_tx_dma p = some q) :
    q.tx_stopped = p.tx_stopped ∧ tx_dma_runs q.dma_log = tx_dma_runs p.dma_log := by
  unfold stm32_complete_tx_dma at hrun
  dsimp only at hrun
  split at hrun
  · exact absurd hrun (by simp)
  · cases hrun
    cases hc : p.dma_tx.chan <;>
      simp only [hc, spin_unlock, tasklet_schedule, uart_write_wakeup, spin_lock, dma_call,
        apply_ite stm32_port.tx_stopped, apply_ite stm32_port.dma_log, ite_self, true_and,
        tx_dma_runs, List.filterMap_append, List.filterMap_cons, List.filterMap_nil,
        List.append_nil]

/-- One arm/complete round on an idle channel with a non-empty queue that is
not stopped: the run from `tail` to the lesser of `head` and the buffer end is
handed to the DMA engine and retired. -/
theorem tx_dma_round_effect (dsc : Nat) (p : stm32_port)
    (hidle : p.dma_tx.dsc = none) (hne : p.xmit.head ≠ p.xmit.tail)
    (hst : p.tx_stopped = false)
    (hh : p.xmit.head < 4096) (ht : p.xmit.tail < 4096) :
    ∃ p1, tx_dma_round dsc p = some p1
      ∧ p1.xmit.tail
          = (p.xmit.tail + min ((p.xmit.head + 4096 - p.xmit.tail) % 4096)
              (4096 - p.xmit.tail)) % 4096
      ∧ p1.xmit.head = p.xmit.head
      ∧ p1.xmit.buf = p.xmit.buf
      ∧ p1.icount.tx
          = u32 (p.icount.tx + min ((p.xmit.head + 4096 - p.xmit.tail) % 4096)
              (4096 - p.xmit.tail))
      ∧ p1.dma_tx.dsc = none
      ∧ p1.tx_stopped = false
      ∧ tx_dma_runs p1.dma_log
          = tx_dma_runs p.dma_log
            ++ [(p.xmit.tail, min ((p.xmit.head + 4096 - p.xmit.tail) % 4096)
                  (4096 - p.xmit.tail))]
      ∧ (p1.xmit.head ≠ p1.xmit.tail → p1.tasklet_scheduled = true) := by
  obtain ⟨q, hq, -, hlen, -, hdsc, -, hx, hic, -, hlog⟩ :=
    tx_with_dma_arm (some dsc) p hidle hne hst hh ht
  obtain ⟨p1, hp1, h1, h2, h3, h4, h5, -, h7, -⟩ := complete_tx_dma_effect q dsc hdsc
  obtain ⟨hs1, hr1⟩ := complete_tx_dma_frame q p1 hp1
  have hs0 := tx_with_dma_stopped (some dsc) p q hq
  rw [hlen, hx] at h1 h7
  rw [hlen, hic] at h4
  rw [hx] at h2 h3
  refine ⟨p1, ?_, h1, h2, h3, h4, h5, by rw [hs1, hs0, hst], ?_, ?_⟩
  · unfold tx_dma_round
    rw [hq]
    exact hp1
  · rw [hr1, hlog]
    simp [tx_dma_runs, List.filterMap_append]
  · intro hne1
    rw [h7]
    rw [h1, h2] at hne1
    simp [hne1]

/-- C26: a DMA transmit queue drains in at most two arm/complete rounds. For
a transmit queue with C >= 1 pending bytes (indices in the buffer), an idle
channel, transmission not stopped, head held fixed and descriptor preparation
succeeding: when the pending data does not wrap (tail + C <= UART_XMIT_SIZE)
one round of stm32_tx_with_dma and stm32_complete_tx_dma empties the queue,
the run handed to the engine being (tail, C); otherwise the first round
transfers the run from tail to the buffer end and leaves the queue non-empty
with the tasklet requested, and the second round transfers the run from the
buffer start to head and empties the queue. The runs concatenated are the C
pending bytes in FIFO order and the tx counter (a u32) has advanced by C. -/
theorem C26_tx_dma_drains_in_two_rounds (d1 d2 : Nat) (p : stm32_port)
    (hidle : p.dma_tx.dsc = none) (hne : uart_circ_empty p.xmit = false)
    (hst : p.tx_stopped = false)
    (hh : p.xmit.head < UART_XMIT_SIZE) (ht : p.xmit.tail < UART_XMIT_SIZE) :
    (p.xmit.tail + uart_circ_chars_pending p.xmit ≤ UART_XMIT_SIZE →
      ∃ p1, tx_dma_round d1 p = some p1
        ∧ uart_circ_empty p1.xmit = true
        ∧ p1.xmit.buf = p.xmit.buf
        ∧ tx_dma_runs p1.dma_log
            = tx_dma_runs p.dma_log ++ [(p.xmit.tail, uart_circ_chars_pending p.xmit)]
        ∧ xmit_run p.xmit.buf p.xmit.tail (uart_circ_chars_pending p.xmit)
            = xmit_slots p.xmit.buf p.xmit.tail (uart_circ_chars_pending p.xmit)
        ∧ p1.icount.tx = u32 (p.icount.tx + uart_circ_chars_pending p.xmit))
    ∧ (UART_XMIT_SIZE < p.xmit.tail + uart_circ_chars_pending p.xmit →
      ∃ p1 p2, tx_dma_round d1 p = some p1
        ∧ uart_circ_empty p1.xmit = false
        ∧ p1.tasklet_scheduled = true
        ∧ tx_dma_round d2 p1 = some p2
        ∧ uart_circ_empty p2.xmit = true
        ∧ p2.xmit.buf = p.xmit.buf
        ∧ tx_dma_runs p2.dma_log
            = tx_dma_runs p.dma_log
              ++ [(p.xmit.tail, UART_XMIT_SIZE - p.xmit.tail), (0, p.xmit.head)]
        ∧ xmit_run p.xmit.buf p.xmit.tail (UART_XMIT_SIZE - p.xmit.tail)
            ++ xmit_run p.xmit.buf 0 p.xmit.head
            = xmit_slots p.xmit.buf p.xmit.tail (uart_circ_chars_pending p.xmit)
        ∧ p2.icount.tx = u32 (p.icount.tx + uart_circ_chars_pending p.xmit)) := by
  have hne1 : p.xmit.head ≠ p.xmit.tail := by
    simpa [uart_circ_empty] using hne
  have hC : uart_circ_chars_pending p.xmit = (p.xmit.head + 4096 - p.xmit.tail) % 4096 :=
    circ_cnt_xmit _ _ hh ht
  have hS : UART_XMIT_SIZE = 4096 := rfl
  rw [hC, hS]
  rw [hS] at hh ht
  obtain ⟨p1, hr1, ht1, hh1, hb1, hc1, hd1, hs1, hl1, hk1⟩ :=
    tx_dma_round_effect d1 p hidle hne1 hst hh ht
  clear hC hne hidle hst
  constructor
  · intro hfit
    have hmin : min ((p.xmit.head + 4096 - p.xmit.tail) % 4096) (4096 - p.xmit.tail)
        = (p.xmit.head + 4096 - p.xmit.tail) % 4096 := by omega
    rw [hmin] at ht1 hc1 hl1
    refine ⟨p1, hr1, ?_, hb1, hl1, (xmit_slots_eq_run _ _ _ hfit).symm, hc1⟩
    have : p1.xmit.head = p1.xmit.tail := by
      rw [hh1, ht1]
      omega
    simp [uart_circ_empty, this]
  · intro hwrap
    have hmin : min ((p.xmit.head + 4096 - p.xmit.tail) % 4096) (4096 - p.xmit.tail)
        = 4096 - p.xmit.tail := by omega
    rw [hmin] at ht1 hc1 hl1
    have ht0 : p1.xmit.tail = 0 := by
      rw [ht1]
      omega
    have hpos : 0 < p.xmit.head := by omega
    have hne2 : p1.xmit.head ≠ p1.xmit.tail := by
      rw [hh1, ht0]
      omega
    obtain ⟨p2, hr2, ht2, hh2, hb2, hc2, -, -, hl2, -⟩ :=
      tx_dma_round_effect d2 p1 hd1 hne2 hs1 (by rw [hh1]; exact hh) (by rw [ht0]; decide)
    rw [hh1, ht0] at ht2 hc2 hl2
    have hmin2 : min ((p.xmit.head + 4096 - 0) % 4096) (4096 - 0) = p.xmit.head := by omega
    rw [hmin2] at ht2 hc2 hl2
    have hsplit : (p.xmit.head + 4096 - p.xmit.tail) % 4096
        = (4096 - p.xmit.tail) + p.xmit.head := by omega
    refine ⟨p1, p2, hr1, ?_, hk1 hne2, hr2, ?_, by rw [hb2, hb1], ?_, ?_, ?_⟩
    · simp [uart_circ_empty, hne2]
    · have : p2.xmit.head = p2.xmit.tail := by
        rw [hh2, hh1, ht2]
        omega
      simp [uart_circ_empty, this]
    · rw [hl2, hl1, List.append_assoc]
      rfl
    · rw [hsplit, xmit_slots_append _ _ _ _ ht,
        xmit_slots_eq_run _ _ _ (by omega)]
      have h0 : (p.xmit.tail + (4096 - p.xmit.tail)) % 4096 = 0 := by omega
      rw [h0, xmit_slots_eq_run _ _ _ (by omega)]
    · rw [hc2, hc1, hsplit]
      generalize p.icount.tx = tx
      unfold u32
      omega

/-- Witness for C26: the wrapping 5-byte queue (tail 4094, head 3) drains in
two rounds, the runs being (4094, 2) and (0, 3). -/
theorem C26_tx_dma_drains_in_two_rounds_witness :
    tx_dma_port_example.dma_tx.dsc = none
    ∧ uart_circ_empty tx_dma_port_example.xmit = false
    ∧ tx_dma_port_example.tx_stopped = false
    ∧ tx_dma_port_example.xmit.head < UART_XMIT_SIZE
    ∧ tx_dma_port_example.xmit.tail < UART_XMIT_SIZE
    ∧ UART_XMIT_SIZE
        < tx_dma_port_example.xmit.tail + uart_circ_chars_pending tx_dma_port_example.xmit
    ∧ ∃ p1 p2, tx_dma_round 7 tx_dma_port_example = some p1
        ∧ tx_dma_round 8 p1 = some p2
        ∧ uart_circ_empty p2.xmit = true
        ∧ tx_dma_runs p2.dma_log = [(4094, 2), (0, 3)] := by
  have hw : UART_XMIT_SIZE
      < tx_dma_port_example.xmit.tail + uart_circ_chars_pending tx_dma_port_example.xmit := by
    decide
  obtain ⟨p1, p2, h1, -, -, h2, h3, -, h4, -, -⟩ :=
    (C26_tx_dma_drains_in_two_rounds 7 8 tx_dma_port_example rfl rfl rfl (by decide)
      (by decide)).2 hw
  exact ⟨rfl, rfl, rfl, by decide, by decide, hw, p1, p2, h1, h2, h3, h4⟩

/-! ## Where the producer stores in DMA mode -/

/-- C28 (the code at the failing input): a zeroed port is started with DMA in
the receive direction; one tasklet run with the cyclic transfer half way
through its buffer leaves head = tail = 4096, the byte offset of the DMA write
position. The interrupt handler then reads a status with RXNE and TXE set and
calls stm32_receive_chars, which finds CIRC_SPACE nonzero and stores the
character in slot 4096 of the ring, outside its 1024 slots, before masking
head to 1. -/
theorem C28_receive_chars_stores_outside_ring :
    dma_rx_port_after_pass.map
        (fun p => (p.dma_rx.use, p.schedule_rx, p.dma_rx.sg.dma_length, p.rx_ring.head,
          p.rx_ring.tail, p.rx_ring.buf 4096))
      = some (true, some .stm32_rx_from_dma, 8192, 4096, 4096, {})
    ∧ dma_rx_port_after_pass.map
        (fun p =>
          CIRC_SPACE p.rx_ring.head p.rx_ring.tail STM32_SERIAL_RINGSIZE)
      = some 1023
    ∧ dma_rx_port_after_pass.map
        (fun p =>
          ((stm32_interrupt (USART_SR_RXNE ||| USART_SR_TXE) [(USART_SR_RXNE, 0x41)]
              p).2.2.rx_ring.buf 4096,
           (stm32_interrupt (USART_SR_RXNE ||| USART_SR_TXE) [(USART_SR_RXNE, 0x41)]
              p).2.2.rx_ring.head))
      = some ({ sr := USART_SR_RXNE, ch := 0x41 }, 1)
    ∧ ¬ 4096 < STM32_SERIAL_RINGSIZE := by
  decide

/-! ## Which operation writes which ring index -/

/-- The shut-down, whenever it returns, has reset both ring indices. -/
theorem shutdown_ring (p q : stm32_port) (hrun : stm32_shutdown p = some q) :
    q.rx_ring.head = 0 ∧ q.rx_ring.tail = 0 := by
  unfold stm32_shutdown at hrun
  dsimp only at hrun
  split at hrun
  · exact absurd hrun (by simp)
  · split at hrun
    · exact absurd hrun (by simp)
    · cases hrun
      exact ⟨rfl, rfl⟩

/-- On a port whose functions are those `stm32_set_ops` installs the
shut-down returns. -/
theorem shutdown_returns (p : stm32_port) (hops : stm32_set_ops p = p) :
    ∃ q, stm32_shutdown p = some q := by
  have hE := set_ops_eq p
  rw [hops] at hE
  have hrx : p.release_rx = if p.dma_rx.use then some .stm32_release_rx_dma else none := by
    have h := congrArg stm32_port.release_rx hE
    exact h
  have htx : p.release_tx = if p.dma_tx.use then some .stm32_release_tx_dma else none := by
    have h := congrArg stm32_port.release_tx hE
    exact h
  clear hE hops
  have hr0 : (writel_relaxed 0 USART_CR1 (tasklet_kill (tasklet_disable p))).release_rx
      = p.release_rx := rfl
  have ht0 : (writel_relaxed 0 USART_CR1 (tasklet_kill (tasklet_disable p))).release_tx
      = p.release_tx := rfl
  have hrt : ∀ q : stm32_port, (stm32_release_rx_dma q).release_tx = q.release_tx := by
    intro q
    unfold stm32_release_rx_dma
    cases q.dma_rx.chan <;> rfl
  unfold stm32_shutdown
  dsimp only
  rw [hr0, hrx]
  cases p.dma_rx.use <;> cases hut : p.dma_tx.use <;>
    simp only [Bool.false_eq_true, if_false, if_true, call_release, hrt, ht0, htx, hut] <;>
    exact ⟨_, rfl⟩

/-- C4 (as amended): which operation writes which ring index. The producer
stm32_receive_chars, and the interrupt handler that calls it, never change
tail. In byte mode the deferred worker's receive step stm32_rx_from_ring never
changes head (and, on a ring with indices in range and with fuel for every
entry, returns with tail moved up to head). In DMA mode the completion
callback stm32_complete_rx_dma writes neither index, and the deferred worker's
receive step stm32_rx_from_dma writes both: on a non-error status (buffer
length below 2^31, residue within the length, tail inside the buffer) it sets
head to the DMA write position, length - residue wrapped to 0 at the buffer
end, and moves tail up to it; on DMA_ERROR it writes neither. stm32_shutdown
resets both indices to 0. -/
theorem C4_ring_index_writers {σ : Type} (k : serial_core σ) (fuel : Nat) (s : σ)
    (p : stm32_port) (sr : Nat) (reads : List (Nat × Nat)) (dmastat : dma_status)
    (residue : Nat) :
    (stm32_receive_chars reads p).2.rx_ring.tail = p.rx_ring.tail
    ∧ (stm32_interrupt sr reads p).2.2.rx_ring.tail = p.rx_ring.tail
    ∧ (∀ r, stm32_rx_from_ring k fuel s p = some r → r.2.rx_ring.head = p.rx_ring.head)
    ∧ (p.rx_ring.head < STM32_SERIAL_RINGSIZE → p.rx_ring.tail < STM32_SERIAL_RINGSIZE →
        CIRC_CNT p.rx_ring.head p.rx_ring.tail STM32_SERIAL_RINGSIZE ≤ fuel →
        ∃ r, stm32_rx_from_ring k fuel s p = some r
          ∧ r.2.rx_ring.head = p.rx_ring.head ∧ r.2.rx_ring.tail = p.rx_ring.head)
    ∧ (stm32_complete_rx_dma p).rx_ring.head = p.rx_ring.head
    ∧ (stm32_complete_rx_dma p).rx_ring.tail = p.rx_ring.tail
    ∧ (dmastat ≠ .DMA_ERROR → p.dma_rx.sg.dma_length < 2 ^ 31 →
        residue ≤ p.dma_rx.sg.dma_length → p.rx_ring.tail < p.dma_rx.sg.dma_length →
        ∃ p1, stm32_rx_from_dma dmastat residue p = some p1
          ∧ p1.rx_ring.head = (p.dma_rx.sg.dma_length - residue) % p.dma_rx.sg.dma_length
          ∧ p1.rx_ring.tail = p1.rx_ring.head)
    ∧ stm32_rx_from_dma .DMA_ERROR residue p = some (tasklet_schedule p)
    ∧ (∀ q, stm32_shutdown p = some q → q.rx_ring.head = 0 ∧ q.rx_ring.tail = 0)
    ∧ (stm32_set_ops p = p → ∃ q, stm32_shutdown p = some q) := by
  refine ⟨receive_loop_tail reads p, ?_, ?_, ?_, rfl, rfl, ?_, rfl, ?_, shutdown_returns p⟩
  · rw [(interrupt_effect sr reads p).2.2.2.2.2.2.2.2]
    split
    · exact receive_loop_tail reads p
    · rfl
  · intro r hr
    exact (rx_from_ring_head k fuel s p r hr).1
  · intro hh ht hfuel
    obtain ⟨s1, p1, h1, h2, -⟩ := rx_from_ring_summary k fuel s p hh ht hfuel
    refine ⟨(s1, p1), h1, ?_, ?_⟩
    · show p1.rx_ring.head = p.rx_ring.head
      rw [h2]
    · show p1.rx_ring.tail = p.rx_ring.head
      rw [h2]
  · intro hne hlen hres htail
    obtain ⟨p1, h1, h2, h3, -⟩ := rx_from_dma_ring dmastat residue p hne hlen hres htail
    exact ⟨p1, h1, h2, by rw [h2, h3]⟩
  · intro q hq
    exact shutdown_ring p q hq

/-- Witness for C4: a DMA-mode port with an 8192-byte buffer, tail at 100 and
a residue of 8000, with the functions of its mode installed. The producer
leaves tail at 100, the worker's receive step moves head (and tail) to 192,
and the shut-down returns with both indices at 0. -/
theorem C4_ring_index_writers_witness :
    (stm32_receive_chars [(0x20, 0x41)] (stm32_set_ops dma_rx_port_example)).2.rx_ring.tail
      = 100
    ∧ (∃ p1, stm32_rx_from_dma .DMA_IN_PROGRESS 8000 (stm32_set_ops dma_rx_port_example)
          = some p1
        ∧ p1.rx_ring.head = 192 ∧ p1.rx_ring.tail = p1.rx_ring.head)
    ∧ (∃ q, stm32_shutdown (stm32_set_ops dma_rx_port_example) = some q
        ∧ q.rx_ring.head = 0 ∧ q.rx_ring.tail = 0) := by
  have h := C4_ring_index_writers serial_core_plain 0 () (stm32_set_ops dma_rx_port_example)
    0x20 [(0x20, 0x41)] .DMA_IN_PROGRESS 8000
  obtain ⟨h1, -, -, -, -, -, h7, -, h9, h10⟩ := h
  obtain ⟨p1, g1, g2, g3⟩ := h7 (by decide) (by decide) (by decide) (by decide)
  obtain ⟨q, hq⟩ := h10 (by rw [set_ops_eq, set_ops_eq])
  exact ⟨h1, ⟨p1, g1, g2, g3⟩, q, hq, h9 q hq⟩

end Stm32Usart
